import Mathlib

/-!
# euboot: protocol engine and NVM executor

A shallow embedding of the EDBG fragment layer (`jtag.cpp`), the JTAGICE3 scope
handlers and the UPDI NVM executor (`nvmv4.cpp`) of the `euboot` firmware.

Conventions of the embedding:

* the target is an 8-bit AVR: `uint8_t` values are naturals reduced modulo 256,
  `size_t`, `uint16_t` and data pointers are naturals reduced modulo 65536, and
  `int` is 16 bits wide;
* a byte array is a map from an index to a byte.  `rawData i` is the byte at
  `&packet.rawData[0] + i`; indices 0..539 are the declared array, larger
  indices are the memory that follows it in the 16-bit address space;
* `packet` is an object of the data space: a store or a load through a data pointer
  (`(void*)_dwAddr`) whose address falls into the 540 bytes at `packet_addr` goes to
  `rawData`, any other address goes to `mem`.  The link addresses of the other globals
  and the addresses of the device registers are not given by the sources; they are not
  reachable through a data pointer here, and the bytes behind the declared array are
  kept apart from `mem`;
* `dap_data i` is the byte at `&EP_MEM.dap_data[0] + i`;
* the free-standing globals of the firmware are the fields of one record.
-/

namespace Euboot

/-- Truncation to `uint8_t`. -/
def u8 (x : Nat) : Nat := x % 256

/-- Truncation to `uint16_t` / `size_t` / a data pointer. -/
def u16 (x : Nat) : Nat := x % 65536

/-- Single byte store `a[i] = v`. -/
def setByte (a : Nat → Nat) (i v : Nat) : Nat → Nat :=
  fun j => if j = i then v else a j

/-- Forward byte copy `memcpy(&dst[d], &src[0], n)`: byte `k` of the source goes to the
    16-bit address `d + k`, for `k = 0 .. n-1` in ascending order. -/
def memcpy (dst : Nat → Nat) (d : Nat) (src : Nat → Nat) : Nat → Nat → Nat
  | 0 => dst
  | n + 1 => setByte (memcpy dst d src n) (u16 (d + n)) (src n)

/-- NVM controller commands used by the executor (`NVMCTRL_CMD_*_gc`); the device header
    that gives their numeric codes is not part of the sources, so they are kept symbolic. -/
inductive NvmCmd where
  | NONE
  | EEERWR
  | FLPER
  | FLWR
  deriving DecidableEq

/-- Flash mapping selections (`NVMCTRL_FLMAP_SECTION0_gc`, `NVMCTRL_FLMAP_SECTION1_gc`),
    kept symbolic for the same reason. -/
inductive FlMap where
  | SECTION0
  | SECTION1
  deriving DecidableEq

/-- What the executor does to the NVM controller and to the data space, in program order:
    `cmd c` is `nvm_cmd(c)`, `store a v` is `*((uint8_t*)a) = v`, `copy a data` is
    `memcpy((void*)a, &packet.out.memData[0], data.length)`, recorded with the payload
    bytes `data` of the request as they stand on entry to `write_memory`, and `ctrlb sel`
    is `_PROTECTED_WRITE(NVMCTRL_CTRLB, sel)`. -/
inductive NvmEvent where
  | cmd (c : NvmCmd)
  | store (addr v : Nat)
  | copy (addr : Nat) (data : List Nat)
  | ctrlb (sel : FlMap)
  deriving DecidableEq

/-- The global workspace of the firmware (`main.cpp`, nameless namespace) together with the
    memories and registers the protocol engine touches. -/
structure Engine where
  /-- Array `EP_MEM.dap_data`: the 64-byte DAP report, request on entry and response on exit. -/
  dap_data : Nat → Nat
  /-- Array `packet.rawData`, shared by the `out` and `in` views of `JTAG_Packet_t`. -/
  rawData : Nat → Nat
  _packet_length : Nat
  _packet_fragment : Nat
  _packet_chunks : Nat
  _packet_endfrag : Nat
  _jtag_arch : Nat
  _jtag_conn : Nat
  _bootsize : Nat
  _led_next : Nat
  _set_config : Nat
  /-- Global `Device_Descriptor`, as bytes. -/
  Device_Descriptor : Nat → Nat
  /-- Link address of `packet` in the data space, `&packet.rawData[0]`. -/
  packet_addr : Nat
  /-- The data space outside the object `packet`, by 16-bit address. -/
  mem : Nat → Nat
  /-- The program space as read by `memcpy_P`, by 16-bit address. -/
  progmem : Nat → Nat
  /-- Link address of `NVM::V4::_sib` in the program space. -/
  sib_addr : Nat
  /-- Link address of `JTAG::jtag_version` in the program space. -/
  jtag_version_addr : Nat
  /-- Register `GPR_GPR0` as used by `set_flmap`. -/
  GPR_GPR0 : FlMap
  /-- Register `NVMCTRL_CTRLB` flash-map selection. -/
  NVMCTRL_CTRLB : FlMap
  /-- Controller commands and data-space stores issued so far, oldest first. -/
  nvm_log : List NvmEvent
  /-- Set once `DAP_CMD_DISCONNECT` has rewritten `WDT_CTRLA` to the 128-clock period. -/
  wdt_short : Bool
  /-- Register `GPCONF` (`GPR_GPR2`). -/
  GPCONF : Nat
  /-- Register `ADC0_SAMPLE` as the next conversion of `SYS::get_vdd` reads it. -/
  ADC0_SAMPLE : Nat
  USB0_ADDR : Nat
  USB0_CTRLA : Nat
  /-- Registers `EP_DPI.CNT`, `EP_DPI.MCNT` and `EP_DPO.CNT` of the endpoint table. -/
  EP_DPI_CNT : Nat
  EP_DPI_MCNT : Nat
  EP_DPO_CNT : Nat

/-! ## Packet views (`prototype.h`, `JTAG_Packet_t`, packed, little-endian) -/

/-- Field `packet.out.scope`, offset 4. -/
def out_scope (s : Engine) : Nat := u8 (s.rawData 4)

/-- Field `packet.out.cmd`, offset 5. -/
def out_cmd (s : Engine) : Nat := u8 (s.rawData 5)

/-- Field `packet.out.bMType`, offset 7. -/
def out_bMType (s : Engine) : Nat := u8 (s.rawData 7)

/-- The low word of `packet.out.dwAddr`, offsets 8 and 9 (the high word is ignored). -/
def out_dwAddr (s : Engine) : Nat := u8 (s.rawData 8) + 256 * u8 (s.rawData 9)

/-- The low word of `packet.out.dwLength`, offsets 12 and 13, as `size_t`. -/
def out_dwLength (s : Engine) : Nat := u8 (s.rawData 12) + 256 * u8 (s.rawData 13)

/-- Field `packet.out.memData[k]`, offset 17 + k. -/
def out_memData (s : Engine) (k : Nat) : Nat := s.rawData (u16 (17 + k))

/-- Field `packet.out.section`, offset 7. -/
def out_section (s : Engine) : Nat := u8 (s.rawData 7)

/-- Field `packet.out.index`, offset 8. -/
def out_index (s : Engine) : Nat := u8 (s.rawData 8)

/-- Field `packet.out.length`, offset 9. -/
def out_length (s : Engine) : Nat := u8 (s.rawData 9)

/-- Field `packet.out.wValue`, offsets 10 and 11. -/
def out_wValue (s : Engine) : Nat := u8 (s.rawData 10) + 256 * u8 (s.rawData 11)

/-- Field `packet.out.setData[k]`, offset 10 + k. -/
def out_setData (s : Engine) (k : Nat) : Nat := s.rawData (10 + k)

/-- Assignment `packet.in.res = v` (16 bits at offsets 5 and 6). -/
def set_in_res (v : Nat) (s : Engine) : Engine :=
  { s with rawData := setByte (setByte s.rawData 5 (u8 v)) 6 (u8 (v / 256)) }

/-- Assignment `packet.in.wValue = v` (16 bits at offsets 7 and 8). -/
def set_in_wValue (v : Nat) (s : Engine) : Engine :=
  { s with rawData := setByte (setByte s.rawData 7 (u8 v)) 8 (u8 (v / 256)) }

/-- Field `packet.in.res` read back. -/
def in_res (s : Engine) : Nat := u8 (s.rawData 5) + 256 * u8 (s.rawData 6)

/-- Field `packet.in.data[k]`, offset 7 + k. -/
def in_data (s : Engine) (k : Nat) : Nat := s.rawData (7 + k)

/-! ## Program-space constants -/

/-- Constant `NVM::V4::_sib`: "AVR     P:4D:1-3M2 (EDBG.Boot.)" and the terminating NUL, 32 bytes. -/
def _sib : List Nat :=
  [65, 86, 82, 32, 32, 32, 32, 32, 80, 58, 52, 68, 58, 49, 45, 51,
   77, 50, 32, 40, 69, 68, 66, 71, 46, 66, 111, 111, 116, 46, 41, 0]

/-- Constant `JTAG::jtag_version`, `CONFIG_SYS_FWVER`. -/
def jtag_version : List Nat := [52, 3, 72, 48, 0]

/-- Byte `k` counted from the start of a program-space array linked at `base`: the array
    itself, then whatever follows it in the program space. -/
def pgm_array (s : Engine) (arr : List Nat) (base k : Nat) : Nat :=
  if k < arr.length then arr.getD k 0 else s.progmem (u16 (base + k))

/-! ## `usb.cpp`, `sys.cpp`, `main.cpp` collaborators -/

/-- Function `USB::complete_dap_out`: `ep_dpi_listen` then `ep_dpo_listen`.  The endpoint status
    bits handed back to the USB controller are not part of the record. -/
def complete_dap_out (s : Engine) : Engine :=
  { s with EP_DPI_CNT := 64, EP_DPI_MCNT := 0, EP_DPO_CNT := 0 }

/-- Function `SYS::get_vdd`: the value computed from the ADC sample,
    `_adc_reading += (_adc_reading << 3) + _adc_reading`. -/
def get_vdd (s : Engine) : Nat :=
  let r := u16 s.ADC0_SAMPLE
  u16 (r + u16 (u16 (r <<< 3) + r))

/-- Function `nvm_cmd`: hand one command to the NVM controller. -/
def nvm_cmd (c : NvmCmd) (s : Engine) : Engine :=
  { s with nvm_log := s.nvm_log ++ [NvmEvent.cmd c] }

/-! ## The data space as the executor addresses it -/

/-- Store `*((uint8_t*)a) = v` through a data pointer: into `packet` when `a` is one of
    its 540 addresses, into the rest of the data space otherwise. -/
def data_store (a v : Nat) (s : Engine) : Engine :=
  if s.packet_addr ≤ a ∧ a < s.packet_addr + 540 then
    { s with rawData := setByte s.rawData (a - s.packet_addr) v }
  else
    { s with mem := setByte s.mem a v }

/-- Load `*((uint8_t*)a)` through a data pointer. -/
def data_load (a : Nat) (s : Engine) : Nat :=
  if s.packet_addr ≤ a ∧ a < s.packet_addr + 540 then s.rawData (a - s.packet_addr)
  else s.mem a

/-- Forward byte copy `memcpy((void*)d, &packet.out.memData[0], n)`: for `k = 0 .. n-1` in
    ascending order, the byte `memData[k]` as it stands at that moment is stored at the
    16-bit data address `d + k`.  The order matters only when the destination overlaps
    the payload, where the library copies byte by byte from the lowest address. -/
def memcpy_to_data (d : Nat) : Nat → Engine → Engine
  | 0, s => s
  | n + 1, s =>
    let t := memcpy_to_data d n s
    data_store (u16 (d + n)) (t.rawData (u16 (17 + n))) t

/-- Forward byte copy `memcpy(&packet.in.data[0], (void*)a, n)`: for `k = 0 .. n-1` in
    ascending order, the byte at the 16-bit data address `a + k` as it stands at that
    moment is stored in `data[k]` (buffer offset `7 + k`). -/
def memcpy_from_data (a : Nat) : Nat → Engine → Engine
  | 0, s => s
  | n + 1, s =>
    let t := memcpy_from_data a n s
    { t with rawData := setByte t.rawData (u16 (7 + n)) (data_load (u16 (a + n)) t) }

/-! ## `nvmv4.cpp`: the UPDI NVM version 4 executor -/

/-- Function `NVM::V4::read_memory`. -/
def read_memory (s : Engine) : Nat × Engine :=
  let m_type := out_bMType s
  let _dwAddr := out_dwAddr s
  let _wLength := out_dwLength s
  let s1 : Engine :=
    if m_type = 0xD3 then
      /- MTYPE_SIB -/
      { s with rawData := memcpy s.rawData 7 (fun k => pgm_array s _sib s.sib_addr k) _wLength }
    else if m_type = 0xB0 ∨ m_type = 0xC0 then
      /- MTYPE_FLASH_PAGE (PROGMEM) -/
      { s with rawData := memcpy s.rawData 7 (fun k => s.progmem (u16 (_dwAddr + k))) _wLength }
    else
      memcpy_from_data _dwAddr _wLength s
  (u16 (_wLength + 1), s1)

/-- Function `NVM::V4::set_flmap`; the address is passed by reference, its new value is
    the first component of the result. -/
def set_flmap (_dwAddr : Nat) (s : Engine) : Nat × Engine :=
  let r : Nat × Engine :=
    if _dwAddr &&& 0x8000 ≠ 0 then
      (_dwAddr, { s with GPR_GPR0 := FlMap.SECTION1 })
    else
      (u16 (_dwAddr ||| 0x8000), { s with GPR_GPR0 := FlMap.SECTION0 })
  (r.1, { r.2 with NVMCTRL_CTRLB := r.2.GPR_GPR0,
                   nvm_log := r.2.nvm_log ++ [NvmEvent.ctrlb r.2.GPR_GPR0] })

/-- Function `NVM::V4::erase_memory`: `__No_implementation_required__` is defined nowhere,
    so the body that is compiled is `return 1;`. -/
def erase_memory (s : Engine) : Nat × Engine := (1, s)

/-- The tail of `write_memory` after the flash-page prologue: command selection by
    memory type, payload copy, and the closing no-operation command. -/
def write_memory_body (m_type _dwAddr _wLength : Nat) (s : Engine) : Nat × Engine :=
  let s1 : Engine :=
    if m_type = 0x22 ∨ m_type = 0xC4 then
      /- MTYPE_EEPROM, MTYPE_EEPROM_XMEGA -/
      nvm_cmd NvmCmd.EEERWR s
    else if m_type = 0xC0 ∨ m_type = 0xC5 then
      /- MTYPE_FLASH (alias), MTYPE_USERSIG (USERROW, BOOTROW) -/
      let a := nvm_cmd NvmCmd.FLPER s
      let b := { data_store _dwAddr 0 a with
                   nvm_log := a.nvm_log ++ [NvmEvent.store _dwAddr 0] }
      nvm_cmd NvmCmd.FLWR b
    else s
  let s2 : Engine :=
    { memcpy_to_data _dwAddr _wLength s1 with
        nvm_log := s1.nvm_log ++
          [NvmEvent.copy _dwAddr ((List.range _wLength).map (out_memData s))] }
  (1, nvm_cmd NvmCmd.NONE s2)

/-- Function `NVM::V4::write_memory`. -/
def write_memory (s : Engine) : Nat × Engine :=
  let m_type := out_bMType s
  let _dwAddr := out_dwAddr s
  let _wLength := out_dwLength s
  if m_type = 0xB0 then
    /- MTYPE_FLASH_PAGE (PROGMEM) -/
    if _dwAddr < u16 s._bootsize then (1, s)
    else
      let r := set_flmap _dwAddr s
      write_memory_body 0xC0 r.1 _wLength r.2
  else
    write_memory_body m_type _dwAddr _wLength s

/-- Function `NVM::V4::jtag_scope_updi`. -/
def jtag_scope_updi (s : Engine) : Nat × Engine :=
  let _cmd := out_cmd s
  if _cmd = 0x10 then
    /- CMD3_SIGN_ON -/
    let s1 := { s with rawData := memcpy s.rawData 7 (pgm_array s _sib s.sib_addr) 4 }
    (5, set_in_res 0x84 s1)
  else if _cmd = 0x21 then
    /- CMD3_READ_MEMORY -/
    let r := read_memory s
    (r.1, set_in_res 0x184 r.2)
  else
    let r : Nat × Engine :=
      if _cmd = 0x11 then (1, s)            /- CMD3_SIGN_OFF -/
      else if _cmd = 0x15 then (1, s)       /- CMD3_ENTER_PROGMODE -/
      else if _cmd = 0x16 then (1, s)       /- CMD3_LEAVE_PROGMODE -/
      else if _cmd = 0x20 then erase_memory s   /- CMD3_ERASE_MEMORY -/
      else if _cmd = 0x23 then write_memory s   /- CMD3_WRITE_MEMORY -/
      else (0, s)
    (r.1, set_in_res (if r.1 ≠ 0 then 0x80 else 0xA0) r.2)

/-! ## `jtag.cpp`: EDBG fragment layer and JTAGICE3 scopes -/

/-- The byte offset `size_t _ofst = (_frag - 1) * 60`: computed in 16-bit `int`, then
    converted to `size_t`. -/
def frag_ofst (_frag : Nat) : Nat := ((((_frag : Int) - 1) * 60) % 65536).toNat

/-- Function `JTAG::dap_command_check`.  The report to examine is `dap_data` on entry; the
    result is the returned flag and the workspace on exit.  `USB::ep_dpi_pending` only waits
    for the IN endpoint to be handed back and changes nothing in the record. -/
def dap_command_check (s : Engine) : Bool × Engine :=
  let _cmd := u8 (s.dap_data 0)
  let _sub := u8 (s.dap_data 1)
  if _cmd = 0x80 then
    /- DAP_EDBG_VENDOR_AVR_CMD -/
    let _endf := _sub &&& 0x0F
    let _frag := _sub >>> 4
    let _size := u8 (s.dap_data 3)
    let _ofst := frag_ofst _frag
    if _endf ≥ 10 then
      (false, complete_dap_out { s with dap_data := setByte s.dap_data 1 0x00 })
    else
      let chunks := u8 ((if _frag = 1 then 0 else s._packet_chunks) + 1)
      let s1 : Engine :=
        { s with _packet_chunks := chunks,
                 rawData := memcpy s.rawData _ofst (fun k => s.dap_data (4 + k)) _size,
                 dap_data := setByte s.dap_data 1 0x01 }
      if _endf = _frag then
        let s2 : Engine := { s1 with _packet_length := u16 (_ofst + _size) }
        if chunks = _endf then
          (true, complete_dap_out { s2 with _packet_endfrag := 0 })
        else
          (false, complete_dap_out { s2 with dap_data := setByte s2.dap_data 1 0x00 })
      else
        (false, complete_dap_out s1)
  else if _cmd = 0x81 then
    /- DAP_EDBG_VENDOR_AVR_RSP -/
    let s1 : Engine := { s with dap_data := setByte s.dap_data 2 0 }
    if u8 s._packet_endfrag = 0 then
      (false, complete_dap_out
        { s1 with dap_data := setByte (setByte s1.dap_data 1 0) 3 0 })
    else
      let frag := u8 (u8 s._packet_fragment + 1)
      let src : Nat → Nat := fun k => s.rawData (u16 (1 + u8 s._packet_fragment * 60 + k))
      let d1 := memcpy s1.dap_data 4 src 60
      let d2 := setByte d1 1 (u8 ((frag <<< 4) ||| u8 s._packet_endfrag))
      let size := if frag = u8 s._packet_endfrag then u8 s._packet_length else 60
      let d3 := setByte d2 3 size
      (false, complete_dap_out
        { s1 with dap_data := d3, _packet_fragment := frag,
                  _packet_length := u16 (u16 s._packet_length + (65536 - 60)) })
  else if _cmd = 0x00 then
    /- DAP_CMD_INFO -/
    if _sub = 0xFF ∨ _sub = 0xFB ∨ _sub = 0xFC then
      (false, complete_dap_out
        { s with dap_data := setByte (setByte (setByte s.dap_data 1 0x02) 2 0x40) 3 0x00 })
    else if _sub = 0xF1 then
      (false, complete_dap_out
        { s with dap_data := setByte (setByte (setByte s.dap_data 1 0x02) 2 0x00) 3 0x00 })
    else
      (false, complete_dap_out s)
  else if _cmd = 0x02 then
    /- DAP_CMD_CONNECT -/
    (false, complete_dap_out s)
  else if _cmd = 0x01 ∧ _sub = 0x00 then
    /- DAP_CMD_HOSTSTATUS, DAP_LED_CONNECT -/
    (false, complete_dap_out { s with _led_next := 0xFF })
  else if _cmd = 0x03 then
    /- DAP_CMD_DISCONNECT -/
    (false, complete_dap_out { s with wdt_short := true, GPCONF := 0x80 })
  else
    (false, complete_dap_out { s with dap_data := setByte s.dap_data 1 0x00 })

/-- The loop of `JTAG::div8` with an iteration budget: `none` when the budget runs out
    before the loop condition fails. -/
def div8Loop : Nat → Nat → Nat → Nat → Option Nat
  | 0, _, _, _ => none
  | fuel + 1, _x, _y, _z =>
    if 0 < _x ∧ _y ≤ _x then div8Loop fuel (_x - _y) _y (u8 (_z + 1)) else some _z

/-- Function `JTAG::div8`.  The loop subtracts `_y` from `_x`, so `_x + 1` tests of the
    condition suffice whenever it makes progress; `none` stands for the loop that never
    leaves (`_y = 0` with `_x > 0`). -/
def div8 (_x _y : Nat) : Option Nat := div8Loop (_x + 1) _x _y 0

/-- Function `JTAG::complete_jtag_transactions`. -/
def complete_jtag_transactions (_length : Nat) (s : Engine) : Option Engine :=
  let len := u16 (_length + 6)
  match div8 (u16 (_length + 65)) 60 with
  | none => none
  | some z =>
    some { s with _packet_length := len,
                  _packet_fragment := 0,
                  _packet_endfrag := z,
                  rawData := setByte (setByte s.rawData 1 0x0E) len 0 }

/-- Function `JTAG::jtag_scope_general`. -/
def jtag_scope_general (s : Engine) : Nat × Engine :=
  let _cmd := out_cmd s
  let _section := out_section s
  let _index := out_index s
  let _length := out_length s
  if _cmd = 0x02 then
    /- CMD3_GET_PARAMETER -/
    let s1 : Engine :=
      if _section = 0 then
        let src : Nat → Nat :=
          fun k => pgm_array s jtag_version s.jtag_version_addr (_index + k)
        { s with rawData := memcpy s.rawData 7 src _length }
      else if _section = 1 then
        if _index = 0 ∨ _index = 0x20 then set_in_wValue (get_vdd s) s else s
      else s
    (_length + 1, set_in_res 0x184 s1)
  else if _cmd = 0x10 then
    /- CMD3_SIGN_ON -/
    (0, set_in_res 0x80 { s with _jtag_arch := 0 })
  else if _cmd = 0x11 then
    /- CMD3_SIGN_OFF -/
    (0, set_in_res 0x80 s)
  else (0, s)

/-- Function `JTAG::jtag_scope_edbg`. -/
def jtag_scope_edbg (s : Engine) : Nat × Engine :=
  let _cmd := out_cmd s
  let _length := out_length s
  if _cmd = 0x01 then (0, set_in_res 0x80 s)
  else if _cmd = 0x02 then (_length + 1, set_in_res 0x184 s)
  else (0, s)

/-- Function `JTAG::jtag_scope_avr_core`. -/
def jtag_scope_avr_core (s : Engine) : Nat × Engine :=
  let _cmd := out_cmd s
  let _section := out_section s
  let _index := out_index s
  let _length := out_length s
  if _cmd = 0x01 then
    /- CMD3_SET_PARAMETER -/
    let _data := out_wValue s &&& 0xFF
    let s1 : Engine :=
      if _section = 0 then
        if _index = 0 then { s with _jtag_arch := _data } else s
      else if _section = 1 then
        if _index = 0 then { s with _jtag_conn := _data } else s
      else if _section = 2 then
        if _index = 0 then
          let dd := memcpy s.Device_Descriptor 0 (out_setData s) (_length &&& 63)
          { s with Device_Descriptor := dd }
        else s
      else s
    (0, set_in_res 0x80 s1)
  else if _cmd = 0x02 then
    /- CMD3_GET_PARAMETER -/
    let s1 : Engine :=
      if _section = 0 then
        if _index = 0 then { s with rawData := setByte s.rawData 7 (u8 s._jtag_arch) } else s
      else if _section = 1 then
        if _index = 0 then { s with rawData := setByte s.rawData 7 (u8 s._jtag_conn) }
        else if _index = 0x31 then set_in_wValue (u16 s._bootsize) s
        else s
      else s
    (_length + 1, set_in_res 0x184 s1)
  else if u8 s._jtag_arch = 0x05 then jtag_scope_updi s
  else (0, set_in_res 0xA0 s)

/-- Function `JTAG::jtag_scope_branch`. -/
def jtag_scope_branch (s : Engine) : Option Engine :=
  let _scope := out_scope s
  let r : Nat × Engine :=
    if _scope = 0x01 then jtag_scope_general s
    else if _scope = 0x12 then jtag_scope_avr_core s
    else if _scope = 0x20 then jtag_scope_edbg s
    else (0, s)
  complete_jtag_transactions r.1 r.2

/-- One pass of the DAP part of the `main` loop on a pending report:
    `if (JTAG::dap_command_check()) JTAG::jtag_scope_branch();`. -/
def main_dap_step (s : Engine) : Option Engine :=
  let r := dap_command_check s
  if r.1 then jtag_scope_branch r.2 else some r.2

/-- The host writes a 64-byte report into `EP_MEM.dap_data` (the OUT endpoint buffer). -/
def load_report (report : Nat → Nat) (s : Engine) : Engine :=
  { s with dap_data := report }

/-- A workspace with every byte and register zero; `packet` is placed at 0x6800, an
    address inside the SRAM of the device. -/
def zeroEngine : Engine :=
  { dap_data := fun _ => 0, rawData := fun _ => 0, _packet_length := 0,
    _packet_fragment := 0, _packet_chunks := 0, _packet_endfrag := 0, _jtag_arch := 0,
    _jtag_conn := 0, _bootsize := 0, _led_next := 0, _set_config := 0,
    Device_Descriptor := fun _ => 0, packet_addr := 0x6800, mem := fun _ => 0,
    progmem := fun _ => 0,
    sib_addr := 0, jtag_version_addr := 0, GPR_GPR0 := FlMap.SECTION0,
    NVMCTRL_CTRLB := FlMap.SECTION0, nvm_log := [], wdt_short := false, GPCONF := 0,
    ADC0_SAMPLE := 0, USB0_ADDR := 0, USB0_CTRLA := 0, EP_DPI_CNT := 0, EP_DPI_MCNT := 0,
    EP_DPO_CNT := 0 }

/-- A report given by its leading bytes, zero afterwards. -/
def reportOf (bytes : List Nat) : Nat → Nat := fun i => bytes.getD i 0

/-- A packet buffer given by its leading bytes, zero afterwards. -/
def bufferOf (bytes : List Nat) : Nat → Nat := fun i => bytes.getD i 0

/-! ## Names for the locals of the 0x80 branch of `dap_command_check` -/

/-- Local `_endf = _sub & 0x0F` of the report in `dap_data`. -/
def rx_endf (s : Engine) : Nat := u8 (s.dap_data 1) &&& 0x0F

/-- Local `_frag = _sub >> 4` of the report in `dap_data`. -/
def rx_frag (s : Engine) : Nat := u8 (s.dap_data 1) >>> 4

/-- Local `_size = EP_MEM.dap_data[3]` of the report in `dap_data`. -/
def rx_size (s : Engine) : Nat := u8 (s.dap_data 3)

/-- Value of `_packet_chunks` after `if (_frag == 1) _packet_chunks = 0; ++_packet_chunks;`. -/
def rx_chunks (s : Engine) : Nat :=
  u8 ((if rx_frag s = 1 then 0 else s._packet_chunks) + 1)

/-- The state left by one DAP report `q`: the host writes it, `dap_command_check` runs. -/
def serve_report (q : Nat → Nat) (s : Engine) : Engine :=
  (dap_command_check (load_report q s)).2

/-- The result flag of `dap_command_check` on the DAP report `q`. -/
def check_report (q : Nat → Nat) (s : Engine) : Bool :=
  (dap_command_check (load_report q s)).1

/-- A 0x81 poll request. -/
def pollReq : Nat → Nat := reportOf [0x81, 0, 0, 0]

/-- Least number of 60-byte chunks written as in the specification text,
    `ceil((length + 65) / 60)`. -/
def ceil_endfrag (L : Nat) : Nat := (L + 65 + 59) / 60

/-- A served response report sent back as an inbound fragment: same header byte 1, size
    byte 3 and payload, command byte 0x80. -/
def as_fragment (r : Nat → Nat) : Nat → Nat := setByte r 0 0x80

/-- A sender `tx` answers the poll requests one after the other; each served chunk is fed
    as a 0x80 fragment to the receiver `rx`.  The result is the final sender, the final
    receiver and the flags `dap_command_check` returned on the receiver, in order. -/
def transfer : List (Nat → Nat) → Engine → Engine → Engine × Engine × List Bool
  | [], tx, rx => (tx, rx, [])
  | q :: qs, tx, rx =>
    let tx' := serve_report q tx
    let r := dap_command_check (load_report (as_fragment tx'.dap_data) rx)
    let rest := transfer qs tx' r.2
    (rest.1, rest.2.1, r.1 :: rest.2.2)

/-- The state after a sequence of DAP reports, each written by the host and examined by
    `dap_command_check`. -/
def feed_state : List (Nat → Nat) → Engine → Engine
  | [], s => s
  | r :: rs, s => feed_state rs (serve_report r s)

/-- The result flags of `dap_command_check` over a sequence of DAP reports. -/
def feed_flags : List (Nat → Nat) → Engine → List Bool
  | [], _ => []
  | r :: rs, s => check_report r s :: feed_flags rs (serve_report r s)

/-- A family of inbound fragments of one packet declared as `n` fragments: report `f i`
    has command byte 0x80 and header byte `(i << 4) | n`. -/
def FragmentsOf (n : Nat) (f : Nat → Nat → Nat) : Prop :=
  ∀ i, 1 ≤ i → i ≤ n →
    u8 (f i 0) = 0x80 ∧ u8 (f i 1) &&& 0x0F = n ∧ u8 (f i 1) >>> 4 = i

/-! ## Dispatch helpers -/

/-- Field `packet.out.bEType`, offset 7. -/
def out_bEType (s : Engine) : Nat := u8 (s.rawData 7)

/-- The low word of `packet.out.dwPageAddr`, offsets 8 and 9. -/
def out_dwPageAddr (s : Engine) : Nat := u8 (s.rawData 8) + 256 * u8 (s.rawData 9)

/-- The workspace `complete_jtag_transactions(L)` leaves: frame length `L + 6`, cursor 0,
    end-fragment count `(L + 65) / 60`, token 0x0E at offset 1 and the terminator 0 at
    offset `L + 6`. -/
def framed (L : Nat) (s : Engine) : Engine :=
  { s with _packet_length := u16 (L + 6),
           _packet_fragment := 0,
           _packet_endfrag := (u16 (L + 65) / 60) % 256,
           rawData := setByte (setByte s.rawData 1 0x0E) (u16 (L + 6)) 0 }

/-- The scope handler `jtag_scope_branch` selects, with an unrecognized scope running
    none: the reply length and the workspace before the reply is framed. -/
def scope_dispatch (s : Engine) : Nat × Engine :=
  if out_scope s = 0x01 then jtag_scope_general s
  else if out_scope s = 0x12 then jtag_scope_avr_core s
  else if out_scope s = 0x20 then jtag_scope_edbg s
  else (0, s)

/-- The main loop over a sequence of DAP reports: each is written by the host into
    `dap_data` and handled by `main_dap_step`. -/
def run_reports : List (Nat → Nat) → Engine → Option Engine
  | [], s => some s
  | r :: rs, s =>
    match main_dap_step (load_report r s) with
    | none => none
    | some s' => run_reports rs s'

/-- The packet in the buffer is an AVR-Core SET_PARAMETER that stores architecture 5. -/
def sets_arch_updi (s : Engine) : Bool :=
  decide (out_scope s = 0x12 ∧ out_cmd s = 0x01 ∧ out_section s = 0 ∧ out_index s = 0 ∧
    out_wValue s &&& 0xFF = 5)

/-- No report of the sequence completes a packet that stores architecture 5. -/
def no_arch_updi : List (Nat → Nat) → Engine → Bool
  | [], _ => true
  | r :: rs, s =>
    let c := dap_command_check (load_report r s)
    (!(c.1 && sets_arch_updi c.2)) &&
      (match main_dap_step (load_report r s) with
       | none => true
       | some s' => no_arch_updi rs s')

/-- The body of `erase_memory` that stands between `#ifdef __No_implementation_required__`
    and `#endif`.  No source file defines that symbol, so this code is not part of the
    firmware; it is written down only to be compared with `erase_memory`. -/
def erase_memory_excluded (s : Engine) : Nat × Engine :=
  let e_type := out_bEType s
  let _dwAddr := out_dwPageAddr s
  let r : Nat × Nat × Engine :=
    if e_type = 0x04 then
      /- XMEGA_ERASE_APP_PAGE -/
      let f := set_flmap _dwAddr s
      (0x07, f.1, f.2)
    else (e_type, _dwAddr, s)
  if r.1 = 0x07 then
    /- XMEGA_ERASE_USERSIG -/
    let a := nvm_cmd NvmCmd.FLPER r.2.2
    let b := { data_store r.2.1 0 a with
                 nvm_log := a.nvm_log ++ [NvmEvent.store r.2.1 0] }
    (1, nvm_cmd NvmCmd.FLWR b)
  else (1, r.2.2)

/-- The address `write_memory` copies the payload to: the address `set_flmap` returns for
    the flash-page type 0xB0, the requested address for every other type. -/
def write_target (s : Engine) : Nat :=
  if out_bMType s = 0xB0 then (set_flmap (out_dwAddr s) s).1 else out_dwAddr s

/-! ## `usb.cpp`: bus events -/

/-- Function `USB::setup_device`.  `USB_ENABLE_bm` comes from the device header, which is
    not part of the sources, and is taken as a parameter; `USB_ENDPOINTS_MAX` is 3.  Of
    the endpoint table copied from `ep_init` the record keeps the three counters
    (`EP_DPI.CNT = 64`, `EP_DPI.MCNT = 0`, `EP_DPO.CNT = 0`); `USB0_FIFOWP`, `USB0_EPPTR`
    and `USB0_CTRLB` are not part of the record. -/
def setup_device (USB_ENABLE_bm : Nat) (_force : Bool) (s : Engine) : Engine :=
  let s1 : Engine := { s with USB0_ADDR := 0 }
  if u8 s1.USB0_CTRLA ≠ 0 ∨ _force = true then
    { s1 with GPCONF := 0,
              _set_config := 0,
              EP_DPI_CNT := 64, EP_DPI_MCNT := 0, EP_DPO_CNT := 0,
              USB0_CTRLA := u8 (USB_ENABLE_bm ||| (3 - 1)) }
  else s1

/-- Function `USB::handling_bus_events`.  The bus state read from `USB0_INTFLAGSA` is
    given by its two bits `USB_RESUME_bp` and `USB_RESET_bp`.  The result `none` stands for
    `SYS::reboot()`, the software reset that restarts the firmware. -/
def handling_bus_events (USB_ENABLE_bm : Nat) (resume reset : Bool) (s : Engine) :
    Option Engine :=
  if resume = true then
    if s.GPCONF &&& 0x01 ≠ 0 then
      /- System reboot -/
      none
    else
      /- bit_set(busstate, USB_RESET_bp) -/
      some (setup_device USB_ENABLE_bm false s)
  else if reset = true then some (setup_device USB_ENABLE_bm false s)
  else some s

/-- Byte widths of the fields of the packed `UPDI_Device_Desc_t`, in declaration order. -/
def UPDI_Device_Desc_fields : List Nat :=
  [2, 1, 1, 2, 2,          /- prog_base .. ocd_base_addr -/
   2, 2, 2, 2, 2,          /- default_min_div1_voltage .. pdi_pad_fmax -/
   4, 2, 2,                /- flash_bytes, eeprom_bytes, user_sig_bytes -/
   1, 1, 1, 1, 1, 1,       /- fuses_bytes, syscfg_* -/
   2, 2, 2, 2, 2,          /- eeprom_base .. lockbits_base -/
   2,                      /- device_id -/
   1, 1, 1, 1]             /- prog_base_msb .. hvupdi_variant -/

/-- Size of `Device_Desc_t`, a packed union whose only member is `UPDI_Device_Desc_t`. -/
def sizeof_Device_Desc : Nat := UPDI_Device_Desc_fields.sum

/-- Number of bytes AVR-Core SET_PARAMETER section 2 index 0 copies for a declared length
    `n`: the third argument `_length & 63` of its `memcpy`. -/
def descriptor_copy_count (n : Nat) : Nat := u8 n &&& 63

/-- The response reports a sender produces for a sequence of poll requests: the content of
    `dap_data` after each one, in order. -/
def poll_frames : List (Nat → Nat) → Engine → List (Nat → Nat)
  | [], _ => []
  | q :: qs, tx => (serve_report q tx).dap_data :: poll_frames qs (serve_report q tx)

/-- No store of the WRITE_MEMORY request in the buffer is aimed at buffer byte `i`: neither
    the sentinel store at the target address (memory types 0xB0, 0xC0 and 0xC5) nor one
    of the `dwLength` stores of the payload copy. -/
def write_spares (s : Engine) (i : Nat) : Prop :=
  ((out_bMType s = 0xB0 ∨ out_bMType s = 0xC0 ∨ out_bMType s = 0xC5) →
    write_target s ≠ s.packet_addr + i) ∧
  ∀ k, k < out_dwLength s → u16 (write_target s + k) ≠ s.packet_addr + i

/-! ## Concrete workspaces -/

/-- A WRITE_MEMORY request of 4 bytes, flash-page type 0xB0, address 0x0200, on a device
    whose boot section is 0x0A00 bytes. -/
def flashBelowBoot : Engine :=
  { zeroEngine with
      rawData := bufferOf [0x0E, 0, 1, 0, 0x12, 0x23, 0, 0xB0, 0x00, 0x02, 0, 0, 4, 0, 0, 0, 0,
                           0xDE, 0xAD, 0xBE, 0xEF],
      _jtag_arch := 5,
      _bootsize := 0x0A00 }

/-- A WRITE_MEMORY request of 1 byte (0x55), EEPROM type 0x22, address 0x1400, on a device
    whose boot section is 0x2000 bytes (the size `configuration.h` gives for debug builds). -/
def eepromBelowBoot : Engine :=
  { zeroEngine with
      rawData := bufferOf [0x0E, 0, 1, 0, 0x12, 0x23, 0, 0x22, 0x00, 0x14, 0, 0, 1, 0, 0, 0, 0,
                           0x55],
      _jtag_arch := 5,
      _bootsize := 0x2000 }

/-- A WRITE_MEMORY request of 2 bytes, user-row type 0xC5, address 0x1200. -/
def userRowWrite : Engine :=
  { zeroEngine with
      rawData := bufferOf [0x0E, 0, 1, 0, 0x12, 0x23, 0, 0xC5, 0x00, 0x12, 0, 0, 2, 0, 0, 0, 0,
                           0xA1, 0xA2],
      _jtag_arch := 5,
      _bootsize := 0x0A00 }

/-- An inbound report declaring 10 fragments (fragment 1 of 10, 60 payload bytes). -/
def tenFragments : Engine :=
  load_report (reportOf [0x80, 0x1A, 0, 60, 0x0E, 0, 1, 0]) zeroEngine

/-- An inbound report "fragment 2 of 2" arriving when no fragment has been counted. -/
def lastOfTwoAlone : Engine :=
  load_report (reportOf [0x80, 0x22, 0, 60, 1, 2, 3]) zeroEngine

/-- An inbound report "fragment 1 of 1". -/
def singleFragment : Engine :=
  load_report (reportOf [0x80, 0x11, 0, 6, 0x0E, 0, 1, 0, 0x01, 0x10]) zeroEngine

/-- Fragment 2 of a 2-fragment packet whose fragment 1 the host never delivered. -/
def secondOfTwo : Nat → Nat := reportOf [0x80, 0x22, 0, 60, 0xAA, 0xBB]

/-- A report "fragment 15 of 1" with 60 payload bytes, the first of them 7. -/
def fragmentFifteen : Nat → Nat := reportOf [0x80, 0xF1, 0, 60, 7]

/-- A report "fragment 9 of 9" with a declared chunk size of 255, payload bytes 7. -/
def oversizedChunk : Nat → Nat := fun i => if i = 0 then 0x80 else if i = 1 then 0x99
  else if i = 2 then 0 else if i = 3 then 255 else 7

/-- A report "fragment 0 of 1" with 60 payload bytes, the first of them 7. -/
def fragmentZero : Nat → Nat := reportOf [0x80, 0x01, 0, 60, 7]

/-- An idle engine (no reply queued) that receives a poll. -/
def idlePolled : Engine := load_report pollReq zeroEngine

/-- A sender that has served its only fragment and is polled again. -/
def servedPolled : Engine :=
  load_report pollReq
    { zeroEngine with _packet_fragment := 1, _packet_endfrag := 1, _packet_length := 65482 }

/-- A sender whose buffer holds the bytes 1, 2, 3, ... (modulo 251). -/
def countingSender : Engine := { zeroEngine with rawData := fun i => (i + 1) % 251 }

/-- Fragment `i` of a four-fragment packet, 60 payload bytes of value `i`. -/
def fourFragments (i : Nat) : Nat → Nat :=
  fun k => if k = 0 then 0x80 else if k = 1 then i * 16 + 4 else if k = 2 then 0
    else if k = 3 then 60 else i

/-- A complete packet with the unknown scope byte 0x55, sequence number 0x1234, on a
    session with architecture 5 and connection type 8. -/
def unknownScopePacket : Engine :=
  { zeroEngine with
      rawData := bufferOf [0x0E, 0, 0x34, 0x12, 0x55, 0x23, 0, 0xC5, 0x00, 0x12, 0, 0, 2, 0],
      _jtag_arch := 5, _jtag_conn := 8, _packet_length := 14, _packet_fragment := 3,
      _packet_endfrag := 0 }

/-- A General-scope GET_PARAMETER packet: section 0, index 1, length 3. -/
def versionRequest : Engine :=
  { zeroEngine with rawData := bufferOf [0x0E, 0, 7, 0, 0x01, 0x02, 0, 0, 1, 3] }

/-- An AVR-Core READ_MEMORY packet for the SIB (type 0xD3), 32 bytes, address 0, on a
    session with architecture 5. -/
def sibRead : Engine :=
  { zeroEngine with
      rawData := bufferOf [0x0E, 0, 9, 0, 0x12, 0x21, 0, 0xD3, 0, 0, 0, 0, 32, 0, 0, 0],
      _jtag_arch := 5 }

/-- An AVR-Core ERASE_MEMORY packet of erase type 0x07 (user row) for page address 0x1200,
    on a session with architecture 5; the byte at 0x1200 is 0x5A. -/
def userRowErase : Engine :=
  { zeroEngine with
      rawData := bufferOf [0x0E, 0, 3, 0, 0x12, 0x20, 0, 0x07, 0x00, 0x12, 0, 0],
      mem := fun a => if a = 0x1200 then 0x5A else 0,
      _jtag_arch := 5 }

/-- An AVR-Core WRITE_MEMORY packet of memory type 0x20 (SRAM): 2 bytes to address 0x7000,
    on a session with architecture 5. -/
def sramWrite : Engine :=
  { zeroEngine with
      rawData := bufferOf [0x0E, 0, 5, 0, 0x12, 0x23, 0, 0x20, 0x00, 0x70, 0, 0, 2, 0, 0, 0, 0,
                           0x11, 0x22],
      _jtag_arch := 5 }

/-- An AVR-Core SET_PARAMETER packet, section 2, index 0, declared length 64, the blob
    being 64 bytes of 0xAA. -/
def descriptor64 : Engine :=
  { zeroEngine with
      rawData := fun i => if i = 4 then 0x12 else if i = 5 then 0x01 else if i = 7 then 2
        else if i = 9 then 64 else if 10 ≤ i ∧ i < 74 then 0xAA else 0 }

/-- An AVR-Core SET_PARAMETER packet, section 2, index 0, declared length 3, blob 1, 2, 3. -/
def descriptor3 : Engine :=
  { zeroEngine with
      rawData := bufferOf [0x0E, 0, 6, 0, 0x12, 0x01, 0, 2, 0, 3, 1, 2, 3] }

/-- An AVR-Core packet with command 0x99, which no handler implements, on a session with
    architecture 5. -/
def unknownUpdiCommand : Engine :=
  { zeroEngine with
      rawData := bufferOf [0x0E, 0, 2, 0, 0x12, 0x99, 0, 0, 0, 0],
      _jtag_arch := 5 }

/-- A General-scope packet with command 0x42, which the General handler does not
    implement. -/
def unknownGeneralCommand : Engine :=
  { zeroEngine with rawData := bufferOf [0x0E, 0, 2, 0, 0x01, 0x42, 0x77, 0, 0, 0] }

/-- A General-scope SIGN_ON packet on a session whose architecture is still 5. -/
def signOnPacket : Engine :=
  { zeroEngine with
      rawData := bufferOf [0x0E, 0, 1, 0, 0x01, 0x10, 0, 0, 0, 0],
      _jtag_arch := 5 }

/-- The report carrying, as one fragment, an AVR-Core SET_PARAMETER that stores
    architecture 3 (section 0, index 0, length 1, value 3). -/
def setArch3Report : Nat → Nat :=
  reportOf [0x80, 0x11, 0, 11, 0x0E, 0, 2, 0, 0x12, 0x01, 0, 0, 0, 1, 3]

/-- The report carrying, as one fragment, an AVR-Core READ_MEMORY of 2 bytes of data
    space (type 0x20) at address 0x7000. -/
def readRamReport : Nat → Nat :=
  reportOf [0x80, 0x11, 0, 16, 0x0E, 0, 3, 0, 0x12, 0x21, 0, 0x20, 0x00, 0x70, 0, 0, 2, 0, 0, 0]

/-- The workspace after `signOnPacket` has been answered. -/
def afterSignOn : Engine := (jtag_scope_branch signOnPacket).getD zeroEngine

/-- The workspace after sign-on, a SET_PARAMETER storing architecture 3, and one poll. -/
def afterSetArch3 : Engine :=
  (run_reports [setArch3Report, pollReq] afterSignOn).getD zeroEngine

/-- A General-scope SIGN_OFF packet on a session whose architecture is 5. -/
def signOffPacket : Engine :=
  { zeroEngine with
      rawData := bufferOf [0x0E, 0, 8, 0, 0x01, 0x11, 0, 0, 0, 0],
      _jtag_arch := 5 }

/-- The report carrying, as one fragment, an AVR-Core READ_MEMORY of the SIB (type 0xD3),
    32 bytes. -/
def sibReadReport : Nat → Nat :=
  reportOf [0x80, 0x11, 0, 16, 0x0E, 0, 9, 0, 0x12, 0x21, 0, 0xD3, 0, 0, 0, 0, 32, 0, 0, 0]

/-- The report carrying, as one fragment, an AVR-Core WRITE_MEMORY of one byte 0x77 to the
    user row (type 0xC5) at 0x1200. -/
def userRowWriteReport : Nat → Nat :=
  reportOf [0x80, 0x11, 0, 18, 0x0E, 0, 10, 0, 0x12, 0x23, 0, 0xC5, 0x00, 0x12, 0, 0,
            1, 0, 0, 0, 0, 0x77]

/-- An AVR-Core ERASE_MEMORY packet on a session whose architecture is 3. -/
def eraseArch3 : Engine :=
  { zeroEngine with
      rawData := bufferOf [0x0E, 0, 3, 0, 0x12, 0x20, 0, 0x07, 0x00, 0x12, 0, 0],
      _jtag_arch := 3 }

/-- A WRITE_MEMORY request of 2 bytes, flash-page type 0xB0, address 0x2000, on a device
    whose boot section is 0x0A00 bytes. -/
def flashLowWrite : Engine :=
  { zeroEngine with
      rawData := bufferOf [0x0E, 0, 1, 0, 0x12, 0x23, 0, 0xB0, 0x00, 0x20, 0, 0, 2, 0, 0, 0, 0,
                           0xC1, 0xC2],
      _jtag_arch := 5,
      _bootsize := 0x0A00 }

/-- A WRITE_MEMORY request of 2 bytes, flash-page type 0xB0, address 0x9000. -/
def flashHighWrite : Engine :=
  { zeroEngine with
      rawData := bufferOf [0x0E, 0, 1, 0, 0x12, 0x23, 0, 0xB0, 0x00, 0x90, 0, 0, 2, 0, 0, 0, 0,
                           0xD1, 0xD2],
      _jtag_arch := 5,
      _bootsize := 0x0A00 }

/-- A session with architecture 5, connection type 8 and a stored device descriptor, the
    USB controller enabled and the interface configured. -/
def liveSession : Engine :=
  { zeroEngine with
      _jtag_arch := 5, _jtag_conn := 8, Device_Descriptor := fun i => if i < 48 then 0xEE else 0,
      USB0_CTRLA := 0x82, USB0_ADDR := 7, GPCONF := 1, _set_config := 1 }

/-- An AVR-Core SET_PARAMETER packet, section 2, index 0, declared length 63, the blob
    being 63 bytes of 0xBB. -/
def descriptor63 : Engine :=
  { zeroEngine with
      rawData := fun i => if i = 4 then 0x12 else if i = 5 then 0x01 else if i = 7 then 2
        else if i = 9 then 63 else if 10 ≤ i ∧ i < 73 then 0xBB else 0 }

/-- The inbound reports "1 of 4", "2 of 4", "2 of 4" again and "4 of 4", each with 60
    payload bytes of its own value (0x11, 0x22, 0x2B, 0x44). -/
def duplicateInsteadOfThird : List (Nat → Nat) :=
  [fun i => if i = 0 then 0x80 else if i = 1 then 0x14 else if i = 2 then 0
     else if i = 3 then 60 else 0x11,
   fun i => if i = 0 then 0x80 else if i = 1 then 0x24 else if i = 2 then 0
     else if i = 3 then 60 else 0x22,
   fun i => if i = 0 then 0x80 else if i = 1 then 0x24 else if i = 2 then 0
     else if i = 3 then 60 else 0x2B,
   fun i => if i = 0 then 0x80 else if i = 1 then 0x44 else if i = 2 then 0
     else if i = 3 then 60 else 0x44]

/-- An AVR-Core WRITE_MEMORY packet of memory type 0x20 (SRAM) with sequence number 5:
    2 bytes 0xAA 0xBB to address 0x6802, the address of `packet.rawData[2]`, on a session
    with architecture 5. -/
def sramWriteOverSequence : Engine :=
  { zeroEngine with
      rawData := bufferOf [0x0E, 0, 5, 0, 0x12, 0x23, 0, 0x20, 0x02, 0x68, 0, 0, 2, 0, 0, 0, 0,
                           0xAA, 0xBB],
      _jtag_arch := 5 }

/-- A WRITE_MEMORY request of memory type 0xC5 (user row): 2 bytes 0xAA 0xBB to address
    0x6811, the address of `packet.out.memData[0]`. -/
def userRowWriteOverPayload : Engine :=
  { zeroEngine with
      rawData := bufferOf [0x0E, 0, 1, 0, 0x12, 0x23, 0, 0xC5, 0x11, 0x68, 0, 0, 2, 0, 0, 0, 0,
                           0xAA, 0xBB],
      _jtag_arch := 5,
      _bootsize := 0x0A00 }

/-! ## Theorems -/

/-- C1: a flash-page (0xB0) write whose 16-bit address is below `_bootsize` returns 1 at
    once and leaves the whole workspace as it was: no controller command, no change of the
    flash-map selection, no byte stored. -/
theorem write_memory_flash_page_below_boot (s : Engine)
    (htype : out_bMType s = 0xB0) (haddr : out_dwAddr s < u16 s._bootsize) :
    (write_memory s).1 = 1 ∧ (write_memory s).2 = s ∧
    (write_memory s).2.nvm_log = s.nvm_log ∧
    (write_memory s).2.NVMCTRL_CTRLB = s.NVMCTRL_CTRLB ∧
    (write_memory s).2.GPR_GPR0 = s.GPR_GPR0 ∧
    (write_memory s).2.mem = s.mem := by
  have h : write_memory s = (1, s) := by
    unfold write_memory
    simp [htype, haddr]
  simp [h]

/-- C1 at the request `flashBelowBoot`. -/
theorem write_memory_flash_page_below_boot_witness :
    (write_memory flashBelowBoot).1 = 1 ∧ (write_memory flashBelowBoot).2 = flashBelowBoot ∧
    (write_memory flashBelowBoot).2.nvm_log = flashBelowBoot.nvm_log ∧
    (write_memory flashBelowBoot).2.NVMCTRL_CTRLB = flashBelowBoot.NVMCTRL_CTRLB ∧
    (write_memory flashBelowBoot).2.GPR_GPR0 = flashBelowBoot.GPR_GPR0 ∧
    (write_memory flashBelowBoot).2.mem = flashBelowBoot.mem :=
  write_memory_flash_page_below_boot flashBelowBoot (by decide) (by decide)

/-- C2, as stated, fails: an EEPROM (0x22) write to 0x1400, below a boot size of 0x2000,
    is answered with 1 / RSP3_OK and does change the byte at 0x1400. -/
theorem write_below_boot_eeprom_mutates :
    out_cmd eepromBelowBoot = 0x23 ∧
    out_dwAddr eepromBelowBoot = 0x1400 ∧
    out_dwAddr eepromBelowBoot < u16 eepromBelowBoot._bootsize ∧
    (jtag_scope_updi eepromBelowBoot).1 = 1 ∧
    in_res (jtag_scope_updi eepromBelowBoot).2 = 0x80 ∧
    eepromBelowBoot.mem 0x1400 = 0 ∧
    (jtag_scope_updi eepromBelowBoot).2.mem 0x1400 = 0x55 ∧
    (jtag_scope_updi eepromBelowBoot).2.nvm_log =
      [NvmEvent.cmd NvmCmd.EEERWR, NvmEvent.copy 0x1400 [0x55], NvmEvent.cmd NvmCmd.NONE] := by
  decide

/-- C2, amended: a WRITE_MEMORY request of memory type 0xB0 whose address is below
    `_bootsize` leaves the data space, the program space, the controller log and the
    flash-map selection unchanged and is answered with length 1 and result code 0x80. -/
theorem updi_write_flash_page_below_boot (s : Engine)
    (hcmd : out_cmd s = 0x23) (htype : out_bMType s = 0xB0)
    (haddr : out_dwAddr s < u16 s._bootsize) :
    (jtag_scope_updi s).1 = 1 ∧
    in_res (jtag_scope_updi s).2 = 0x80 ∧
    (jtag_scope_updi s).2.mem = s.mem ∧
    (jtag_scope_updi s).2.progmem = s.progmem ∧
    (jtag_scope_updi s).2.nvm_log = s.nvm_log ∧
    (jtag_scope_updi s).2.NVMCTRL_CTRLB = s.NVMCTRL_CTRLB := by
  have h : write_memory s = (1, s) := by
    unfold write_memory
    simp [htype, haddr]
  have h2 : jtag_scope_updi s = (1, set_in_res 0x80 s) := by
    unfold jtag_scope_updi
    simp [hcmd, h]
  rw [h2]
  simp [set_in_res, in_res, setByte, u8]

/-- C2 amended, at the request `flashBelowBoot`. -/
theorem updi_write_flash_page_below_boot_witness :
    (jtag_scope_updi flashBelowBoot).1 = 1 ∧
    in_res (jtag_scope_updi flashBelowBoot).2 = 0x80 ∧
    (jtag_scope_updi flashBelowBoot).2.mem = flashBelowBoot.mem ∧
    (jtag_scope_updi flashBelowBoot).2.progmem = flashBelowBoot.progmem ∧
    (jtag_scope_updi flashBelowBoot).2.nvm_log = flashBelowBoot.nvm_log ∧
    (jtag_scope_updi flashBelowBoot).2.NVMCTRL_CTRLB = flashBelowBoot.NVMCTRL_CTRLB :=
  updi_write_flash_page_below_boot flashBelowBoot (by decide) (by decide) (by decide)

/-- C3: the controller events of a write are, for the user-row class 0xC5, page erase,
    one zero byte stored at the target address, page write, the payload copy and the
    no-operation command; for the EEPROM classes 0x22 and 0xC4, EEPROM erase-write, the
    payload copy and the no-operation command, with no page erase and no sentinel store. -/
theorem write_memory_event_order (s : Engine) :
    (out_bMType s = 0xC5 →
      (write_memory s).2.nvm_log = s.nvm_log ++
        [NvmEvent.cmd NvmCmd.FLPER,
         NvmEvent.store (out_dwAddr s) 0,
         NvmEvent.cmd NvmCmd.FLWR,
         NvmEvent.copy (out_dwAddr s) ((List.range (out_dwLength s)).map (out_memData s)),
         NvmEvent.cmd NvmCmd.NONE]) ∧
    (out_bMType s = 0x22 ∨ out_bMType s = 0xC4 →
      (write_memory s).2.nvm_log = s.nvm_log ++
        [NvmEvent.cmd NvmCmd.EEERWR,
         NvmEvent.copy (out_dwAddr s) ((List.range (out_dwLength s)).map (out_memData s)),
         NvmEvent.cmd NvmCmd.NONE]) := by
  constructor
  · intro h
    simp [write_memory, write_memory_body, nvm_cmd, h, out_memData]
  · intro h
    rcases h with h | h <;>
      simp [write_memory, write_memory_body, nvm_cmd, h, out_memData]

/-- C3 at a user-row request and at an EEPROM request. -/
theorem write_memory_event_order_witness :
    (write_memory userRowWrite).2.nvm_log = userRowWrite.nvm_log ++
        [NvmEvent.cmd NvmCmd.FLPER,
         NvmEvent.store (out_dwAddr userRowWrite) 0,
         NvmEvent.cmd NvmCmd.FLWR,
         NvmEvent.copy (out_dwAddr userRowWrite)
           ((List.range (out_dwLength userRowWrite)).map (out_memData userRowWrite)),
         NvmEvent.cmd NvmCmd.NONE] ∧
    (write_memory eepromBelowBoot).2.nvm_log = eepromBelowBoot.nvm_log ++
        [NvmEvent.cmd NvmCmd.EEERWR,
         NvmEvent.copy (out_dwAddr eepromBelowBoot)
           ((List.range (out_dwLength eepromBelowBoot)).map (out_memData eepromBelowBoot)),
         NvmEvent.cmd NvmCmd.NONE] :=
  ⟨(write_memory_event_order userRowWrite).1 (by decide),
   (write_memory_event_order eepromBelowBoot).2 (Or.inl (by decide))⟩

/-! ### The branches of the 0x80 handler -/

/-- Any command byte other than 0x80 leaves the result flag false. -/
theorem dap_check_other_cmd (s : Engine) (h : u8 (s.dap_data 0) ≠ 0x80) :
    (dap_command_check s).1 = false := by
  unfold dap_command_check
  simp only [h, if_false]
  split_ifs <;> rfl

/-- The 0x80 branch when 10 or more fragments are declared. -/
theorem dap_check_reject (s : Engine) (h : u8 (s.dap_data 0) = 0x80) (h1 : 10 ≤ rx_endf s) :
    dap_command_check s =
      (false, complete_dap_out { s with dap_data := setByte s.dap_data 1 0x00 }) := by
  unfold rx_endf at h1
  unfold dap_command_check
  simp [h, h1]

/-- The 0x80 branch on an accepted fragment that is not the declared last one. -/
theorem dap_check_middle (s : Engine) (h : u8 (s.dap_data 0) = 0x80) (h1 : rx_endf s < 10)
    (h2 : rx_endf s ≠ rx_frag s) :
    dap_command_check s =
      (false, complete_dap_out
        { s with _packet_chunks := rx_chunks s,
                 rawData := memcpy s.rawData (frag_ofst (rx_frag s))
                   (fun k => s.dap_data (4 + k)) (rx_size s),
                 dap_data := setByte s.dap_data 1 0x01 }) := by
  unfold rx_endf rx_frag at h2
  unfold rx_endf at h1
  have h1' : ¬ (10 ≤ u8 (s.dap_data 1) &&& 15) := by omega
  unfold dap_command_check rx_chunks rx_frag rx_size
  simp [h, h1', h2]

/-- The 0x80 branch on the declared last fragment with a matching chunk counter. -/
theorem dap_check_last_ok (s : Engine) (h : u8 (s.dap_data 0) = 0x80) (h1 : rx_endf s < 10)
    (h2 : rx_endf s = rx_frag s) (h3 : rx_chunks s = rx_endf s) :
    dap_command_check s =
      (true, complete_dap_out
        { s with _packet_chunks := rx_chunks s,
                 rawData := memcpy s.rawData (frag_ofst (rx_frag s))
                   (fun k => s.dap_data (4 + k)) (rx_size s),
                 dap_data := setByte s.dap_data 1 0x01,
                 _packet_length := u16 (frag_ofst (rx_frag s) + rx_size s),
                 _packet_endfrag := 0 }) := by
  unfold rx_chunks rx_endf rx_frag at h3
  unfold rx_endf rx_frag at h2
  unfold rx_endf at h1
  have h1' : ¬ (10 ≤ u8 (s.dap_data 1) &&& 15) := by omega
  have h1'' : ¬ (10 ≤ u8 (s.dap_data 1) >>> 4) := by omega
  have h3' := h3
  rw [h2] at h3'
  unfold dap_command_check rx_chunks rx_frag rx_size
  simp [h, h1', h1'', h2, h3']

/-- The 0x80 branch on the declared last fragment with a chunk counter that differs. -/
theorem dap_check_last_fail (s : Engine) (h : u8 (s.dap_data 0) = 0x80) (h1 : rx_endf s < 10)
    (h2 : rx_endf s = rx_frag s) (h3 : rx_chunks s ≠ rx_endf s) :
    dap_command_check s =
      (false, complete_dap_out
        { s with _packet_chunks := rx_chunks s,
                 rawData := memcpy s.rawData (frag_ofst (rx_frag s))
                   (fun k => s.dap_data (4 + k)) (rx_size s),
                 dap_data := setByte (setByte s.dap_data 1 0x01) 1 0x00,
                 _packet_length := u16 (frag_ofst (rx_frag s) + rx_size s) }) := by
  unfold rx_chunks rx_endf rx_frag at h3
  unfold rx_endf rx_frag at h2
  unfold rx_endf at h1
  have h1' : ¬ (10 ≤ u8 (s.dap_data 1) &&& 15) := by omega
  have h1'' : ¬ (10 ≤ u8 (s.dap_data 1) >>> 4) := by omega
  have h3' := h3
  rw [h2] at h3'
  unfold dap_command_check rx_chunks rx_frag rx_size
  simp [h, h1', h1'', h2, h3']

/-- C4: a 0x80 report that declares 10 or more fragments gets the FAIL status byte, is
    not reported complete, and leaves the packet buffer, the chunk counter and the recorded
    packet length untouched. -/
theorem dap_fragment_count_ceiling (s : Engine)
    (hcmd : u8 (s.dap_data 0) = 0x80) (hend : 10 ≤ rx_endf s) :
    (dap_command_check s).1 = false ∧
    (dap_command_check s).2.dap_data 1 = 0x00 ∧
    (dap_command_check s).2.rawData = s.rawData ∧
    (dap_command_check s).2._packet_chunks = s._packet_chunks ∧
    (dap_command_check s).2._packet_length = s._packet_length := by
  rw [dap_check_reject s hcmd hend]
  simp [complete_dap_out, setByte]

/-- C4 at the report `tenFragments`. -/
theorem dap_fragment_count_ceiling_witness :
    (dap_command_check tenFragments).1 = false ∧
    (dap_command_check tenFragments).2.dap_data 1 = 0x00 ∧
    (dap_command_check tenFragments).2.rawData = tenFragments.rawData ∧
    (dap_command_check tenFragments).2._packet_chunks = tenFragments._packet_chunks ∧
    (dap_command_check tenFragments).2._packet_length = tenFragments._packet_length :=
  dap_fragment_count_ceiling tenFragments (by decide) (by decide)

/-- C5: `dap_command_check` returns true exactly when the command byte is 0x80, fewer than
    10 fragments are declared, the fragment index equals the declared count and the chunk
    counter after this fragment equals the declared count; at the declared last fragment
    with a different counter the status byte is FAIL and the result is false. -/
theorem dap_complete_iff (s : Engine) :
    ((dap_command_check s).1 = true ↔
      u8 (s.dap_data 0) = 0x80 ∧ rx_endf s < 10 ∧ rx_frag s = rx_endf s ∧
      rx_chunks s = rx_endf s) ∧
    (u8 (s.dap_data 0) = 0x80 → rx_endf s < 10 → rx_frag s = rx_endf s →
      rx_chunks s ≠ rx_endf s →
      (dap_command_check s).1 = false ∧ (dap_command_check s).2.dap_data 1 = 0x00) := by
  constructor
  · constructor
    · intro h
      by_cases h0 : u8 (s.dap_data 0) = 0x80
      · by_cases h1 : rx_endf s < 10
        · by_cases h2 : rx_endf s = rx_frag s
          · by_cases h3 : rx_chunks s = rx_endf s
            · exact ⟨h0, h1, h2.symm, h3⟩
            · rw [dap_check_last_fail s h0 h1 h2 h3] at h
              simp at h
          · rw [dap_check_middle s h0 h1 h2] at h
            simp at h
        · rw [dap_check_reject s h0 (by omega)] at h
          simp at h
      · rw [dap_check_other_cmd s h0] at h
        simp at h
    · rintro ⟨h0, h1, h2, h3⟩
      rw [dap_check_last_ok s h0 h1 h2.symm h3]
  · intro h0 h1 h2 h3
    rw [dap_check_last_fail s h0 h1 h2.symm h3]
    simp [complete_dap_out, setByte]

/-- C5 at a complete single-fragment packet and at a last fragment whose predecessor is
    missing. -/
theorem dap_complete_iff_witness :
    (dap_command_check singleFragment).1 = true ∧
    ((dap_command_check lastOfTwoAlone).1 = false ∧
      (dap_command_check lastOfTwoAlone).2.dap_data 1 = 0x00) :=
  ⟨(dap_complete_iff singleFragment).1.2 ⟨by decide, by decide, by decide, by decide⟩,
   (dap_complete_iff lastOfTwoAlone).2 (by decide) (by decide) (by decide) (by decide)⟩

/-- C6, failing input: after a complete one-fragment packet has been handled (the chunk
    counter is left at 1), the host sends a 2-fragment packet and fragment 1 is lost.
    Fragment 2 alone is reported complete, so the packet is forwarded. -/
theorem dropped_first_fragment_is_delivered :
    check_report (reportOf [0x80, 0x11, 0, 6, 0x0E, 0, 1, 0, 0x01, 0x10]) zeroEngine = true ∧
    (main_dap_step singleFragment).map (fun e => e._packet_chunks) = some 1 ∧
    (main_dap_step singleFragment).map (fun e => check_report secondOfTwo e) = some true := by
  decide

/-! ### `div8` and the fragmenter -/

/-- With enough budget and a positive divisor the loop returns the accumulator plus the
    quotient, modulo 256. -/
theorem div8Loop_spec (y : Nat) (hy : 0 < y) :
    ∀ (fuel x z : Nat), x / y < fuel → z < 256 →
      div8Loop fuel x y z = some ((z + x / y) % 256) := by
  intro fuel
  induction fuel with
  | zero => intro x z h; exact absurd h (Nat.not_lt_zero _)
  | succ f ih =>
    intro x z h hz
    unfold div8Loop
    by_cases hc : 0 < x ∧ y ≤ x
    · rw [if_pos hc]
      have hq : x / y = (x - y) / y + 1 := by
        have := Nat.sub_add_cancel hc.2
        conv_lhs => rw [← this]
        exact Nat.add_div_right _ hy
      have hlt : u8 (z + 1) < 256 := Nat.mod_lt _ (by norm_num)
      rw [hq] at h
      rw [ih (x - y) (u8 (z + 1)) (Nat.lt_of_succ_lt_succ h) hlt, hq]
      congr 1
      unfold u8
      generalize (x - y) / y = q
      omega
    · rw [if_neg hc]
      have hq : x / y = 0 := by
        rcases Nat.lt_or_ge x y with h1 | h1
        · exact Nat.div_eq_of_lt h1
        · have : x = 0 := by
            by_contra h0
            exact hc ⟨Nat.pos_of_ne_zero h0, h1⟩
          simp [this]
      rw [hq]
      simp
      omega

/-- For a positive divisor `div8` returns the quotient modulo 256. -/
theorem div8_spec (x y : Nat) (hy : 0 < y) : div8 x y = some ((x / y) % 256) := by
  unfold div8
  have h : x / y < x + 1 := Nat.lt_succ_of_le (Nat.div_le_self x y)
  simpa using div8Loop_spec y hy (x + 1) x 0 h (by norm_num)

/-- Closed form of `complete_jtag_transactions`: it always returns. -/
theorem complete_jtag_transactions_eq (L : Nat) (s : Engine) :
    complete_jtag_transactions L s =
      some { s with _packet_length := u16 (L + 6),
                    _packet_fragment := 0,
                    _packet_endfrag := (u16 (L + 65) / 60) % 256,
                    rawData := setByte (setByte s.rawData 1 0x0E) (u16 (L + 6)) 0 } := by
  unfold complete_jtag_transactions
  rw [div8_spec _ 60 (by norm_num)]

/-- C8, as stated, fails: for a reply of length 0 the end-fragment count is 1, while
    `ceil((0 + 65) / 60)` is 2. -/
theorem endfrag_is_not_ceil :
    (complete_jtag_transactions 0 zeroEngine).map (fun e => e._packet_endfrag) = some 1 ∧
    ceil_endfrag 0 = 2 := by
  decide

/-- C8, amended: `complete_jtag_transactions(L)` returns and sets `_packet_endfrag` to the
    floor of `(L + 65) / 60`, the sum taken in 16 bits and the quotient in 8 bits; for
    `L + 65 < 15360` that is `floor((L + 65) / 60)`, which is the ceiling only when 60
    divides `L + 65`. -/
theorem endfrag_is_floor (L : Nat) (s : Engine) :
    ∃ s', complete_jtag_transactions L s = some s' ∧
      s'._packet_endfrag = (u16 (L + 65) / 60) % 256 ∧
      (L + 65 < 15360 →
        s'._packet_endfrag = (L + 65) / 60 ∧
        (s'._packet_endfrag = ceil_endfrag L ↔ (L + 65) % 60 = 0)) := by
  refine ⟨_, complete_jtag_transactions_eq L s, rfl, ?_⟩
  intro h
  have h1 : u16 (L + 65) = L + 65 := Nat.mod_eq_of_lt (by omega)
  have h2 : (L + 65) / 60 < 256 := by omega
  simp only [h1, ceil_endfrag, Nat.mod_eq_of_lt h2]
  refine ⟨trivial, ?_, ?_⟩ <;> intro h3 <;> omega

/-- C8 amended, at reply length 534: nine fragments. -/
theorem endfrag_is_floor_witness :
    ∃ s', complete_jtag_transactions 534 zeroEngine = some s' ∧ s'._packet_endfrag = 9 := by
  obtain ⟨s', h1, _, h3⟩ := endfrag_is_floor 534 zeroEngine
  exact ⟨s', h1, (h3 (by norm_num)).1⟩

/-- C9, as stated, fails: after `complete_jtag_transactions(0)` (one fragment) and one
    poll the cursor equals the end-fragment count, yet the next poll answers header 0x21
    with size 60, moves the cursor to 2 and subtracts 60 from the remaining length. -/
theorem poll_after_last_fragment_serves_data :
    (complete_jtag_transactions 0 zeroEngine).map (fun s1 =>
      let a := serve_report pollReq s1
      let b := serve_report pollReq a
      (a._packet_fragment, a._packet_endfrag, a._packet_length,
       b.dap_data 1, b.dap_data 3, b._packet_fragment, b._packet_length)) =
    some (1, 1, 65482, 0x21, 60, 2, 65422) := by
  rfl

/-- C9, amended: a 0x81 poll never changes `_packet_endfrag`; while it is 0 the answer is
    the zero-length frame (`dap_data[1] = 0`, `dap_data[3] = 0`) with cursor and remaining
    length unchanged; while it is not 0 the poll advances the cursor, subtracts 60 from the
    remaining length and answers a non-zero header byte built from the new cursor. -/
theorem poll_no_data_only_when_endfrag_zero (s : Engine) (hcmd : u8 (s.dap_data 0) = 0x81) :
    (dap_command_check s).1 = false ∧
    (dap_command_check s).2._packet_endfrag = s._packet_endfrag ∧
    (u8 s._packet_endfrag = 0 →
      (dap_command_check s).2.dap_data 1 = 0 ∧
      (dap_command_check s).2.dap_data 3 = 0 ∧
      (dap_command_check s).2._packet_fragment = s._packet_fragment ∧
      (dap_command_check s).2._packet_length = s._packet_length) ∧
    (u8 s._packet_endfrag ≠ 0 →
      (dap_command_check s).2.dap_data 1 =
        u8 ((u8 (u8 s._packet_fragment + 1) <<< 4) ||| u8 s._packet_endfrag) ∧
      (dap_command_check s).2.dap_data 3 =
        (if u8 (u8 s._packet_fragment + 1) = u8 s._packet_endfrag
          then u8 s._packet_length else 60) ∧
      (dap_command_check s).2._packet_fragment = u8 (u8 s._packet_fragment + 1) ∧
      (dap_command_check s).2._packet_length = u16 (u16 s._packet_length + (65536 - 60))) := by
  have h80 : u8 (s.dap_data 0) ≠ 0x80 := by omega
  by_cases h0 : u8 s._packet_endfrag = 0
  · unfold dap_command_check
    simp [hcmd, h0, complete_dap_out, setByte]
  · unfold dap_command_check
    simp [hcmd, h0, complete_dap_out, setByte]

/-- C9 amended, at an idle engine and at a sender polled after its last fragment. -/
theorem poll_no_data_only_when_endfrag_zero_witness :
    ((dap_command_check idlePolled).2.dap_data 1 = 0 ∧
      (dap_command_check idlePolled).2.dap_data 3 = 0 ∧
      (dap_command_check idlePolled).2._packet_fragment = idlePolled._packet_fragment ∧
      (dap_command_check idlePolled).2._packet_length = idlePolled._packet_length) ∧
    (dap_command_check servedPolled).2._packet_fragment = 2 :=
  ⟨(poll_no_data_only_when_endfrag_zero idlePolled (by decide)).2.2.1 (by decide),
   ((poll_no_data_only_when_endfrag_zero servedPolled (by decide)).2.2.2 (by decide)).2.2.1⟩

set_option maxRecDepth 8000 in
/-- C10, failing inputs: accepted fragments (command 0x80, declared count below 10) that
    write outside the 540-byte buffer: "fragment 15 of 1" stores at offset 840, a chunk
    size of 255 at "fragment 9 of 9" stores 255 bytes up to offset 734, and "fragment 0 of
    1" stores at offset 65476, that is 60 bytes in front of the buffer. -/
theorem fragment_copy_leaves_buffer :
    (check_report fragmentFifteen zeroEngine = false ∧
      (serve_report fragmentFifteen zeroEngine).dap_data 1 = 0x01 ∧
      zeroEngine.rawData 840 = 0 ∧
      (serve_report fragmentFifteen zeroEngine).rawData 840 = 7) ∧
    (zeroEngine.rawData 734 = 0 ∧
      (serve_report oversizedChunk zeroEngine).rawData 539 = 7 ∧
      (serve_report oversizedChunk zeroEngine).rawData 540 = 7 ∧
      (serve_report oversizedChunk zeroEngine).rawData 734 = 7 ∧
      (serve_report oversizedChunk zeroEngine).rawData 735 = 0) ∧
    (zeroEngine.rawData 65476 = 0 ∧
      (serve_report fragmentZero zeroEngine).rawData 65476 = 7) := by
  decide

/-! ### Fragmenting and reassembling -/

/-- Closed form of `memcpy` when the destination range does not wrap. -/
theorem memcpy_apply (dst src : Nat → Nat) (d : Nat) :
    ∀ (n i : Nat), d + n ≤ 65536 →
      memcpy dst d src n i = if d ≤ i ∧ i < d + n then src (i - d) else dst i := by
  intro n
  induction n with
  | zero =>
    intro i _
    have : ¬ (d ≤ i ∧ i < d + 0) := by omega
    rw [if_neg this]
    rfl
  | succ n ih =>
    intro i h
    have hu : u16 (d + n) = d + n := Nat.mod_eq_of_lt (by omega)
    simp only [memcpy, setByte, hu]
    by_cases hi : i = d + n
    · subst hi
      have : d ≤ d + n ∧ d + n < d + (n + 1) := by omega
      simp [this]
    · rw [if_neg hi, ih i (by omega)]
      by_cases h1 : d ≤ i ∧ i < d + n
      · have h2 : d ≤ i ∧ i < d + (n + 1) := by omega
        rw [if_pos h1, if_pos h2]
      · have h2 : ¬ (d ≤ i ∧ i < d + (n + 1)) := by omega
        rw [if_neg h1, if_neg h2]

/-- Truncating twice is truncating once. -/
theorem u8_u8 (x : Nat) : u8 (u8 x) = u8 x := Nat.mod_mod _ _

/-- The header byte `(j << 4) | n` splits back into its two nibbles. -/
theorem header_nibbles :
    ∀ j < 16, ∀ n < 16,
      (u8 ((j <<< 4) ||| n)) &&& 0x0F = n ∧ (u8 ((j <<< 4) ||| n)) >>> 4 = j := by
  decide

/-- The 0x81 branch while a reply is queued. -/
theorem dap_check_serve (s : Engine) (h : u8 (s.dap_data 0) = 0x81)
    (h0 : u8 s._packet_endfrag ≠ 0) :
    dap_command_check s =
      (false, complete_dap_out
        { s with
            dap_data :=
              setByte (setByte (memcpy (setByte s.dap_data 2 0) 4
                  (fun k => s.rawData (u16 (1 + u8 s._packet_fragment * 60 + k))) 60) 1
                (u8 ((u8 (u8 s._packet_fragment + 1) <<< 4) ||| u8 s._packet_endfrag))) 3
                (if u8 (u8 s._packet_fragment + 1) = u8 s._packet_endfrag
                  then u8 s._packet_length else 60),
            _packet_fragment := u8 (u8 s._packet_fragment + 1),
            _packet_length := u16 (u16 s._packet_length + (65536 - 60)) }) := by
  have h80 : u8 (s.dap_data 0) ≠ 0x80 := by omega
  unfold dap_command_check
  simp [h, h0]


/-- What the sender leaves after one poll while a reply is queued. -/
theorem serve_report_frame (q : Nat → Nat) (tx : Engine) (hq : u8 (q 0) = 0x81)
    (j n len : Nat) (hj : tx._packet_fragment = j) (hn : tx._packet_endfrag = n)
    (hlen : tx._packet_length = len) (hj9 : j < 9) (hn9 : 0 < n ∧ n ≤ 9) (hl : len < 65536) :
    (serve_report q tx).rawData = tx.rawData ∧
    (serve_report q tx)._packet_fragment = j + 1 ∧
    (serve_report q tx)._packet_endfrag = n ∧
    (serve_report q tx)._packet_length = u16 (len + 65476) ∧
    u8 (as_fragment (serve_report q tx).dap_data 1) &&& 0x0F = n ∧
    u8 (as_fragment (serve_report q tx).dap_data 1) >>> 4 = j + 1 ∧
    (serve_report q tx).dap_data 3 = (if j + 1 = n then u8 len else 60) ∧
    (∀ k < 60, (serve_report q tx).dap_data (4 + k) = tx.rawData (1 + j * 60 + k)) := by
  have hsrv := dap_check_serve (load_report q tx) (by simpa [load_report] using hq)
    (by simp only [load_report, hn, u8]; omega)
  have hj8 : u8 j = j := Nat.mod_eq_of_lt (by omega)
  have hj8' : u8 (j + 1) = j + 1 := Nat.mod_eq_of_lt (by omega)
  have hn8 : u8 n = n := Nat.mod_eq_of_lt (by omega)
  have hl16 : u16 len = len := Nat.mod_eq_of_lt hl
  have hdr := header_nibbles (j + 1) (by omega) n (by omega)
  unfold serve_report
  rw [hsrv]
  simp only [load_report, complete_dap_out, hj, hn, hlen, hj8, hj8', hn8, hl16]
  refine ⟨trivial, trivial, trivial, trivial, ?_, ?_, ?_, ?_⟩
  · simp only [as_fragment, setByte]
    simpa [u8_u8] using hdr.1
  · simp only [as_fragment, setByte]
    simpa [u8_u8] using hdr.2
  · simp [setByte]
  · intro k hk
    have h1 : (4 + k = 3) = False := by simp; omega
    have h2 : (4 + k = 1) = False := by simp; omega
    simp only [setByte, h1, h2, if_false]
    rw [memcpy_apply _ _ 4 60 (4 + k) (by norm_num)]
    have h3 : 4 ≤ 4 + k ∧ 4 + k < 4 + 60 := by omega
    rw [if_pos h3]
    have h4 : 4 + k - 4 = k := by omega
    have h5 : u16 (1 + j * 60 + k) = 1 + j * 60 + k := Nat.mod_eq_of_lt (by omega)
    simp only [h4, h5]


/-- One step of `transfer`. -/
theorem transfer_cons (q : Nat → Nat) (qs : List (Nat → Nat)) (tx rx : Engine) :
    transfer (q :: qs) tx rx =
      ((transfer qs (serve_report q tx)
          (dap_command_check (load_report (as_fragment (serve_report q tx).dap_data) rx)).2).1,
       (transfer qs (serve_report q tx)
          (dap_command_check (load_report (as_fragment (serve_report q tx).dap_data) rx)).2).2.1,
       (dap_command_check (load_report (as_fragment (serve_report q tx).dap_data) rx)).1 ::
       (transfer qs (serve_report q tx)
          (dap_command_check (load_report (as_fragment (serve_report q tx).dap_data) rx)).2).2.2)
    := rfl

/-- The receiver on a relayed chunk `D` that is fragment `j + 1` of `n`, carrying `sz`
    bytes of the frame `R`: the chunk counter, the copied bytes, and the result flag. -/
theorem receive_chunk (R D : Nat → Nat) (rx : Engine) (j n sz : Nat)
    (hn9 : n ≤ 9) (hjn : j + 1 ≤ n) (hsz : sz ≤ 60)
    (hendf : u8 (as_fragment D 1) &&& 0x0F = n) (hfrag : u8 (as_fragment D 1) >>> 4 = j + 1)
    (hsize : D 3 = sz) (hpay : ∀ k, k < 60 → D (4 + k) = R (1 + j * 60 + k))
    (hc : j = 0 ∨ rx._packet_chunks = j)
    (hraw : ∀ i, i < 60 * j → rx.rawData i = R (i + 1)) :
    (dap_command_check (load_report (as_fragment D) rx)).1 = decide (j + 1 = n) ∧
    (dap_command_check (load_report (as_fragment D) rx)).2._packet_chunks = j + 1 ∧
    (∀ i, i < 60 * j + sz →
      (dap_command_check (load_report (as_fragment D) rx)).2.rawData i = R (i + 1)) ∧
    (j + 1 = n →
      (dap_command_check (load_report (as_fragment D) rx)).2._packet_length = 60 * j + sz) := by
  have hcmd : u8 ((load_report (as_fragment D) rx).dap_data 0) = 0x80 := by
    simp [load_report, as_fragment, setByte, u8]
  have hendf' : rx_endf (load_report (as_fragment D) rx) = n := hendf
  have hfrag' : rx_frag (load_report (as_fragment D) rx) = j + 1 := hfrag
  have hchunks : rx_chunks (load_report (as_fragment D) rx) = j + 1 := by
    unfold rx_chunks
    rw [hfrag']
    simp only [load_report]
    rcases hc with hc | hc
    · subst hc; simp [u8]
    · rw [hc]
      by_cases h1 : j + 1 = 1
      · rw [if_pos h1]; simp only [u8]; omega
      · rw [if_neg h1]; simp only [u8]; omega
  have hofs : frag_ofst (j + 1) = 60 * j := by unfold frag_ofst; omega
  have hsize' : rx_size (load_report (as_fragment D) rx) = sz := by
    have h3 : (3 = 0) = False := by simp
    simp only [rx_size, load_report, as_fragment, setByte, h3, if_false, hsize, u8]
    omega
  have hcopy : ∀ i, i < 60 * j + sz →
      memcpy rx.rawData (60 * j) (fun k => as_fragment D (4 + k)) sz i = R (i + 1) := by
    intro i hi
    rw [memcpy_apply _ _ _ _ _ (by omega)]
    by_cases h1 : 60 * j ≤ i ∧ i < 60 * j + sz
    · rw [if_pos h1]
      have h0 : (4 + (i - 60 * j) = 0) = False := by simp
      simp only [as_fragment, setByte, h0, if_false]
      rw [hpay (i - 60 * j) (by omega)]
      congr 1
      omega
    · rw [if_neg h1]
      exact hraw i (by omega)
  by_cases hlast : j + 1 = n
  · have hok := dap_check_last_ok _ hcmd (by rw [hendf']; omega)
      (by rw [hendf', hfrag']; exact hlast.symm) (by rw [hchunks, hendf']; exact hlast)
    rw [hok, hfrag', hofs, hsize', hchunks]
    simp only [complete_dap_out, load_report]
    refine ⟨by simp [hlast], trivial, hcopy, ?_⟩
    intro _
    simp only [u16]
    omega
  · have hmid := dap_check_middle _ hcmd (by rw [hendf']; omega)
      (by rw [hendf', hfrag']; omega)
    rw [hmid, hfrag', hofs, hsize', hchunks]
    simp only [complete_dap_out, load_report]
    exact ⟨by simp [hlast], trivial, hcopy, fun h => absurd h hlast⟩

/-- Arithmetic of an `L + 6` byte frame cut into `n = (L + 65) / 60` chunks. -/
theorem frame_arith (L n j : Nat) (hL : L ≤ 534) (hn : n = (L + 65) / 60) (hj : j + 1 ≤ n) :
    0 < n ∧ n ≤ 9 ∧ j < 9 ∧ L + 6 - 60 * j < 65536 ∧
    (j + 1 = n → u8 (L + 6 - 60 * j) ≤ 60 ∧ 60 * j + u8 (L + 6 - 60 * j) = L + 6) ∧
    (j + 1 < n → u16 (L + 6 - 60 * j + 65476) = L + 6 - 60 * (j + 1)) := by
  unfold u8 u16
  omega

/-- Invariant of `transfer`: `j` chunks of the frame `R` are already in the receiver. -/
theorem transfer_inv (R : Nat → Nat) (L n : Nat) (hL : L ≤ 534) (hn : n = (L + 65) / 60) :
    ∀ (polls : List (Nat → Nat)) (j : Nat) (tx rx : Engine),
      (∀ q ∈ polls, u8 (q 0) = 0x81) →
      polls ≠ [] → j + polls.length = n →
      tx.rawData = R → tx._packet_fragment = j → tx._packet_endfrag = n →
      tx._packet_length = L + 6 - 60 * j →
      (j = 0 ∨ rx._packet_chunks = j) →
      (∀ i, i < 60 * j → rx.rawData i = R (i + 1)) →
      (transfer polls tx rx).2.2 = List.replicate (polls.length - 1) false ++ [true] ∧
      (∀ i, i < L + 6 → (transfer polls tx rx).2.1.rawData i = R (i + 1)) ∧
      (transfer polls tx rx).2.1._packet_length = L + 6 := by
  intro polls
  induction polls with
  | nil => intro j tx rx _ hne; exact absurd rfl hne
  | cons q qs ih =>
    intro j tx rx hq _ hlen hR hj hn' hl hc hraw
    have hjn : j + 1 + qs.length = n := by simp only [List.length_cons] at hlen; omega
    obtain ⟨a1, a2, a3, a4, a5, a6⟩ := frame_arith L n j hL hn (by omega)
    obtain ⟨f1, f2, f3, f4, f5, f6, f7, f8⟩ :=
      serve_report_frame q tx (hq q (List.mem_cons_self _ _)) j n (L + 6 - 60 * j) hj hn' hl
        a3 ⟨a1, a2⟩ a4
    rw [transfer_cons]
    generalize serve_report q tx = tx' at f1 f2 f3 f4 f5 f6 f7 f8 ⊢
    rw [hR] at f8
    cases qs with
    | nil =>
      have hlast : j + 1 = n := by simpa using hjn
      rw [if_pos hlast] at f7
      obtain ⟨r1, _, r3, r4⟩ := receive_chunk R tx'.dap_data rx j n (u8 (L + 6 - 60 * j))
        a2 (by omega) (a5 hlast).1 f5 f6 f7 f8 hc hraw
      rw [(a5 hlast).2] at r3
      have r4' := r4 hlast
      rw [(a5 hlast).2] at r4'
      refine ⟨?_, r3, r4'⟩
      simp [transfer, r1, hlast]
    | cons q2 qs2 =>
      have hlt : j + 1 < n := by simp only [List.length_cons] at hjn; omega
      have hne : ¬ (j + 1 = n) := by omega
      rw [if_neg hne] at f7
      obtain ⟨r1, r2, r3, _⟩ := receive_chunk R tx'.dap_data rx j n 60
        a2 (by omega) (le_refl _) f5 f6 f7 f8 hc hraw
      have hih := ih (j + 1) tx'
        (dap_command_check (load_report (as_fragment tx'.dap_data) rx)).2
        (fun q' hq' => hq q' (List.mem_cons_of_mem _ hq')) (by simp) hjn (by rw [f1, hR]) f2 f3
        (by rw [f4]; exact a6 hlt) (Or.inr r2)
        (fun i hi => r3 i (by omega))
      obtain ⟨g1, g2, g3⟩ := hih
      refine ⟨?_, g2, g3⟩
      rw [g1, r1]
      simp [hne, List.replicate_succ]

/-- C7: for a reply of length `L <= 534`, the chunks served by the `(L + 65) / 60` polls
    that follow `complete_jtag_transactions(L)`, fed in order as 0x80 fragments to a
    receiver in any state, leave the `L + 6` frame bytes (sender `rawData[1 .. L+6]`) at the
    start of the receiver's buffer with recorded length `L + 6`; `dap_command_check`
    returns true on the last chunk and false on every earlier one. -/
theorem fragment_reassemble_roundtrip (L : Nat) (hL : L ≤ 534) (s0 t0 : Engine)
    (polls : List (Nat → Nat)) (hpolls : ∀ q ∈ polls, u8 (q 0) = 0x81)
    (hlen : polls.length = (L + 65) / 60) :
    ∃ s1, complete_jtag_transactions L s0 = some s1 ∧
      s1._packet_endfrag = polls.length ∧
      (transfer polls s1 t0).2.2 = List.replicate (polls.length - 1) false ++ [true] ∧
      (∀ i, i < L + 6 → (transfer polls s1 t0).2.1.rawData i = s1.rawData (i + 1)) ∧
      (transfer polls s1 t0).2.1._packet_length = L + 6 := by
  refine ⟨_, complete_jtag_transactions_eq L s0, ?_, ?_⟩
  · have h1 : u16 (L + 65) = L + 65 := Nat.mod_eq_of_lt (by omega)
    show u16 (L + 65) / 60 % 256 = polls.length
    rw [h1, hlen]
    omega
  · have hne : polls ≠ [] := by
      intro h
      rw [h] at hlen
      simp only [List.length_nil] at hlen
      omega
    have h1 : u16 (L + 65) = L + 65 := Nat.mod_eq_of_lt (by omega)
    have h2 : u16 (L + 6) = L + 6 := Nat.mod_eq_of_lt (by omega)
    have h3 : (L + 65) / 60 % 256 = (L + 65) / 60 := Nat.mod_eq_of_lt (by omega)
    exact transfer_inv _ L ((L + 65) / 60) hL rfl polls 0 _ t0 hpolls hne
      (by omega) rfl rfl (by show u16 (L + 65) / 60 % 256 = _; rw [h1, h3])
      (by show u16 (L + 6) = _; rw [h2]; omega) (Or.inl rfl) (fun i hi => by omega)

/-- C7 at a reply of length 100 (two chunks) sent from `countingSender`. -/
theorem fragment_reassemble_roundtrip_witness :
    ∃ s1, complete_jtag_transactions 100 countingSender = some s1 ∧
      s1._packet_endfrag = [pollReq, pollReq].length ∧
      (transfer [pollReq, pollReq] s1 zeroEngine).2.2 =
        List.replicate ([pollReq, pollReq].length - 1) false ++ [true] ∧
      (∀ i, i < 100 + 6 →
        (transfer [pollReq, pollReq] s1 zeroEngine).2.1.rawData i = s1.rawData (i + 1)) ∧
      (transfer [pollReq, pollReq] s1 zeroEngine).2.1._packet_length = 100 + 6 :=
  fragment_reassemble_roundtrip 100 (by norm_num) countingSender zeroEngine
    [pollReq, pollReq] (by intro q hq; simp at hq; subst hq; decide) (by decide)

/-! ### Which dropped fragments the chunk counter detects -/

/-- Flags of a concatenated report sequence. -/
theorem feed_flags_append (l1 l2 : List (Nat → Nat)) :
    ∀ s, feed_flags (l1 ++ l2) s = feed_flags l1 s ++ feed_flags l2 (feed_state l1 s) := by
  induction l1 with
  | nil => intro s; rfl
  | cons r rs ih => intro s; simp [feed_flags, feed_state, ih]

/-- One inbound fragment `i` of `n` that is not the first of a packet. -/
theorem receive_counted (r : Nat → Nat) (s : Engine) (i n : Nat) (hn : n ≤ 9)
    (h0 : u8 (r 0) = 0x80) (hendf : u8 (r 1) &&& 0x0F = n) (hfrag : u8 (r 1) >>> 4 = i)
    (hc : (if i = 1 then 0 else s._packet_chunks) + 1 < 256) :
    (serve_report r s)._packet_chunks = (if i = 1 then 0 else s._packet_chunks) + 1 ∧
    (check_report r s = true ↔
      i = n ∧ (if i = 1 then 0 else s._packet_chunks) + 1 = n) := by
  have hcmd : u8 ((load_report r s).dap_data 0) = 0x80 := h0
  have hendf' : rx_endf (load_report r s) = n := hendf
  have hfrag' : rx_frag (load_report r s) = i := hfrag
  have hchunks : rx_chunks (load_report r s) = (if i = 1 then 0 else s._packet_chunks) + 1 := by
    unfold rx_chunks
    rw [hfrag']
    exact Nat.mod_eq_of_lt hc
  unfold serve_report check_report
  by_cases h1 : n = i
  · by_cases h2 : rx_chunks (load_report r s) = n
    · rw [dap_check_last_ok _ hcmd (by rw [hendf']; omega) (by rw [hendf', hfrag']; exact h1)
        (by rw [hendf']; exact h2)]
      rw [hchunks] at h2
      simp [complete_dap_out, hchunks, h1, h2]
    · rw [dap_check_last_fail _ hcmd (by rw [hendf']; omega) (by rw [hendf', hfrag']; exact h1)
        (by rw [hendf']; exact h2)]
      rw [hchunks] at h2
      simp [complete_dap_out, hchunks]
      intro _
      exact h2
  · rw [dap_check_middle _ hcmd (by rw [hendf']; omega) (by rw [hendf', hfrag']; exact h1)]
    simp [complete_dap_out, hchunks]
    intro h
    exact absurd h.symm h1


/-- Fragments `a, a+1, ..., a+len-1`, none of them the last one, in sequence. -/
theorem feed_prefix (n : Nat) (hn : n ≤ 9) (f : Nat → Nat → Nat) (hf : FragmentsOf n f) :
    ∀ (len a : Nat) (s : Engine), 1 ≤ a → a + len ≤ n →
      (a = 1 ∨ s._packet_chunks = a - 1) →
      (∀ b ∈ feed_flags ((List.range' a len).map f) s, b = false) ∧
      (a + len = 1 ∨
        (feed_state ((List.range' a len).map f) s)._packet_chunks = a + len - 1) := by
  intro len
  induction len with
  | zero =>
    intro a s _ _ hc
    refine ⟨by simp [feed_flags], ?_⟩
    rcases hc with hc | hc
    · left; omega
    · right; simpa [feed_state] using hc
  | succ len ih =>
    intro a s ha hle hc
    obtain ⟨h0, h1, h2⟩ := hf a (by omega) (by omega)
    have hbound : (if a = 1 then 0 else s._packet_chunks) + 1 < 256 := by
      rcases hc with hc | hc
      · simp [hc]
      · rw [hc]; split_ifs <;> omega
    obtain ⟨r1, r2⟩ := receive_counted (f a) s a n hn h0 h1 h2 hbound
    have hval : (if a = 1 then 0 else s._packet_chunks) + 1 = a := by
      rcases hc with hc | hc
      · simp [hc]
      · rw [hc]; split_ifs <;> omega
    have hflag : check_report (f a) s = false := by
      cases hb : check_report (f a) s
      · rfl
      · have := (r2.1 hb).1
        omega
    obtain ⟨i1, i2⟩ := ih (a + 1) (serve_report (f a) s) (by omega) (by omega)
      (Or.inr (by rw [r1, hval]; rfl))
    simp only [List.range'_succ, List.map_cons, feed_flags, feed_state, List.mem_cons]
    constructor
    · intro b hb
      rcases hb with hb | hb
      · rw [hb, hflag]
      · exact i1 b hb
    · right
      rcases i2 with i2 | i2
      · omega
      · rw [i2]; omega

/-- Once a fragment is missing the counter stays behind the fragment index, and no later
    fragment of the packet is reported complete. -/
theorem feed_after_gap (n : Nat) (hn : n ≤ 9) (f : Nat → Nat → Nat) (hf : FragmentsOf n f) :
    ∀ (len a : Nat) (s : Engine), 2 ≤ a → a + len ≤ n + 1 →
      s._packet_chunks + 1 < a →
      ∀ b ∈ feed_flags ((List.range' a len).map f) s, b = false := by
  intro len
  induction len with
  | zero => intro a s _ _ _; simp [feed_flags]
  | succ len ih =>
    intro a s ha hle hc
    obtain ⟨h0, h1, h2⟩ := hf a (by omega) (by omega)
    have hne : ¬ (a = 1) := by omega
    have hbound : (if a = 1 then 0 else s._packet_chunks) + 1 < 256 := by
      rw [if_neg hne]; omega
    obtain ⟨r1, r2⟩ := receive_counted (f a) s a n hn h0 h1 h2 hbound
    rw [if_neg hne] at r1 r2
    have hflag : check_report (f a) s = false := by
      cases hb : check_report (f a) s
      · rfl
      · have := r2.1 hb
        omega
    have i1 := ih (a + 1) (serve_report (f a) s) (by omega) (by omega) (by rw [r1]; omega)
    simp only [List.range'_succ, List.map_cons, feed_flags, List.mem_cons]
    intro b hb
    rcases hb with hb | hb
    · rw [hb, hflag]
    · exact i1 b hb

/-- Dropping fragment `k` with `2 <= k < n` is detected: fed the fragments `1 .. k-1` and
    `k+1 .. n` of a packet declared as `n <= 9` fragments, `dap_command_check` never returns
    true, whatever the engine state before. -/
theorem dropped_later_fragment_is_detected (n k : Nat) (hk : 2 ≤ k) (hkn : k < n) (hn : n ≤ 9)
    (f : Nat → Nat → Nat) (hf : FragmentsOf n f) (s : Engine) :
    ∀ b ∈ feed_flags ((List.range' 1 (k - 1) ++ List.range' (k + 1) (n - k)).map f) s,
      b = false := by
  obtain ⟨p1, p2⟩ := feed_prefix n hn f hf (k - 1) 1 s (le_refl _) (by omega) (Or.inl rfl)
  have p3 := feed_after_gap n hn f hf (n - k) (k + 1)
    (feed_state ((List.range' 1 (k - 1)).map f) s) (by omega) (by omega)
    (by rcases p2 with p2 | p2
        · omega
        · rw [p2]; omega)
  intro b hb
  rw [List.map_append, feed_flags_append, List.mem_append] at hb
  rcases hb with hb | hb
  · exact p1 b hb
  · exact p3 b hb

/-- Dropping fragment 1 is not detected when the counter was left at 1: fed the fragments
    `2 .. n` only, `dap_command_check` returns true on fragment `n`. -/
theorem dropped_first_fragment_completes (n : Nat) (h2 : 2 ≤ n) (hn : n ≤ 9)
    (f : Nat → Nat → Nat) (hf : FragmentsOf n f) (s : Engine) (hs : s._packet_chunks = 1) :
    check_report (f n) (feed_state ((List.range' 2 (n - 2)).map f) s) = true := by
  obtain ⟨_, p2⟩ := feed_prefix n hn f hf (n - 2) 2 s (by omega) (by omega) (Or.inr hs)
  have hc : (feed_state ((List.range' 2 (n - 2)).map f) s)._packet_chunks = n - 1 := by
    rcases p2 with p2 | p2
    · omega
    · rw [p2]; omega
  obtain ⟨h0, h1, h3⟩ := hf n (by omega) (le_refl _)
  have hne : ¬ (n = 1) := by omega
  obtain ⟨_, r2⟩ := receive_counted (f n) _ n n hn h0 h1 h3
    (by rw [if_neg hne, hc]; omega)
  rw [r2, if_neg hne, hc]
  exact ⟨rfl, by omega⟩

/-- The reports `fourFragments` are the fragments of a packet declared as 4 fragments. -/
theorem fourFragments_ok : FragmentsOf 4 fourFragments := by
  intro i h1 h4
  have : i = 1 ∨ i = 2 ∨ i = 3 ∨ i = 4 := by omega
  rcases this with h | h | h | h <;> subst h <;> decide

/-- With fragment 2 of 4 dropped no report is flagged complete; with fragment 1 of 4 dropped
    after a one-fragment packet, fragment 4 is flagged complete. -/
theorem four_fragment_drops :
    (∀ b ∈ feed_flags ((List.range' 1 (2 - 1) ++ List.range' (2 + 1) (4 - 2)).map
        fourFragments) zeroEngine, b = false) ∧
    check_report (fourFragments 4)
      (feed_state ((List.range' 2 (4 - 2)).map fourFragments)
        { zeroEngine with _packet_chunks := 1 }) = true :=
  ⟨dropped_later_fragment_is_detected 4 2 (by norm_num) (by norm_num) (by norm_num)
     fourFragments fourFragments_ok zeroEngine,
   dropped_first_fragment_completes 4 (by norm_num) (by norm_num) fourFragments
     fourFragments_ok { zeroEngine with _packet_chunks := 1 } rfl⟩

/-! ### Scope dispatch and reply framing -/

/-- Function `complete_jtag_transactions` always returns the workspace `framed`. -/
theorem complete_jtag_transactions_framed (L : Nat) (s : Engine) :
    complete_jtag_transactions L s = some (framed L s) :=
  complete_jtag_transactions_eq L s

/-- Function `jtag_scope_branch` always returns: it frames the reply of the handler that
    `scope_dispatch` selects. -/
theorem jtag_scope_branch_framed (s : Engine) :
    jtag_scope_branch s = some (framed (scope_dispatch s).1 (scope_dispatch s).2) := by
  unfold jtag_scope_branch scope_dispatch
  exact complete_jtag_transactions_framed _ _

/-- C19: for a scope byte other than 0x01, 0x12 and 0x20, `jtag_scope_branch` returns with
    architecture, connection type, device descriptor, data space, program space and
    controller log unchanged, and queues a reply of length 0: frame length 6, end-fragment
    count 1, cursor 0, token 0x0E at offset 1 and the terminator at offset 6; no other
    buffer byte changes. -/
theorem unknown_scope_reply (s : Engine)
    (h1 : out_scope s ≠ 0x01) (h2 : out_scope s ≠ 0x12) (h3 : out_scope s ≠ 0x20) :
    ∃ s', jtag_scope_branch s = some s' ∧
      s'._jtag_arch = s._jtag_arch ∧ s'._jtag_conn = s._jtag_conn ∧
      s'.Device_Descriptor = s.Device_Descriptor ∧
      s'.mem = s.mem ∧ s'.progmem = s.progmem ∧ s'.nvm_log = s.nvm_log ∧
      s'.NVMCTRL_CTRLB = s.NVMCTRL_CTRLB ∧
      s'._packet_length = 6 ∧ s'._packet_endfrag = 1 ∧ s'._packet_fragment = 0 ∧
      s'.rawData 1 = 0x0E ∧ s'.rawData 6 = 0 ∧
      (∀ i, i ≠ 1 → i ≠ 6 → s'.rawData i = s.rawData i) := by
  have hd : scope_dispatch s = (0, s) := by
    unfold scope_dispatch
    simp [h1, h2, h3]
  refine ⟨_, jtag_scope_branch_framed s, ?_⟩
  rw [hd]
  refine ⟨rfl, rfl, rfl, rfl, rfl, rfl, rfl, by simp [framed, u16], by simp [framed, u16],
    rfl, by simp [framed, u16, setByte], by simp [framed, u16, setByte], ?_⟩
  intro i hi1 hi6
  simp [framed, u16, setByte, hi1, hi6]

/-- C19 at the packet `unknownScopePacket`. -/
theorem unknown_scope_reply_witness :
    ∃ s', jtag_scope_branch unknownScopePacket = some s' ∧
      s'._jtag_arch = unknownScopePacket._jtag_arch ∧
      s'._jtag_conn = unknownScopePacket._jtag_conn ∧
      s'.Device_Descriptor = unknownScopePacket.Device_Descriptor ∧
      s'.mem = unknownScopePacket.mem ∧ s'.progmem = unknownScopePacket.progmem ∧
      s'.nvm_log = unknownScopePacket.nvm_log ∧
      s'.NVMCTRL_CTRLB = unknownScopePacket.NVMCTRL_CTRLB ∧
      s'._packet_length = 6 ∧ s'._packet_endfrag = 1 ∧ s'._packet_fragment = 0 ∧
      s'.rawData 1 = 0x0E ∧ s'.rawData 6 = 0 ∧
      (∀ i, i ≠ 1 → i ≠ 6 → s'.rawData i = unknownScopePacket.rawData i) :=
  unknown_scope_reply unknownScopePacket (by decide) (by decide) (by decide)

/-- The buffer bytes of a framed reply. -/
theorem framed_rawData (L : Nat) (s : Engine) (j : Nat) :
    (framed L s).rawData j =
      if j = u16 (L + 6) then 0 else if j = 1 then 0x0E else s.rawData j := rfl

/-- The buffer bytes after the assignment `packet.in.res = v`. -/
theorem set_in_res_rawData (v : Nat) (s : Engine) (j : Nat) :
    (set_in_res v s).rawData j =
      if j = 6 then u8 (v / 256) else if j = 5 then u8 v else s.rawData j := rfl

/-- A copy that does not wrap leaves the bytes in front of its destination alone. -/
theorem memcpy_below (dst src : Nat → Nat) (d n i : Nat) (h : d + n ≤ 65536) (hi : i < d) :
    memcpy dst d src n i = dst i := by
  rw [memcpy_apply dst src d n i h, if_neg (by omega)]

/-- C14: a General-scope GET_PARAMETER with section 0, index `i <= 4` and length `n >= 1`,
    `i + n <= 5`, returns reply length `n + 1`, result code 0x184 and as reply data the
    bytes `i .. i+n-1` of `jtag_version` = {52, 3, 72, 48, 0}. -/
theorem general_get_version (s : Engine) (i n : Nat)
    (hscope : out_scope s = 0x01) (hcmd : out_cmd s = 0x02) (hsec : out_section s = 0)
    (hidx : out_index s = i) (hlen : out_length s = n)
    (hi : i ≤ 4) (hn : 1 ≤ n) (hin : i + n ≤ 5) :
    ∃ s', jtag_scope_branch s = some s' ∧
      (jtag_scope_general s).1 = n + 1 ∧
      s'._packet_length = (n + 1) + 6 ∧
      in_res s' = 0x184 ∧
      (∀ k, k < n → in_data s' k = jtag_version.getD (i + k) 0) := by
  have hg : jtag_scope_general s =
      (n + 1, set_in_res 0x184
        { s with rawData := (memcpy s.rawData 7
            (fun k => pgm_array s jtag_version s.jtag_version_addr (i + k)) n) }) := by
    unfold jtag_scope_general
    simp [hcmd, hsec, hidx, hlen]
  have hd : scope_dispatch s = jtag_scope_general s := by
    unfold scope_dispatch
    simp [hscope]
  refine ⟨_, jtag_scope_branch_framed s, ?_⟩
  rw [hd, hg]
  have hu : u16 (n + 1 + 6) = n + 7 := Nat.mod_eq_of_lt (by omega)
  refine ⟨rfl, ?_, ?_, ?_⟩
  · show u16 (n + 1 + 6) = n + 1 + 6
    rw [hu]
  · simp only [in_res, framed_rawData, set_in_res_rawData, hu]
    have e1 : ¬ (5 = n + 7) := by omega
    have e2 : ¬ (6 = n + 7) := by omega
    simp [e1, e2, u8]
  · intro k hk
    simp only [in_data, framed_rawData, set_in_res_rawData, hu]
    have e1 : ¬ (7 + k = n + 7) := by omega
    have e2 : ¬ (7 + k = 1) := by omega
    have e3 : ¬ (7 + k = 6) := by omega
    have e4 : ¬ (7 + k = 5) := by omega
    rw [if_neg e1, if_neg e2, if_neg e3, if_neg e4]
    rw [memcpy_apply _ _ 7 n (7 + k) (by omega), if_pos (by omega)]
    have e5 : 7 + k - 7 = k := by omega
    have e6 : i + k < jtag_version.length := by simp [jtag_version]; omega
    simp only [e5, pgm_array, if_pos e6]


/-- C14 at the request `versionRequest` (index 1, length 3: the bytes 3, 72, 48). -/
theorem general_get_version_witness :
    ∃ s', jtag_scope_branch versionRequest = some s' ∧
      (jtag_scope_general versionRequest).1 = 3 + 1 ∧
      s'._packet_length = (3 + 1) + 6 ∧
      in_res s' = 0x184 ∧
      (∀ k, k < 3 → in_data s' k = jtag_version.getD (1 + k) 0) :=
  general_get_version versionRequest 1 3 (by decide) (by decide) (by decide) (by decide)
    (by decide) (by decide) (by decide) (by decide)

/-- The bytes of `_sib` are the identity string followed by NUL. -/
theorem sib_text : _sib = ("AVR     P:4D:1-3M2 (EDBG.Boot.)".toList.map Char.toNat) ++ [0] := by
  decide

/-- C13: with architecture 5, an AVR-Core READ_MEMORY of type 0xD3 and length 32 answers
    result code 0x184 with the 32 bytes of `_sib` as reply data, framed as one fragment:
    end-fragment count 1, and every 0x81 poll that follows carries header 0x11, chunk size
    39, the token 0x0E first and the 32 bytes at payload offset 6. -/
theorem read_sib_end_to_end (s : Engine)
    (hscope : out_scope s = 0x12) (hcmd : out_cmd s = 0x21) (harch : u8 s._jtag_arch = 5)
    (htype : out_bMType s = 0xD3) (hlen : out_dwLength s = 32) :
    ∃ s', jtag_scope_branch s = some s' ∧
      in_res s' = 0x184 ∧
      (∀ k, k < 32 → in_data s' k = _sib.getD k 0) ∧
      s'._packet_endfrag = 1 ∧ s'._packet_length = 39 ∧ s'._packet_fragment = 0 ∧
      (∀ q : Nat → Nat, u8 (q 0) = 0x81 →
        check_report q s' = false ∧
        (serve_report q s').dap_data 1 = 0x11 ∧
        (serve_report q s').dap_data 3 = 39 ∧
        (serve_report q s').dap_data 4 = 0x0E ∧
        (∀ k, k < 32 → (serve_report q s').dap_data (10 + k) = _sib.getD k 0)) := by
  have hr : read_memory s =
      (33, { s with rawData := (memcpy s.rawData 7
              (fun k => pgm_array s _sib s.sib_addr k) 32) }) := by
    unfold read_memory
    simp [htype, hlen, u16]
  have hu : jtag_scope_updi s = ((read_memory s).1, set_in_res 0x184 (read_memory s).2) := by
    unfold jtag_scope_updi
    simp [hcmd]
  have hc : jtag_scope_avr_core s = jtag_scope_updi s := by
    unfold jtag_scope_avr_core
    simp [hcmd, harch]
  have hd : scope_dispatch s = jtag_scope_avr_core s := by
    unfold scope_dispatch
    simp [hscope]
  have hdata : ∀ k, k < 32 →
      (framed (scope_dispatch s).1 (scope_dispatch s).2).rawData (7 + k) = _sib.getD k 0 := by
    intro k hk
    rw [hd, hc, hu, hr]
    simp only [framed_rawData, set_in_res_rawData, u16]
    have e1 : ¬ (7 + k = (33 + 6) % 65536) := by omega
    have e2 : ¬ (7 + k = 1) := by omega
    have e3 : ¬ (7 + k = 6) := by omega
    have e4 : ¬ (7 + k = 5) := by omega
    rw [if_neg e1, if_neg e2, if_neg e3, if_neg e4]
    rw [memcpy_apply _ _ 7 32 (7 + k) (by omega), if_pos (by omega)]
    have e5 : 7 + k - 7 = k := by omega
    have e6 : k < _sib.length := by simp [_sib]; omega
    simp only [e5, pgm_array, if_pos e6]
  have htok : (framed (scope_dispatch s).1 (scope_dispatch s).2).rawData 1 = 0x0E := by
    rw [hd, hc, hu, hr]
    simp [framed_rawData, u16]
  have hend : (framed (scope_dispatch s).1 (scope_dispatch s).2)._packet_endfrag = 1 := by
    rw [hd, hc, hu, hr]
    simp [framed, u16]
  have hplen : (framed (scope_dispatch s).1 (scope_dispatch s).2)._packet_length = 39 := by
    rw [hd, hc, hu, hr]
    simp [framed, u16]
  have hfrag : (framed (scope_dispatch s).1 (scope_dispatch s).2)._packet_fragment = 0 := rfl
  have hres : in_res (framed (scope_dispatch s).1 (scope_dispatch s).2) = 0x184 := by
    rw [hd, hc, hu, hr]
    simp [in_res, framed_rawData, set_in_res_rawData, u16, u8]
  refine ⟨_, jtag_scope_branch_framed s, hres, hdata, hend, hplen, hfrag, ?_⟩
  generalize framed (scope_dispatch s).1 (scope_dispatch s).2 = s' at hdata htok hend hplen hfrag
  intro q hq
  have hsrv := dap_check_serve (load_report q s') hq
    (by simp only [load_report, hend, u8]; omega)
  unfold check_report serve_report
  rw [hsrv]
  simp only [load_report, complete_dap_out, hend, hplen, hfrag, u8, setByte]
  refine ⟨trivial, by simp, by simp, ?_, ?_⟩
  · have e1 : ¬ (4 = 3) := by omega
    have e2 : ¬ (4 = 1) := by omega
    rw [if_neg e1, if_neg e2, memcpy_apply _ _ 4 60 4 (by norm_num), if_pos (by omega)]
    simpa [u16] using htok
  · intro k hk
    have e1 : ¬ (10 + k = 3) := by omega
    have e2 : ¬ (10 + k = 1) := by omega
    rw [if_neg e1, if_neg e2, memcpy_apply _ _ 4 60 (10 + k) (by norm_num), if_pos (by omega)]
    have e3 : u16 (1 + 0 % 256 * 60 + (10 + k - 4)) = 7 + k := by
      simp only [u16]; omega
    simp only [e3]
    exact hdata k hk


/-- C13 at the request `sibRead`. -/
theorem read_sib_end_to_end_witness :
    ∃ s', jtag_scope_branch sibRead = some s' ∧
      in_res s' = 0x184 ∧
      (∀ k, k < 32 → in_data s' k = _sib.getD k 0) ∧
      s'._packet_endfrag = 1 ∧ s'._packet_length = 39 ∧ s'._packet_fragment = 0 ∧
      (∀ q : Nat → Nat, u8 (q 0) = 0x81 →
        check_report q s' = false ∧
        (serve_report q s').dap_data 1 = 0x11 ∧
        (serve_report q s').dap_data 3 = 39 ∧
        (serve_report q s').dap_data 4 = 0x0E ∧
        (∀ k, k < 32 → (serve_report q s').dap_data (10 + k) = _sib.getD k 0)) :=
  read_sib_end_to_end sibRead (by decide) (by decide) (by decide) (by decide) (by decide)

/-! ### The NVM executor on erase and on other memory types -/

/-- C15, as stated, fails: an ERASE_MEMORY request of erase type 0x07 for page 0x1200 is
    answered 0x80 without any controller command and without the sentinel store. -/
theorem erase_user_row_does_nothing :
    out_scope userRowErase = 0x12 ∧ out_cmd userRowErase = 0x20 ∧
    out_bEType userRowErase = 0x07 ∧ out_dwPageAddr userRowErase = 0x1200 ∧
    (erase_memory userRowErase).2.nvm_log = [] ∧
    (jtag_scope_updi userRowErase).2.nvm_log = [] ∧
    (jtag_scope_updi userRowErase).2.nvm_log ≠
      [NvmEvent.cmd NvmCmd.FLPER, NvmEvent.store 0x1200 0, NvmEvent.cmd NvmCmd.FLWR] ∧
    (jtag_scope_updi userRowErase).2.mem 0x1200 = 0x5A ∧
    in_res (jtag_scope_updi userRowErase).2 = 0x80 := by
  decide

/-- C15, amended: `erase_memory` as built returns 1 and changes nothing, for every erase
    type, 0x07 included; an ERASE_MEMORY request is answered with length 1 and result code
    0x80 while data space, program space, controller log and flash-map selection stay as
    they were. -/
theorem erase_memory_is_noop (s : Engine) :
    erase_memory s = (1, s) ∧
    (out_cmd s = 0x20 →
      (jtag_scope_updi s).1 = 1 ∧
      in_res (jtag_scope_updi s).2 = 0x80 ∧
      (jtag_scope_updi s).2.nvm_log = s.nvm_log ∧
      (jtag_scope_updi s).2.mem = s.mem ∧
      (jtag_scope_updi s).2.progmem = s.progmem ∧
      (jtag_scope_updi s).2.NVMCTRL_CTRLB = s.NVMCTRL_CTRLB) := by
  refine ⟨rfl, ?_⟩
  intro hcmd
  have h : jtag_scope_updi s = (1, set_in_res 0x80 s) := by
    unfold jtag_scope_updi
    simp [hcmd, erase_memory]
  rw [h]
  simp [set_in_res, in_res, setByte, u8]

/-- C15 amended, at the request `userRowErase`. -/
theorem erase_memory_is_noop_witness :
    (jtag_scope_updi userRowErase).1 = 1 ∧
    in_res (jtag_scope_updi userRowErase).2 = 0x80 ∧
    (jtag_scope_updi userRowErase).2.nvm_log = userRowErase.nvm_log ∧
    (jtag_scope_updi userRowErase).2.mem = userRowErase.mem ∧
    (jtag_scope_updi userRowErase).2.progmem = userRowErase.progmem ∧
    (jtag_scope_updi userRowErase).2.NVMCTRL_CTRLB = userRowErase.NVMCTRL_CTRLB :=
  (erase_memory_is_noop userRowErase).2 (by decide)

/-- The excluded body would issue page erase, sentinel store and page write for erase type
    0x07 and change nothing for the types other than 0x07 and 0x04. -/
theorem erase_memory_excluded_events (s : Engine) :
    (out_bEType s = 0x07 →
      (erase_memory_excluded s).2.nvm_log = s.nvm_log ++
        [NvmEvent.cmd NvmCmd.FLPER, NvmEvent.store (out_dwPageAddr s) 0,
         NvmEvent.cmd NvmCmd.FLWR]) ∧
    (out_bEType s ≠ 0x07 → out_bEType s ≠ 0x04 → erase_memory_excluded s = (1, s)) := by
  constructor
  · intro h
    simp [erase_memory_excluded, nvm_cmd, h]
  · intro h7 h4
    simp [erase_memory_excluded, h7, h4]

/-- A store through a data pointer changes the packet buffer and the data space only. -/
theorem data_store_frame (a v : Nat) (s : Engine) :
    ∃ r m, data_store a v s = { s with rawData := r, mem := m } := by
  unfold data_store
  split_ifs
  · exact ⟨_, _, rfl⟩
  · exact ⟨_, _, rfl⟩

/-- The payload copy changes the packet buffer and the data space only. -/
theorem memcpy_to_data_frame (d : Nat) :
    ∀ (n : Nat) (s : Engine), ∃ r m, memcpy_to_data d n s = { s with rawData := r, mem := m } := by
  intro n
  induction n with
  | zero => intro s; exact ⟨s.rawData, s.mem, rfl⟩
  | succ n ih =>
    intro s
    obtain ⟨r, m, h⟩ := ih s
    obtain ⟨r2, m2, h2⟩ := data_store_frame (u16 (d + n))
      ((memcpy_to_data d n s).rawData (u16 (17 + n))) (memcpy_to_data d n s)
    refine ⟨r2, m2, ?_⟩
    show data_store (u16 (d + n)) ((memcpy_to_data d n s).rawData (u16 (17 + n)))
      (memcpy_to_data d n s) = _
    rw [h2, h]

/-- The copy into the reply data changes the packet buffer only. -/
theorem memcpy_from_data_frame (a : Nat) :
    ∀ (n : Nat) (s : Engine), ∃ r, memcpy_from_data a n s = { s with rawData := r } := by
  intro n
  induction n with
  | zero => intro s; exact ⟨s.rawData, rfl⟩
  | succ n ih =>
    intro s
    obtain ⟨r, h⟩ := ih s
    have e : memcpy_from_data a (n + 1) s =
        { memcpy_from_data a n s with
            rawData := setByte (memcpy_from_data a n s).rawData (u16 (7 + n))
              (data_load (u16 (a + n)) (memcpy_from_data a n s)) } := rfl
    rw [e, h]
    exact ⟨_, rfl⟩

/-- A store through a data pointer leaves a buffer byte alone unless it is aimed at it. -/
theorem data_store_rawData (a v : Nat) (s : Engine) (i : Nat) (h : a ≠ s.packet_addr + i) :
    (data_store a v s).rawData i = s.rawData i := by
  unfold data_store
  split_ifs with c
  · show setByte s.rawData (a - s.packet_addr) v i = s.rawData i
    unfold setByte
    rw [if_neg (by omega)]
  · rfl

/-- A store through a data pointer is read back through the same pointer. -/
theorem data_load_store_same (a v : Nat) (s : Engine) :
    data_load a (data_store a v s) = v := by
  unfold data_load data_store
  by_cases c : s.packet_addr ≤ a ∧ a < s.packet_addr + 540
  · rw [if_pos c]
    simp only [if_pos c, setByte, if_true]
  · rw [if_neg c]
    simp only [if_neg c, setByte, if_true]

/-- A store through a data pointer does not change what another address holds. -/
theorem data_load_store_other (a b v : Nat) (s : Engine) (h : b ≠ a) :
    data_load b (data_store a v s) = data_load b s := by
  unfold data_load data_store
  by_cases c : s.packet_addr ≤ a ∧ a < s.packet_addr + 540
  · rw [if_pos c]
    by_cases e : s.packet_addr ≤ b ∧ b < s.packet_addr + 540
    · simp only [if_pos e, setByte]
      rw [if_neg (by omega)]
    · simp only [if_neg e]
  · rw [if_neg c]
    by_cases e : s.packet_addr ≤ b ∧ b < s.packet_addr + 540
    · simp only [if_pos e]
    · simp only [if_neg e, setByte]
      rw [if_neg h]

/-- The payload copy leaves a buffer byte alone unless one of its stores is aimed at it. -/
theorem memcpy_to_data_rawData (d : Nat) (i : Nat) :
    ∀ (n : Nat) (s : Engine), (∀ k, k < n → u16 (d + k) ≠ s.packet_addr + i) →
      (memcpy_to_data d n s).rawData i = s.rawData i := by
  intro n
  induction n with
  | zero => intro s _; rfl
  | succ n ih =>
    intro s h
    obtain ⟨r, m, hf⟩ := memcpy_to_data_frame d n s
    have hp : (memcpy_to_data d n s).packet_addr = s.packet_addr := by rw [hf]
    show (data_store (u16 (d + n)) ((memcpy_to_data d n s).rawData (u16 (17 + n)))
      (memcpy_to_data d n s)).rawData i = _
    rw [data_store_rawData _ _ _ i (by rw [hp]; exact h n (by omega))]
    exact ih s (fun k hk => h k (by omega))

/-- After a payload copy of at most 513 bytes whose destination misses the payload itself,
    the destination holds the payload, read through the data pointer. -/
theorem memcpy_to_data_result (d : Nat) (s : Engine) (N : Nat) (hN : N ≤ 513)
    (hsep : ∀ j k, j < N → k < N → u16 (d + j) ≠ s.packet_addr + 17 + k) :
    ∀ (n : Nat), n ≤ N →
      ∀ k, k < n → data_load (u16 (d + k)) (memcpy_to_data d n s) = s.rawData (17 + k) := by
  intro n
  induction n with
  | zero => intro _ k hk; omega
  | succ n ih =>
    intro hn k hk
    have hv : (memcpy_to_data d n s).rawData (u16 (17 + n)) = s.rawData (17 + n) := by
      have e : u16 (17 + n) = 17 + n := Nat.mod_eq_of_lt (by omega)
      rw [e]
      exact memcpy_to_data_rawData d (17 + n) n s
        (fun j hj => by
          have := hsep j n (by omega) (by omega)
          omega)
    show data_load (u16 (d + k)) (data_store (u16 (d + n))
      ((memcpy_to_data d n s).rawData (u16 (17 + n))) (memcpy_to_data d n s)) = _
    by_cases hkn : k = n
    · subst hkn
      rw [data_load_store_same, hv]
    · have hne : u16 (d + k) ≠ u16 (d + n) := by
        simp only [u16]
        omega
      rw [data_load_store_other _ _ _ _ hne]
      exact ih (by omega) k (by omega)

/-- The copy into the reply data leaves the bytes in front of `data[0]` alone. -/
theorem memcpy_from_data_below (a : Nat) (j : Nat) (hj : j < 7) :
    ∀ (n : Nat) (s : Engine), n ≤ 65529 →
      (memcpy_from_data a n s).rawData j = s.rawData j := by
  intro n
  induction n with
  | zero => intro s _; rfl
  | succ n ih =>
    intro s hn
    show setByte (memcpy_from_data a n s).rawData (u16 (7 + n))
      (data_load (u16 (a + n)) (memcpy_from_data a n s)) j = _
    have e : u16 (7 + n) = 7 + n := Nat.mod_eq_of_lt (by omega)
    unfold setByte
    rw [e, if_neg (by omega)]
    exact ih s (by omega)

/-- The write body returns 1, ends with the no-operation command, and changes the packet
    buffer and the data space only. -/
theorem write_memory_body_frame (m a n : Nat) (s : Engine) :
    (write_memory_body m a n s).1 = 1 ∧
    (write_memory_body m a n s).2.nvm_log.getLast? = some (NvmEvent.cmd NvmCmd.NONE) ∧
    ∃ r d l, (write_memory_body m a n s).2 = { s with rawData := r, mem := d, nvm_log := l } := by
  refine ⟨rfl, ?_, ?_⟩
  · simp [write_memory_body, nvm_cmd]
  · unfold write_memory_body
    dsimp only
    split_ifs
    · obtain ⟨r, d, h⟩ := memcpy_to_data_frame a n (nvm_cmd NvmCmd.EEERWR s)
      rw [h]
      exact ⟨_, _, _, rfl⟩
    · obtain ⟨r0, d0, h0⟩ := data_store_frame a 0 (nvm_cmd NvmCmd.FLPER s)
      rw [h0]
      obtain ⟨r, d, h⟩ := memcpy_to_data_frame a n
        (nvm_cmd NvmCmd.FLWR
          { ({ nvm_cmd NvmCmd.FLPER s with rawData := r0, mem := d0 } : Engine) with
              nvm_log := (nvm_cmd NvmCmd.FLPER s).nvm_log ++ [NvmEvent.store a 0] })
      rw [h]
      exact ⟨_, _, _, rfl⟩
    · obtain ⟨r, d, h⟩ := memcpy_to_data_frame a n s
      rw [h]
      exact ⟨_, _, _, rfl⟩

/-- A store through a data pointer does not move `packet`. -/
theorem data_store_packet_addr (a v : Nat) (s : Engine) :
    (data_store a v s).packet_addr = s.packet_addr := by
  obtain ⟨r, m, h⟩ := data_store_frame a v s
  rw [h]

/-- C17, as stated, fails: with declared length 64 no byte of the blob reaches the device
    descriptor, although the request is answered 0x80. -/
theorem descriptor_length_64_stores_nothing :
    out_scope descriptor64 = 0x12 ∧ out_cmd descriptor64 = 0x01 ∧
    out_section descriptor64 = 2 ∧ out_index descriptor64 = 0 ∧
    out_length descriptor64 = 64 ∧
    out_setData descriptor64 0 = 0xAA ∧ out_setData descriptor64 63 = 0xAA ∧
    descriptor64.Device_Descriptor 0 = 0 ∧
    (jtag_scope_branch descriptor64).map (fun e => e.Device_Descriptor 0) = some 0 ∧
    (jtag_scope_branch descriptor64).map (fun e => e.Device_Descriptor 63) = some 0 ∧
    (jtag_scope_branch descriptor64).map in_res = some 0x80 := by
  decide

/-- C17, amended: an AVR-Core SET_PARAMETER with section 2, index 0 and declared length
    `n` copies the first `n & 63 = n mod 64` bytes of the blob to the start of the device
    descriptor, leaves the rest of it unchanged and answers 0x80 with reply length 0; for
    `n < 64` these are the first `n` bytes. -/
theorem set_device_descriptor (s : Engine) (n : Nat)
    (hscope : out_scope s = 0x12) (hcmd : out_cmd s = 0x01) (hsec : out_section s = 2)
    (hidx : out_index s = 0) (hlen : out_length s = n) :
    ∃ s', jtag_scope_branch s = some s' ∧
      (jtag_scope_avr_core s).1 = 0 ∧ s'._packet_length = 6 ∧ in_res s' = 0x80 ∧
      (∀ k, k < n % 64 → s'.Device_Descriptor k = out_setData s k) ∧
      (∀ k, n % 64 ≤ k → s'.Device_Descriptor k = s.Device_Descriptor k) ∧
      (n < 64 → ∀ k, k < n → s'.Device_Descriptor k = out_setData s k) := by
  have hd : scope_dispatch s = jtag_scope_avr_core s := by
    unfold scope_dispatch
    simp [hscope]
  have hmask : n &&& 63 = n % 64 := Nat.and_pow_two_sub_one_eq_mod n 6
  have hc : jtag_scope_avr_core s =
      (0, set_in_res 0x80
        { s with Device_Descriptor :=
            (memcpy s.Device_Descriptor 0 (out_setData s) (n % 64)) }) := by
    unfold jtag_scope_avr_core
    simp [hcmd, hsec, hidx, hlen, hmask]
  have hlt : n % 64 < 64 := Nat.mod_lt _ (by norm_num)
  refine ⟨_, jtag_scope_branch_framed s, ?_⟩
  rw [hd, hc]
  have hdd : ∀ k, (framed 0 (set_in_res 0x80
        { s with Device_Descriptor :=
            (memcpy s.Device_Descriptor 0 (out_setData s) (n % 64)) })).Device_Descriptor k
      = if k < n % 64 then out_setData s k else s.Device_Descriptor k := by
    intro k
    show memcpy s.Device_Descriptor 0 (out_setData s) (n % 64) k = _
    rw [memcpy_apply _ _ 0 (n % 64) k (by omega)]
    by_cases hk : k < n % 64
    · rw [if_pos hk, if_pos (by omega)]; rfl
    · rw [if_neg hk, if_neg (by omega)]
  refine ⟨rfl, ?_, ?_, ?_, ?_, ?_⟩
  · simp [framed, u16]
  · simp [in_res, framed_rawData, set_in_res_rawData, u16, u8]
  · intro k hk
    rw [hdd k, if_pos hk]
  · intro k hk
    rw [hdd k, if_neg (by omega)]
  · intro hn k hk
    have : n % 64 = n := Nat.mod_eq_of_lt hn
    rw [hdd k, if_pos (by omega)]

/-- C17 amended, at the request `descriptor3`. -/
theorem set_device_descriptor_witness :
    ∃ s', jtag_scope_branch descriptor3 = some s' ∧
      (jtag_scope_avr_core descriptor3).1 = 0 ∧ s'._packet_length = 6 ∧ in_res s' = 0x80 ∧
      (∀ k, k < 3 % 64 → s'.Device_Descriptor k = out_setData descriptor3 k) ∧
      (∀ k, 3 % 64 ≤ k → s'.Device_Descriptor k = descriptor3.Device_Descriptor k) ∧
      (3 < 64 → ∀ k, k < 3 → s'.Device_Descriptor k = out_setData descriptor3 k) :=
  set_device_descriptor descriptor3 3 (by decide) (by decide) (by decide) (by decide)
    (by decide)

/-! ### The reply frame keeps sequence number and scope -/

/-- The buffer bytes after the assignment `packet.in.wValue = v`. -/
theorem set_in_wValue_rawData (v : Nat) (s : Engine) (j : Nat) :
    (set_in_wValue v s).rawData j =
      if j = 8 then u8 (v / 256) else if j = 7 then u8 v else s.rawData j := rfl

/-- The General handler leaves buffer bytes 0..4 alone; its reply length is at most 514. -/
theorem general_keeps_header (s : Engine) (j : Nat) (hj : j < 5) :
    (jtag_scope_general s).2.rawData j = s.rawData j ∧ (jtag_scope_general s).1 ≤ 514 := by
  have e5 : ¬ (j = 5) := by omega
  have e6 : ¬ (j = 6) := by omega
  have e7 : ¬ (j = 7) := by omega
  have e8 : ¬ (j = 8) := by omega
  have hl : out_length s < 256 := Nat.mod_lt _ (by norm_num)
  unfold jtag_scope_general
  dsimp only
  split_ifs <;>
    simp only [set_in_res_rawData, set_in_wValue_rawData, if_neg e5, if_neg e6, if_neg e7,
      if_neg e8, true_and, Nat.zero_le, and_true] <;>
    first
      | exact ⟨memcpy_below _ _ 7 _ j (by omega) (by omega), by omega⟩
      | omega

/-- The EDBG handler leaves buffer bytes 0..4 alone; its reply length is at most 514. -/
theorem edbg_keeps_header (s : Engine) (j : Nat) (hj : j < 5) :
    (jtag_scope_edbg s).2.rawData j = s.rawData j ∧ (jtag_scope_edbg s).1 ≤ 514 := by
  have e5 : ¬ (j = 5) := by omega
  have e6 : ¬ (j = 6) := by omega
  have hl : out_length s < 256 := Nat.mod_lt _ (by norm_num)
  unfold jtag_scope_edbg
  dsimp only
  split_ifs <;>
    (simp only [set_in_res_rawData, if_neg e5, if_neg e6, true_and, Nat.zero_le, and_true]
     try omega)

/-- Function `write_memory` returns 1 on every path. -/
theorem write_memory_returns_one (s : Engine) : (write_memory s).1 = 1 := by
  unfold write_memory
  dsimp only
  split_ifs
  · rfl
  · exact (write_memory_body_frame _ _ _ _).1
  · exact (write_memory_body_frame _ _ _ _).1

/-- Function `set_flmap` touches neither the packet buffer nor its address. -/
theorem set_flmap_keeps_packet (a : Nat) (s : Engine) :
    (set_flmap a s).2.rawData = s.rawData ∧
    (set_flmap a s).2.packet_addr = s.packet_addr := by
  unfold set_flmap
  dsimp only
  split_ifs <;> exact ⟨rfl, rfl⟩

/-- The write body leaves a buffer byte alone unless the sentinel store or one of the
    stores of the payload copy is aimed at it. -/
theorem write_memory_body_keeps_byte (m a n : Nat) (s : Engine) (i : Nat)
    (hs : m = 0xC0 ∨ m = 0xC5 → a ≠ s.packet_addr + i)
    (hc : ∀ k, k < n → u16 (a + k) ≠ s.packet_addr + i) :
    (write_memory_body m a n s).2.rawData i = s.rawData i := by
  unfold write_memory_body
  dsimp only
  split_ifs with c1 c2
  · exact memcpy_to_data_rawData a i n (nvm_cmd NvmCmd.EEERWR s) hc
  · have hp := data_store_packet_addr a 0 (nvm_cmd NvmCmd.FLPER s)
    refine Eq.trans (memcpy_to_data_rawData a i n _ ?_) ?_
    · intro k hk
      show _ ≠ (data_store a 0 (nvm_cmd NvmCmd.FLPER s)).packet_addr + i
      rw [hp]
      exact hc k hk
    · exact data_store_rawData a 0 (nvm_cmd NvmCmd.FLPER s) i (hs c2)
  · exact memcpy_to_data_rawData a i n s hc

/-- Function `write_memory` leaves a buffer byte alone unless the request is executed and
    one of its stores is aimed at that byte. -/
theorem write_memory_keeps_byte (s : Engine) (i : Nat)
    (h : ¬ (out_bMType s = 0xB0 ∧ out_dwAddr s < u16 s._bootsize) → write_spares s i) :
    (write_memory s).2.rawData i = s.rawData i := by
  by_cases hB : out_bMType s = 0xB0
  · by_cases hb : out_dwAddr s < u16 s._bootsize
    · have hw : write_memory s = (1, s) := by
        unfold write_memory
        simp only [if_pos hB, if_pos hb]
      rw [hw]
    · obtain ⟨h1, h2⟩ := h (fun c => hb c.2)
      have hw : write_memory s =
          write_memory_body 0xC0 (set_flmap (out_dwAddr s) s).1 (out_dwLength s)
            (set_flmap (out_dwAddr s) s).2 := by
        unfold write_memory
        simp only [if_pos hB, if_neg hb]
      have ht : write_target s = (set_flmap (out_dwAddr s) s).1 := by
        unfold write_target
        rw [if_pos hB]
      have hp := (set_flmap_keeps_packet (out_dwAddr s) s).2
      have hr := (set_flmap_keeps_packet (out_dwAddr s) s).1
      rw [hw, write_memory_body_keeps_byte _ _ _ _ i
        (by rw [hp, ← ht]; exact fun _ => h1 (Or.inl hB))
        (by rw [hp, ← ht]; exact h2), hr]
  · obtain ⟨h1, h2⟩ := h (fun c => hB c.1)
    have hw : write_memory s =
        write_memory_body (out_bMType s) (out_dwAddr s) (out_dwLength s) s := by
      unfold write_memory
      simp only [if_neg hB]
    have ht : write_target s = out_dwAddr s := by
      unfold write_target
      rw [if_neg hB]
    rw [ht] at h1 h2
    rw [hw]
    exact write_memory_body_keeps_byte _ _ _ _ i
      (fun c => h1 (c.elim (fun c => Or.inr (Or.inl c)) (fun c => Or.inr (Or.inr c)))) h2

/-- The UPDI handler on WRITE_MEMORY: the executor runs, the answer is 1 / 0x80. -/
theorem jtag_scope_updi_write (s : Engine) (h : out_cmd s = 0x23) :
    jtag_scope_updi s = (1, set_in_res 0x80 (write_memory s).2) := by
  have hw := write_memory_returns_one s
  unfold jtag_scope_updi
  simp [h, hw]

/-- The UPDI handler answers with at most 514 bytes when a read stays within `data[513]`,
    and leaves buffer bytes 0..4 alone unless a store of an executed WRITE_MEMORY is aimed
    at them. -/
theorem updi_keeps_header (s : Engine) (hlen : out_cmd s = 0x21 → out_dwLength s ≤ 513)
    (j : Nat) (hj : j < 5) :
    ((out_cmd s = 0x23 →
        ¬ (out_bMType s = 0xB0 ∧ out_dwAddr s < u16 s._bootsize) → write_spares s j) →
      (jtag_scope_updi s).2.rawData j = s.rawData j) ∧
    (jtag_scope_updi s).1 ≤ 514 := by
  have e5 : ¬ (j = 5) := by omega
  have e6 : ¬ (j = 6) := by omega
  by_cases h10 : out_cmd s = 0x10
  · unfold jtag_scope_updi
    simp only [if_pos h10, set_in_res_rawData, if_neg e5, if_neg e6]
    exact ⟨fun _ => memcpy_below _ _ 7 4 j (by norm_num) (by omega), by norm_num⟩
  · by_cases h21 : out_cmd s = 0x21
    · have hl := hlen h21
      have hr : (read_memory s).2.rawData j = s.rawData j := by
        unfold read_memory
        dsimp only
        split_ifs
        · exact memcpy_below _ _ 7 _ j (by omega) (by omega)
        · exact memcpy_below _ _ 7 _ j (by omega) (by omega)
        · exact memcpy_from_data_below _ j (by omega) _ s (by omega)
      have h1 : (read_memory s).1 = u16 (out_dwLength s + 1) := rfl
      unfold jtag_scope_updi
      simp only [if_neg h10, if_pos h21, set_in_res_rawData, if_neg e5, if_neg e6]
      refine ⟨fun _ => hr, ?_⟩
      rw [h1]
      simp only [u16]
      omega
    · by_cases h23 : out_cmd s = 0x23
      · rw [jtag_scope_updi_write s h23]
        simp only [set_in_res_rawData, if_neg e5, if_neg e6]
        exact ⟨fun h => write_memory_keeps_byte s j (h h23), by norm_num⟩
      · unfold jtag_scope_updi
        simp only [if_neg h10, if_neg h21, if_neg h23, set_in_res_rawData, if_neg e5, if_neg e6]
        split_ifs <;> simp [erase_memory]

/-- The AVR-Core handler, under the same conditions. -/
theorem avr_core_keeps_header (s : Engine)
    (hlen : out_cmd s = 0x21 → u8 s._jtag_arch = 5 → out_dwLength s ≤ 513)
    (j : Nat) (hj : j < 5) :
    ((out_cmd s = 0x23 → u8 s._jtag_arch = 5 →
        ¬ (out_bMType s = 0xB0 ∧ out_dwAddr s < u16 s._bootsize) → write_spares s j) →
      (jtag_scope_avr_core s).2.rawData j = s.rawData j) ∧
    (jtag_scope_avr_core s).1 ≤ 514 := by
  have e5 : ¬ (j = 5) := by omega
  have e6 : ¬ (j = 6) := by omega
  have e7 : ¬ (j = 7) := by omega
  have e8 : ¬ (j = 8) := by omega
  have hl : out_length s < 256 := Nat.mod_lt _ (by norm_num)
  by_cases h1 : out_cmd s = 0x01
  · unfold jtag_scope_avr_core
    simp only [if_pos h1, set_in_res_rawData, if_neg e5, if_neg e6]
    refine ⟨fun _ => ?_, by norm_num⟩
    split_ifs <;> rfl
  · by_cases h2 : out_cmd s = 0x02
    · unfold jtag_scope_avr_core
      simp only [if_neg h1, if_pos h2, set_in_res_rawData, if_neg e5, if_neg e6]
      refine ⟨fun _ => ?_, by omega⟩
      split_ifs <;>
        simp only [set_in_wValue_rawData, setByte, if_neg e7, if_neg e8]
    · by_cases h5 : u8 s._jtag_arch = 0x05
      · have hu := updi_keeps_header s (fun h => hlen h h5) j hj
        unfold jtag_scope_avr_core
        simp only [if_neg h1, if_neg h2, if_pos h5]
        exact ⟨fun h => hu.1 (fun c => h c h5), hu.2⟩
      · unfold jtag_scope_avr_core
        simp only [if_neg h1, if_neg h2, if_neg h5, set_in_res_rawData, if_neg e5, if_neg e6]
        exact ⟨fun _ => trivial, by norm_num⟩

/-- C20, as stated, fails: a WRITE_MEMORY of memory type 0x20 whose target address is the
    address of buffer byte 2 stores its payload 0xAA 0xBB over the sequence number; the
    reply, answered 0x80, carries 0xAA 0xBB where the request carried 5 and 0. -/
theorem write_into_packet_changes_sequence :
    out_scope sramWriteOverSequence = 0x12 ∧ out_cmd sramWriteOverSequence = 0x23 ∧
    out_bMType sramWriteOverSequence = 0x20 ∧
    out_dwAddr sramWriteOverSequence = sramWriteOverSequence.packet_addr + 2 ∧
    out_dwLength sramWriteOverSequence = 2 ∧
    sramWriteOverSequence.rawData 2 = 5 ∧ sramWriteOverSequence.rawData 3 = 0 ∧
    (jtag_scope_branch sramWriteOverSequence).map
        (fun e => (e.rawData 1, e.rawData 2, e.rawData 3, e.rawData 4)) =
      some (0x0E, 0xAA, 0xBB, 0x12) ∧
    (jtag_scope_branch sramWriteOverSequence).map in_res = some 0x80 := by
  decide

/-- C20, amended: on every dispatch path (any scope, command and architecture), provided
    a READ_MEMORY that reaches the executor declares at most 513 bytes (reply length at
    most 514), the framed reply has the token 0x0E at buffer byte 1; it has the request's
    bytes 2, 3 (sequence number) and 4 (scope) unchanged provided, in addition, that no
    store of a WRITE_MEMORY that the executor runs (sentinel or payload byte) is aimed at
    the addresses of these three buffer bytes. -/
theorem reply_keeps_header (s : Engine)
    (hlen : out_scope s = 0x12 → out_cmd s = 0x21 → u8 s._jtag_arch = 5 →
      out_dwLength s ≤ 513) :
    ∃ s', jtag_scope_branch s = some s' ∧
      s'.rawData 1 = 0x0E ∧
      ((out_scope s = 0x12 → out_cmd s = 0x23 → u8 s._jtag_arch = 5 →
          ¬ (out_bMType s = 0xB0 ∧ out_dwAddr s < u16 s._bootsize) →
          ∀ i, 2 ≤ i → i ≤ 4 → write_spares s i) →
        s'.rawData 2 = s.rawData 2 ∧ s'.rawData 3 = s.rawData 3 ∧
        s'.rawData 4 = s.rawData 4) := by
  have key : ∀ j, j < 5 →
      ((out_scope s = 0x12 → out_cmd s = 0x23 → u8 s._jtag_arch = 5 →
          ¬ (out_bMType s = 0xB0 ∧ out_dwAddr s < u16 s._bootsize) → write_spares s j) →
        (scope_dispatch s).2.rawData j = s.rawData j) ∧ (scope_dispatch s).1 ≤ 514 := by
    intro j hj
    unfold scope_dispatch
    split_ifs with h1 h2 h3
    · exact ⟨fun _ => (general_keeps_header s j hj).1, (general_keeps_header s j hj).2⟩
    · have ha := avr_core_keeps_header s (hlen h2) j hj
      exact ⟨fun h => ha.1 (h h2), ha.2⟩
    · exact ⟨fun _ => (edbg_keeps_header s j hj).1, (edbg_keeps_header s j hj).2⟩
    · exact ⟨fun _ => rfl, by norm_num⟩
  refine ⟨_, jtag_scope_branch_framed s, ?_⟩
  have hL := (key 0 (by norm_num)).2
  have hu : u16 ((scope_dispatch s).1 + 6) = (scope_dispatch s).1 + 6 :=
    Nat.mod_eq_of_lt (by omega)
  simp only [framed_rawData, hu]
  have a1 : ¬ (1 = (scope_dispatch s).1 + 6) := by omega
  have a2 : ¬ (2 = (scope_dispatch s).1 + 6) := by omega
  have a3 : ¬ (3 = (scope_dispatch s).1 + 6) := by omega
  have a4 : ¬ (4 = (scope_dispatch s).1 + 6) := by omega
  simp only [if_neg a1, if_neg a2, if_neg a3, if_neg a4, if_true]
  refine ⟨trivial, fun hw => ?_⟩
  have k2 := (key 2 (by norm_num)).1 (fun c1 c2 c3 c4 => hw c1 c2 c3 c4 2 (by norm_num) (by norm_num))
  have k3 := (key 3 (by norm_num)).1 (fun c1 c2 c3 c4 => hw c1 c2 c3 c4 3 (by norm_num) (by norm_num))
  have k4 := (key 4 (by norm_num)).1 (fun c1 c2 c3 c4 => hw c1 c2 c3 c4 4 (by norm_num) (by norm_num))
  exact ⟨by simpa using k2, by simpa using k3, by simpa using k4⟩

/-- C20 amended, at the read request `sibRead` (sequence number 9, scope 0x12) and at the
    write request `sramWrite`, whose target 0x7000 is outside the packet buffer. -/
theorem reply_keeps_header_witness :
    (∃ s', jtag_scope_branch sibRead = some s' ∧
      s'.rawData 1 = 0x0E ∧
      s'.rawData 2 = sibRead.rawData 2 ∧ s'.rawData 3 = sibRead.rawData 3 ∧
      s'.rawData 4 = sibRead.rawData 4) ∧
    (∃ s', jtag_scope_branch sramWrite = some s' ∧
      s'.rawData 1 = 0x0E ∧
      s'.rawData 2 = sramWrite.rawData 2 ∧ s'.rawData 3 = sramWrite.rawData 3 ∧
      s'.rawData 4 = sramWrite.rawData 4) := by
  constructor
  · obtain ⟨s', h1, h2, h3⟩ := reply_keeps_header sibRead (fun _ _ _ => by decide)
    exact ⟨s', h1, h2, h3 (fun _ c _ => absurd c (by decide))⟩
  · obtain ⟨s', h1, h2, h3⟩ := reply_keeps_header sramWrite (fun _ c _ => absurd c (by decide))
    refine ⟨s', h1, h2, h3 ?_⟩
    intro _ _ _ _ i hi2 hi4
    have e1 : write_target sramWrite = 0x7000 := by decide
    have e2 : out_dwLength sramWrite = 2 := by decide
    have e3 : sramWrite.packet_addr = 0x6800 := rfl
    have e4 : ¬ (out_bMType sramWrite = 0xB0 ∨ out_bMType sramWrite = 0xC0 ∨
        out_bMType sramWrite = 0xC5) := by decide
    unfold write_spares
    rw [e1, e2, e3]
    refine ⟨fun c => absurd c e4, ?_⟩
    intro k hk
    simp only [u16]
    omega

/-! ### Commands a scope does not implement -/

/-- C18, as stated, fails: an AVR-Core packet with the unimplemented command 0x99 and
    architecture 5 gets a zero-length reply whose result code is 0xA0. -/
theorem unknown_updi_command_is_failed :
    out_scope unknownUpdiCommand = 0x12 ∧ out_cmd unknownUpdiCommand = 0x99 ∧
    (jtag_scope_avr_core unknownUpdiCommand).1 = 0 ∧
    (jtag_scope_branch unknownUpdiCommand).map in_res = some 0xA0 ∧
    (jtag_scope_branch unknownUpdiCommand).map (fun e => e._packet_length) = some 6 := by
  decide

/-- C18, amended: a command the General or the EDBG scope does not implement, and any
    packet of an unrecognized scope, gets a zero-length reply in which no result code is
    written: byte 5 keeps the request's command byte and byte 6 is the terminator 0.  An
    AVR-Core command other than SET_PARAMETER and GET_PARAMETER that is not executed (the
    architecture is not 5, or the UPDI handler does not know the command) gets a
    zero-length reply with result code 0xA0. -/
theorem unimplemented_command_reply (s : Engine) :
    ((out_scope s = 0x01 ∧ out_cmd s ≠ 0x02 ∧ out_cmd s ≠ 0x10 ∧ out_cmd s ≠ 0x11) ∨
      (out_scope s = 0x20 ∧ out_cmd s ≠ 0x01 ∧ out_cmd s ≠ 0x02) ∨
      (out_scope s ≠ 0x01 ∧ out_scope s ≠ 0x12 ∧ out_scope s ≠ 0x20) →
      ∃ s', jtag_scope_branch s = some s' ∧ (scope_dispatch s).1 = 0 ∧
        s'._packet_length = 6 ∧ s'.rawData 5 = s.rawData 5 ∧ s'.rawData 6 = 0 ∧
        in_res s' = out_cmd s) ∧
    (out_scope s = 0x12 ∧ out_cmd s ≠ 0x01 ∧ out_cmd s ≠ 0x02 ∧
      (u8 s._jtag_arch ≠ 5 ∨
        (out_cmd s ≠ 0x10 ∧ out_cmd s ≠ 0x11 ∧ out_cmd s ≠ 0x15 ∧ out_cmd s ≠ 0x16 ∧
          out_cmd s ≠ 0x20 ∧ out_cmd s ≠ 0x21 ∧ out_cmd s ≠ 0x23)) →
      ∃ s', jtag_scope_branch s = some s' ∧ (scope_dispatch s).1 = 0 ∧
        s'._packet_length = 6 ∧ in_res s' = 0xA0) := by
  constructor
  · intro h
    have hd : scope_dispatch s = (0, s) := by
      rcases h with ⟨h1, h2, h3, h4⟩ | ⟨h1, h2, h3⟩ | ⟨h1, h2, h3⟩
      · unfold scope_dispatch jtag_scope_general
        simp only [if_pos h1, if_neg h2, if_neg h3, if_neg h4]
      · have n1 : ¬ (out_scope s = 0x01) := by omega
        have n2 : ¬ (out_scope s = 0x12) := by omega
        unfold scope_dispatch jtag_scope_edbg
        simp only [if_neg n1, if_neg n2, if_pos h1, if_neg h2, if_neg h3]
      · unfold scope_dispatch
        simp only [if_neg h1, if_neg h2, if_neg h3]
    refine ⟨_, jtag_scope_branch_framed s, ?_⟩
    rw [hd]
    refine ⟨rfl, by simp [framed, u16], by simp [framed_rawData, u16],
      by simp [framed_rawData, u16], ?_⟩
    simp [in_res, out_cmd, framed_rawData, u16, u8]
  · rintro ⟨h1, h2, h3, h4⟩
    have n1 : ¬ (out_scope s = 0x01) := by omega
    have hd : scope_dispatch s = (0, set_in_res 0xA0 s) := by
      rcases h4 with h4 | ⟨c1, c2, c3, c4, c5, c6, c7⟩
      · unfold scope_dispatch jtag_scope_avr_core
        simp only [if_neg n1, if_pos h1, if_neg h2, if_neg h3, if_neg h4]
      · by_cases h5 : u8 s._jtag_arch = 5
        · unfold scope_dispatch jtag_scope_avr_core jtag_scope_updi
          simp only [if_neg n1, if_pos h1, if_neg h2, if_neg h3, if_pos h5, if_neg c1,
            if_neg c2, if_neg c3, if_neg c4, if_neg c5, if_neg c6, if_neg c7]
          simp
        · unfold scope_dispatch jtag_scope_avr_core
          simp only [if_neg n1, if_pos h1, if_neg h2, if_neg h3, if_neg h5]
    refine ⟨_, jtag_scope_branch_framed s, ?_⟩
    rw [hd]
    refine ⟨rfl, by simp [framed, u16], ?_⟩
    simp [in_res, framed_rawData, set_in_res_rawData, u16, u8]

/-- C18 amended, at `unknownGeneralCommand` and at `unknownUpdiCommand`. -/
theorem unimplemented_command_reply_witness :
    (∃ s', jtag_scope_branch unknownGeneralCommand = some s' ∧
        (scope_dispatch unknownGeneralCommand).1 = 0 ∧
        s'._packet_length = 6 ∧ s'.rawData 5 = unknownGeneralCommand.rawData 5 ∧
        s'.rawData 6 = 0 ∧ in_res s' = out_cmd unknownGeneralCommand) ∧
    (∃ s', jtag_scope_branch unknownUpdiCommand = some s' ∧
        (scope_dispatch unknownUpdiCommand).1 = 0 ∧
        s'._packet_length = 6 ∧ in_res s' = 0xA0) :=
  ⟨(unimplemented_command_reply unknownGeneralCommand).1
      (Or.inl ⟨by decide, by decide, by decide, by decide⟩),
   (unimplemented_command_reply unknownUpdiCommand).2
      ⟨by decide, by decide, by decide,
        Or.inr ⟨by decide, by decide, by decide, by decide, by decide, by decide, by decide⟩⟩⟩

/-! ### Session state: sign-on, sign-off and the architecture gate -/

/-- Function `dap_command_check` changes neither the architecture selector nor the data
    space, the program space or the controller log. -/
theorem dap_command_check_session (s : Engine) :
    (dap_command_check s).2._jtag_arch = s._jtag_arch ∧
    (dap_command_check s).2.mem = s.mem ∧
    (dap_command_check s).2.progmem = s.progmem ∧
    (dap_command_check s).2.nvm_log = s.nvm_log := by
  unfold dap_command_check
  dsimp only
  split_ifs <;> exact ⟨rfl, rfl, rfl, rfl⟩

/-- A handler leaves the architecture different from 5 unless the packet is the AVR-Core
    SET_PARAMETER that stores 5. -/
theorem scope_dispatch_arch (s : Engine) (harch : u8 s._jtag_arch ≠ 5)
    (hno : sets_arch_updi s = false) :
    u8 (scope_dispatch s).2._jtag_arch ≠ 5 := by
  have h0 : u8 0 ≠ 5 := by decide
  by_cases h1 : out_scope s = 0x01
  · unfold scope_dispatch jtag_scope_general
    simp only [if_pos h1]
    split_ifs <;> first | exact harch | exact h0
  · by_cases h2 : out_scope s = 0x12
    · by_cases c1 : out_cmd s = 0x01
      · unfold scope_dispatch jtag_scope_avr_core
        simp only [if_neg h1, if_pos h2, if_pos c1]
        by_cases hs : out_section s = 0
        · by_cases hi : out_index s = 0
          · simp only [if_pos hs, if_pos hi]
            show u8 (out_wValue s &&& 0xFF) ≠ 5
            have hv : out_wValue s &&& 0xFF ≠ 5 := by
              intro hv
              have : sets_arch_updi s = true := by
                unfold sets_arch_updi
                exact decide_eq_true ⟨h2, c1, hs, hi, hv⟩
              rw [this] at hno
              exact Bool.noConfusion hno
            have hm : out_wValue s &&& 0xFF = out_wValue s % 256 :=
              Nat.and_pow_two_sub_one_eq_mod _ 8
            rw [hm] at hv ⊢
            simp only [u8, Nat.mod_mod]
            exact hv
          · simp only [if_pos hs, if_neg hi]
            exact harch
        · simp only [if_neg hs]
          split_ifs <;> exact harch
      · by_cases c2 : out_cmd s = 0x02
        · unfold scope_dispatch jtag_scope_avr_core
          simp only [if_neg h1, if_pos h2, if_neg c1, if_pos c2]
          split_ifs <;> exact harch
        · unfold scope_dispatch jtag_scope_avr_core
          simp only [if_neg h1, if_pos h2, if_neg c1, if_neg c2, if_neg harch]
          exact harch
    · unfold scope_dispatch jtag_scope_edbg
      simp only [if_neg h1, if_neg h2]
      split_ifs <;> exact harch

/-- Closed form of `main_dap_step`: it always returns. -/
theorem main_dap_step_eq (s : Engine) :
    main_dap_step s =
      some (if (dap_command_check s).1 = true
        then framed (scope_dispatch (dap_command_check s).2).1
          (scope_dispatch (dap_command_check s).2).2
        else (dap_command_check s).2) := by
  unfold main_dap_step
  dsimp only
  split_ifs with h
  · exact jtag_scope_branch_framed _
  · rfl

/-- Over any run of reports in which no completed packet stores architecture 5, the
    main loop returns and the architecture stays different from 5. -/
theorem run_reports_arch :
    ∀ (rs : List (Nat → Nat)) (s : Engine), u8 s._jtag_arch ≠ 5 → no_arch_updi rs s = true →
      ∃ s', run_reports rs s = some s' ∧ u8 s'._jtag_arch ≠ 5 := by
  intro rs
  induction rs with
  | nil => intro s h _; exact ⟨s, rfl, h⟩
  | cons r rs ih =>
    intro s harch hno
    have hstep := main_dap_step_eq (load_report r s)
    have hca : (dap_command_check (load_report r s)).2._jtag_arch = s._jtag_arch :=
      (dap_command_check_session (load_report r s)).1
    simp only [no_arch_updi, hstep, Bool.and_eq_true, Bool.not_eq_true', Bool.and_eq_false_iff]
      at hno
    obtain ⟨hn1, hn2⟩ := hno
    have hnext : u8 (if (dap_command_check (load_report r s)).1 = true
        then framed (scope_dispatch (dap_command_check (load_report r s)).2).1
          (scope_dispatch (dap_command_check (load_report r s)).2).2
        else (dap_command_check (load_report r s)).2)._jtag_arch ≠ 5 := by
      split_ifs with hc
      · show u8 (scope_dispatch (dap_command_check (load_report r s)).2).2._jtag_arch ≠ 5
        apply scope_dispatch_arch
        · rw [hca]; exact harch
        · rcases hn1 with hn1 | hn1
          · rw [hc] at hn1; exact Bool.noConfusion hn1
          · exact hn1
      · rw [hca]; exact harch
    obtain ⟨s', hs', ha'⟩ := ih _ hnext hn2
    refine ⟨s', ?_, ha'⟩
    simp only [run_reports, hstep]
    exact hs'

/-- C11: a General-scope SIGN_ON sets the architecture selector to 0 and is answered 0x80
    with reply length 0.  From there, after any run of DAP reports in which no completed
    packet is the AVR-Core SET_PARAMETER storing architecture 5, a report that completes an
    AVR-Core packet whose command is neither 0x01 nor 0x02 is answered 0xA0 with reply
    length 0, and data space, program space and controller log are left unchanged. -/
theorem sign_on_gates_avr_core (s0 : Engine)
    (hscope : out_scope s0 = 0x01) (hcmd : out_cmd s0 = 0x10) :
    ∃ s1, jtag_scope_branch s0 = some s1 ∧
      s1._jtag_arch = 0 ∧ in_res s1 = 0x80 ∧ (jtag_scope_general s0).1 = 0 ∧
      s1._packet_length = 6 ∧
      ∀ (rs : List (Nat → Nat)) (r : Nat → Nat), no_arch_updi rs s1 = true →
        ∃ s2, run_reports rs s1 = some s2 ∧
          (check_report r s2 = true → out_scope (serve_report r s2) = 0x12 →
            out_cmd (serve_report r s2) ≠ 0x01 → out_cmd (serve_report r s2) ≠ 0x02 →
            ∃ s3, main_dap_step (load_report r s2) = some s3 ∧
              in_res s3 = 0xA0 ∧ s3._packet_length = 6 ∧
              s3.mem = s2.mem ∧ s3.progmem = s2.progmem ∧ s3.nvm_log = s2.nvm_log) := by
  have hg : jtag_scope_general s0 = (0, set_in_res 0x80 { s0 with _jtag_arch := 0 }) := by
    have n2 : ¬ (out_cmd s0 = 0x02) := by omega
    unfold jtag_scope_general
    simp only [if_neg n2, if_pos hcmd]
  have hd : scope_dispatch s0 = jtag_scope_general s0 := by
    unfold scope_dispatch
    simp only [if_pos hscope]
  refine ⟨_, jtag_scope_branch_framed s0, ?_⟩
  rw [hd, hg]
  refine ⟨rfl, ?_, rfl, by simp [framed, u16], ?_⟩
  · simp [in_res, framed_rawData, set_in_res_rawData, u16, u8]
  intro rs r hno
  obtain ⟨s2, hrun, harch⟩ := run_reports_arch rs _ (by show u8 0 ≠ 5; decide) hno
  refine ⟨s2, hrun, ?_⟩
  intro hc hsc hc1 hc2
  unfold check_report at hc
  unfold serve_report at hsc hc1 hc2
  obtain ⟨ka, km, kp, kl⟩ := dap_command_check_session (load_report r s2)
  have n1 : ¬ (out_scope (dap_command_check (load_report r s2)).2 = 0x01) := by omega
  have n5 : ¬ (u8 (dap_command_check (load_report r s2)).2._jtag_arch = 0x05) := by
    rw [ka]; exact harch
  have hdisp : scope_dispatch (dap_command_check (load_report r s2)).2 =
      (0, set_in_res 0xA0 (dap_command_check (load_report r s2)).2) := by
    unfold scope_dispatch jtag_scope_avr_core
    simp only [if_neg n1, if_pos hsc, if_neg hc1, if_neg hc2, if_neg n5]
  refine ⟨_, main_dap_step_eq (load_report r s2), ?_⟩
  rw [if_pos hc, hdisp]
  refine ⟨?_, by simp [framed, u16], km, kp, kl⟩
  simp [in_res, framed_rawData, set_in_res_rawData, u16, u8]

/-- C11 at `signOnPacket`, followed by a SET_PARAMETER storing architecture 3 and a poll,
    then a READ_MEMORY. -/
theorem sign_on_gates_avr_core_witness :
    ∃ s1, jtag_scope_branch signOnPacket = some s1 ∧
      s1._jtag_arch = 0 ∧ in_res s1 = 0x80 ∧ (jtag_scope_general signOnPacket).1 = 0 ∧
      s1._packet_length = 6 ∧
      ∃ s2, run_reports [setArch3Report, pollReq] s1 = some s2 ∧
        ∃ s3, main_dap_step (load_report readRamReport s2) = some s3 ∧
          in_res s3 = 0xA0 ∧ s3._packet_length = 6 ∧
          s3.mem = s2.mem ∧ s3.progmem = s2.progmem ∧ s3.nvm_log = s2.nvm_log := by
  obtain ⟨s1, h1, a, b, c, d, rest⟩ :=
    sign_on_gates_avr_core signOnPacket (by decide) (by decide)
  have e1 : jtag_scope_branch signOnPacket = some afterSignOn := rfl
  have hs1 : s1 = afterSignOn := Option.some.inj (h1.symm.trans e1)
  subst hs1
  obtain ⟨s2, h2, h3⟩ := rest [setArch3Report, pollReq] readRamReport (by decide)
  have e2 : run_reports [setArch3Report, pollReq] afterSignOn = some afterSetArch3 := rfl
  have hs2 : s2 = afterSetArch3 := Option.some.inj (h2.symm.trans e2)
  subst hs2
  exact ⟨_, h1, a, b, c, d, _, h2, h3 (by decide) (by decide) (by decide) (by decide)⟩

/-- C12, as stated, fails: with architecture 5, after a General-scope SIGN_OFF answered
    0x80, a READ_MEMORY of the SIB is answered 0x184 with the bytes "AVR", and a
    WRITE_MEMORY to the user row is answered 0x80 after erasing and writing 0x1200. -/
theorem memory_command_after_sign_off_runs :
    out_scope signOffPacket = 0x01 ∧ out_cmd signOffPacket = 0x11 ∧
    (jtag_scope_branch signOffPacket).map in_res = some 0x80 ∧
    ((jtag_scope_branch signOffPacket).bind
        (fun s1 => main_dap_step (load_report sibReadReport s1))).map
      (fun e => (e._jtag_arch, in_res e, in_data e 0, in_data e 1, in_data e 2)) =
      some (5, 0x184, 65, 86, 82) ∧
    ((jtag_scope_branch signOffPacket).bind
        (fun s1 => main_dap_step (load_report userRowWriteReport s1))).map
      (fun e => (in_res e, e.mem 0x1200, e.nvm_log)) =
      some (0x80, 0x77,
        [NvmEvent.cmd NvmCmd.FLPER, NvmEvent.store 0x1200 0, NvmEvent.cmd NvmCmd.FLWR,
         NvmEvent.copy 0x1200 [0x77], NvmEvent.cmd NvmCmd.NONE]) := by
  decide

/-- The UPDI handler answers ERASE, READ and WRITE with low result byte 0x80 or 0x84. -/
theorem updi_memory_result_byte (t : Engine)
    (htc : out_cmd t = 0x20 ∨ out_cmd t = 0x21 ∨ out_cmd t = 0x23) :
    (jtag_scope_updi t).2.rawData 5 = 0x80 ∨ (jtag_scope_updi t).2.rawData 5 = 0x84 := by
  have hw := write_memory_returns_one t
  rcases htc with h | h | h
  · left
    unfold jtag_scope_updi
    simp [h, erase_memory, set_in_res_rawData, u8]
  · right
    unfold jtag_scope_updi
    simp [h, set_in_res_rawData, u8]
  · left
    unfold jtag_scope_updi
    simp [h, hw, set_in_res_rawData, u8]

/-- C12, amended: a General-scope SIGN_OFF is answered 0x80 with reply length 0 and leaves
    architecture, connection type and device descriptor unchanged; an AVR-Core ERASE, READ
    or WRITE_MEMORY is answered 0xA0 exactly when the architecture selector is not 5 (then
    with reply length 0 and nothing executed), and is forwarded to the UPDI handler when it
    is 5, sign-off or not. -/
theorem sign_off_keeps_arch (s t : Engine)
    (hs : out_scope s = 0x01) (hc : out_cmd s = 0x11)
    (ht : out_scope t = 0x12)
    (htc : out_cmd t = 0x20 ∨ out_cmd t = 0x21 ∨ out_cmd t = 0x23) :
    (∃ s1, jtag_scope_branch s = some s1 ∧ in_res s1 = 0x80 ∧ s1._packet_length = 6 ∧
      s1._jtag_arch = s._jtag_arch ∧ s1._jtag_conn = s._jtag_conn ∧
      s1.Device_Descriptor = s.Device_Descriptor) ∧
    (∃ t1, jtag_scope_branch t = some t1 ∧
      (in_res t1 = 0xA0 ↔ u8 t._jtag_arch ≠ 5) ∧
      (u8 t._jtag_arch ≠ 5 →
        t1._packet_length = 6 ∧ t1.mem = t.mem ∧ t1.progmem = t.progmem ∧
        t1.nvm_log = t.nvm_log) ∧
      (u8 t._jtag_arch = 5 → scope_dispatch t = jtag_scope_updi t)) := by
  constructor
  · have hg : jtag_scope_general s = (0, set_in_res 0x80 s) := by
      have n2 : ¬ (out_cmd s = 0x02) := by omega
      have n10 : ¬ (out_cmd s = 0x10) := by omega
      unfold jtag_scope_general
      simp only [if_neg n2, if_neg n10, if_pos hc]
    have hd : scope_dispatch s = jtag_scope_general s := by
      unfold scope_dispatch
      simp only [if_pos hs]
    refine ⟨_, jtag_scope_branch_framed s, ?_⟩
    rw [hd, hg]
    refine ⟨?_, by simp [framed, u16], rfl, rfl, rfl⟩
    simp [in_res, framed_rawData, set_in_res_rawData, u16, u8]
  · have n1 : ¬ (out_scope t = 0x01) := by omega
    have c1 : ¬ (out_cmd t = 0x01) := by omega
    have c2 : ¬ (out_cmd t = 0x02) := by omega
    refine ⟨_, jtag_scope_branch_framed t, ?_⟩
    by_cases h5 : u8 t._jtag_arch = 5
    · have hd : scope_dispatch t = jtag_scope_updi t := by
        unfold scope_dispatch jtag_scope_avr_core
        simp only [if_neg n1, if_pos ht, if_neg c1, if_neg c2, if_pos h5]
      refine ⟨?_, fun h => absurd h5 h, fun _ => hd⟩
      rw [hd]
      have hb := updi_memory_result_byte t htc
      constructor
      · intro hres
        exfalso
        simp only [in_res, framed_rawData] at hres
        have e51 : ¬ (5 = 1) := by omega
        rw [if_neg e51] at hres
        split_ifs at hres <;> simp only [u8] at hres <;> omega
      · intro h; exact absurd h5 h
    · have hd : scope_dispatch t = (0, set_in_res 0xA0 t) := by
        unfold scope_dispatch jtag_scope_avr_core
        simp only [if_neg n1, if_pos ht, if_neg c1, if_neg c2, if_neg h5]
      rw [hd]
      refine ⟨⟨fun _ => h5, fun _ => ?_⟩, fun _ => ⟨by simp [framed, u16], rfl, rfl, rfl⟩,
        fun h => absurd h h5⟩
      simp [in_res, framed_rawData, set_in_res_rawData, u16, u8]

/-- C12 amended, at `signOffPacket` and at an ERASE_MEMORY with architecture 3. -/
theorem sign_off_keeps_arch_witness :
    (∃ s1, jtag_scope_branch signOffPacket = some s1 ∧ in_res s1 = 0x80 ∧
      s1._packet_length = 6 ∧
      s1._jtag_arch = signOffPacket._jtag_arch ∧ s1._jtag_conn = signOffPacket._jtag_conn ∧
      s1.Device_Descriptor = signOffPacket.Device_Descriptor) ∧
    (∃ t1, jtag_scope_branch eraseArch3 = some t1 ∧
      (in_res t1 = 0xA0 ↔ u8 eraseArch3._jtag_arch ≠ 5) ∧
      (u8 eraseArch3._jtag_arch ≠ 5 →
        t1._packet_length = 6 ∧ t1.mem = eraseArch3.mem ∧ t1.progmem = eraseArch3.progmem ∧
        t1.nvm_log = eraseArch3.nvm_log) ∧
      (u8 eraseArch3._jtag_arch = 5 → scope_dispatch eraseArch3 = jtag_scope_updi eraseArch3)) :=
  sign_off_keeps_arch signOffPacket eraseArch3 (by decide) (by decide) (by decide)
    (Or.inl (by decide))

/-! ### Termination of `div8` and the range of the end-fragment count -/

/-- With divisor 0 and a positive dividend the loop of `div8` never leaves, whatever the
    iteration budget. -/
theorem div8Loop_zero_divisor (x : Nat) (hx : 0 < x) :
    ∀ (fuel z : Nat), div8Loop fuel x 0 z = none := by
  intro fuel
  induction fuel with
  | zero => intro z; rfl
  | succ f ih =>
    intro z
    unfold div8Loop
    rw [if_pos ⟨hx, Nat.zero_le x⟩, Nat.sub_zero]
    exact ih _

/-- C28: for `y >= 1` and `x / y <= 255`, `div8 x y` terminates with `x / y` (any budget
    above `x / y` iterations suffices); each iteration replaces `x` by the strictly smaller
    `x - y`; with `y = 0` and `x > 0` the loop never terminates. -/
theorem div8_terminates_with_quotient (x y : Nat) :
    (1 ≤ y → x / y ≤ 255 →
      div8 x y = some (x / y) ∧
      (∀ fuel, x / y < fuel → div8Loop fuel x y 0 = some (x / y))) ∧
    (1 ≤ y → 0 < x ∧ y ≤ x →
      x - y < x ∧
      ∀ fuel z, div8Loop (fuel + 1) x y z = div8Loop fuel (x - y) y (u8 (z + 1))) ∧
    (0 < x → div8 x 0 = none ∧ ∀ fuel z, div8Loop fuel x 0 z = none) := by
  refine ⟨?_, ?_, ?_⟩
  · intro hy hq
    have hm : x / y % 256 = x / y := Nat.mod_eq_of_lt (by omega)
    constructor
    · rw [div8_spec x y hy, hm]
    · intro fuel hf
      have := div8Loop_spec y hy fuel x 0 hf (by norm_num)
      rw [this, Nat.zero_add, hm]
  · intro hy hc
    refine ⟨by omega, ?_⟩
    intro fuel z
    conv_lhs => unfold div8Loop
    rw [if_pos hc]
  · intro hx
    exact ⟨div8Loop_zero_divisor x hx _ _, div8Loop_zero_divisor x hx⟩

/-- C28 at `x = 599`, with `y = 60` and with `y = 0`. -/
theorem div8_terminates_with_quotient_witness :
    (div8 599 60 = some (599 / 60) ∧
      (∀ fuel, 599 / 60 < fuel → div8Loop fuel 599 60 0 = some (599 / 60))) ∧
    (599 - 60 < 599 ∧
      ∀ fuel z, div8Loop (fuel + 1) 599 60 z = div8Loop fuel (599 - 60) 60 (u8 (z + 1))) ∧
    (div8 599 0 = none ∧ ∀ fuel z, div8Loop fuel 599 0 z = none) :=
  ⟨(div8_terminates_with_quotient 599 60).1 (by norm_num) (by norm_num),
   (div8_terminates_with_quotient 599 60).2.1 (by norm_num) ⟨by norm_num, by norm_num⟩,
   (div8_terminates_with_quotient 599 0).2.2 (by norm_num)⟩

/-- C24: for `L <= 835`, `complete_jtag_transactions(L)` sets the end-fragment count to
    `floor((L + 65) / 60) = ceil((L + 6) / 60)`, the least number of 60-byte chunks that
    cover the `L + 6` byte frame, and the count lies in 1..15. -/
theorem endfrag_covers_frame (L : Nat) (hL : L ≤ 835) (s : Engine) :
    ∃ s', complete_jtag_transactions L s = some s' ∧
      s'._packet_endfrag = (L + 65) / 60 ∧
      (L + 65) / 60 = (L + 6 + 59) / 60 ∧
      L + 6 ≤ 60 * s'._packet_endfrag ∧
      (∀ m, L + 6 ≤ 60 * m → s'._packet_endfrag ≤ m) ∧
      1 ≤ s'._packet_endfrag ∧ s'._packet_endfrag ≤ 15 := by
  refine ⟨_, complete_jtag_transactions_framed L s, ?_⟩
  have h1 : u16 (L + 65) = L + 65 := Nat.mod_eq_of_lt (by omega)
  have h2 : (L + 65) / 60 % 256 = (L + 65) / 60 := Nat.mod_eq_of_lt (by omega)
  have he : (framed L s)._packet_endfrag = (L + 65) / 60 := by
    show u16 (L + 65) / 60 % 256 = _
    rw [h1, h2]
  rw [he]
  refine ⟨rfl, by omega, by omega, ?_, by omega, by omega⟩
  intro m hm
  omega

/-- C24 at the largest reply length, 835. -/
theorem endfrag_covers_frame_witness :
    ∃ s', complete_jtag_transactions 835 zeroEngine = some s' ∧
      s'._packet_endfrag = (835 + 65) / 60 ∧
      (835 + 65) / 60 = (835 + 6 + 59) / 60 ∧
      835 + 6 ≤ 60 * s'._packet_endfrag ∧
      (∀ m, 835 + 6 ≤ 60 * m → s'._packet_endfrag ≤ m) ∧
      1 ≤ s'._packet_endfrag ∧ s'._packet_endfrag ≤ 15 :=
  endfrag_covers_frame 835 (by norm_num) zeroEngine

/-! ### Flash-page remapping and the payload copy -/

/-- Bit 15 of a 16-bit value is set exactly when the value is at least 0x8000. -/
theorem and_bit15 (a : Nat) (ha : a < 65536) : (a &&& 0x8000 ≠ 0) ↔ 0x8000 ≤ a := by
  constructor
  · intro h
    by_contra hlt
    apply h
    apply Nat.eq_of_testBit_eq
    intro i
    rw [Nat.testBit_and, Nat.zero_testBit]
    by_cases hi : i = 15
    · subst hi
      have : a.testBit 15 = false := Nat.testBit_lt_two_pow (by norm_num; omega)
      rw [this]; rfl
    · have : (0x8000 : Nat).testBit i = false := by
        have := @Nat.testBit_two_pow_of_ne 15 i (fun h => hi h.symm)
        simpa using this
      rw [this, Bool.and_false]
  · intro h hz
    have hb : a.testBit 15 = true := by
      have e : a = 2 ^ 15 + (a - 2 ^ 15) := by norm_num; omega
      rw [e, Nat.testBit_two_pow_add_eq]
      have : (a - 2 ^ 15).testBit 15 = false := Nat.testBit_lt_two_pow (by norm_num; omega)
      rw [this]; rfl
    have hc : (a &&& 0x8000).testBit 15 = true := by
      rw [Nat.testBit_and, hb]
      have : (0x8000 : Nat).testBit 15 = true := by decide
      rw [this]; rfl
    rw [hz, Nat.zero_testBit] at hc
    exact Bool.noConfusion hc

/-- Setting bit 15 of a value below 0x8000 adds 0x8000. -/
theorem or_bit15 (a : Nat) (ha : a < 0x8000) : a ||| 0x8000 = a + 0x8000 := by
  have h := Nat.mul_add_lt_is_or (i := 15) (b := a) (by norm_num; omega) 1
  rw [Nat.or_comm]
  norm_num at h
  omega

/-- The address read from the packet is a 16-bit value. -/
theorem out_dwAddr_lt (s : Engine) : out_dwAddr s < 65536 := by
  unfold out_dwAddr u8
  omega

/-- Closed form of `set_flmap` on a 16-bit address. -/
theorem set_flmap_eq (a : Nat) (ha : a < 65536) (s : Engine) :
    set_flmap a s =
      (if 0x8000 ≤ a then a else a + 0x8000,
       { s with
          GPR_GPR0 := (if 0x8000 ≤ a then FlMap.SECTION1 else FlMap.SECTION0),
          NVMCTRL_CTRLB := (if 0x8000 ≤ a then FlMap.SECTION1 else FlMap.SECTION0),
          nvm_log := s.nvm_log ++
            [NvmEvent.ctrlb (if 0x8000 ≤ a then FlMap.SECTION1 else FlMap.SECTION0)] }) := by
  unfold set_flmap
  by_cases h : 0x8000 ≤ a
  · have hb : a &&& 0x8000 ≠ 0 := (and_bit15 a ha).2 h
    simp only [if_pos hb, if_pos h]
  · have hb : ¬ (a &&& 0x8000 ≠ 0) := fun hb => h ((and_bit15 a ha).1 hb)
    have ho : u16 (a ||| 0x8000) = a + 0x8000 := by
      rw [or_bit15 a (by omega)]
      exact Nat.mod_eq_of_lt (by omega)
    simp only [if_neg hb, if_neg h, ho]

/-- C22: for a flash-page (0xB0) write at or above the boot boundary, `set_flmap` selects
    section 1 exactly when the requested address is at least 0x8000 and section 0
    otherwise; the target address lies in 0x8000..0xFFFF and has the low 15 bits of the
    requested one; the write continues as the flash-alias (0xC0) body at that address, the
    same body a 0xC0 request runs: page erase, sentinel store, page write, payload copy,
    no-operation command. -/
theorem flash_page_write_remaps (s : Engine)
    (htype : out_bMType s = 0xB0) (hboot : ¬ out_dwAddr s < u16 s._bootsize) :
    ((set_flmap (out_dwAddr s) s).2.NVMCTRL_CTRLB = FlMap.SECTION1 ↔ 0x8000 ≤ out_dwAddr s) ∧
    ((set_flmap (out_dwAddr s) s).2.NVMCTRL_CTRLB = FlMap.SECTION0 ↔ out_dwAddr s < 0x8000) ∧
    (write_memory s).2.NVMCTRL_CTRLB = (set_flmap (out_dwAddr s) s).2.NVMCTRL_CTRLB ∧
    0x8000 ≤ (set_flmap (out_dwAddr s) s).1 ∧ (set_flmap (out_dwAddr s) s).1 ≤ 0xFFFF ∧
    (set_flmap (out_dwAddr s) s).1 % 0x8000 = out_dwAddr s % 0x8000 ∧
    write_memory s =
      write_memory_body 0xC0 (set_flmap (out_dwAddr s) s).1 (out_dwLength s)
        (set_flmap (out_dwAddr s) s).2 ∧
    (∀ t : Engine, out_bMType t = 0xC0 →
      write_memory t = write_memory_body 0xC0 (out_dwAddr t) (out_dwLength t) t) ∧
    (write_memory s).2.nvm_log = s.nvm_log ++
      [NvmEvent.ctrlb (set_flmap (out_dwAddr s) s).2.NVMCTRL_CTRLB,
       NvmEvent.cmd NvmCmd.FLPER,
       NvmEvent.store (set_flmap (out_dwAddr s) s).1 0,
       NvmEvent.cmd NvmCmd.FLWR,
       NvmEvent.copy (set_flmap (out_dwAddr s) s).1
         ((List.range (out_dwLength s)).map (out_memData s)),
       NvmEvent.cmd NvmCmd.NONE] := by
  have ha := out_dwAddr_lt s
  have hw : write_memory s =
      write_memory_body 0xC0 (set_flmap (out_dwAddr s) s).1 (out_dwLength s)
        (set_flmap (out_dwAddr s) s).2 := by
    unfold write_memory
    simp only [if_pos htype, if_neg hboot]
  have hc : ∀ t : Engine, out_bMType t = 0xC0 →
      write_memory t = write_memory_body 0xC0 (out_dwAddr t) (out_dwLength t) t := by
    intro t ht
    have n : ¬ (out_bMType t = 0xB0) := by omega
    unfold write_memory
    dsimp only
    rw [if_neg n, ht]
  have e1 : (set_flmap (out_dwAddr s) s).1 =
      if 0x8000 ≤ out_dwAddr s then out_dwAddr s else out_dwAddr s + 0x8000 := by
    rw [set_flmap_eq _ ha s]
  have e2 : (set_flmap (out_dwAddr s) s).2.NVMCTRL_CTRLB =
      if 0x8000 ≤ out_dwAddr s then FlMap.SECTION1 else FlMap.SECTION0 := by
    rw [set_flmap_eq _ ha s]
  have e3 : (set_flmap (out_dwAddr s) s).2.nvm_log =
      s.nvm_log ++ [NvmEvent.ctrlb (set_flmap (out_dwAddr s) s).2.NVMCTRL_CTRLB] := by
    rw [set_flmap_eq _ ha s]
  have e4 : (set_flmap (out_dwAddr s) s).2.rawData = s.rawData := by
    rw [set_flmap_eq _ ha s]
  have hctrl : (write_memory s).2.NVMCTRL_CTRLB = (set_flmap (out_dwAddr s) s).2.NVMCTRL_CTRLB := by
    obtain ⟨_, _, r, d, l, hf⟩ := write_memory_body_frame 0xC0
      (set_flmap (out_dwAddr s) s).1 (out_dwLength s) (set_flmap (out_dwAddr s) s).2
    rw [hw, hf]
  have hlog : (write_memory s).2.nvm_log = s.nvm_log ++
      [NvmEvent.ctrlb (set_flmap (out_dwAddr s) s).2.NVMCTRL_CTRLB,
       NvmEvent.cmd NvmCmd.FLPER,
       NvmEvent.store (set_flmap (out_dwAddr s) s).1 0,
       NvmEvent.cmd NvmCmd.FLWR,
       NvmEvent.copy (set_flmap (out_dwAddr s) s).1
         ((List.range (out_dwLength s)).map (out_memData s)),
       NvmEvent.cmd NvmCmd.NONE] := by
    rw [hw]
    simp [write_memory_body, nvm_cmd, out_memData, e3, e4]
  refine ⟨?_, ?_, hctrl, ?_, ?_, ?_, hw, hc, hlog⟩
  · rw [e2]
    by_cases h : 0x8000 ≤ out_dwAddr s
    · rw [if_pos h]; exact ⟨fun _ => h, fun _ => rfl⟩
    · rw [if_neg h]; exact ⟨fun e => FlMap.noConfusion e, fun e => absurd e h⟩
  · rw [e2]
    by_cases h : 0x8000 ≤ out_dwAddr s
    · rw [if_pos h]; exact ⟨fun e => FlMap.noConfusion e, fun e => by omega⟩
    · rw [if_neg h]; exact ⟨fun _ => by omega, fun _ => rfl⟩
  · rw [e1]; split_ifs <;> omega
  · rw [e1]; split_ifs <;> omega
  · rw [e1]; split_ifs <;> omega

/-- C22 at a request for 0x2000 (section 0, target 0xA000) and one for 0x9000 (section 1). -/
theorem flash_page_write_remaps_witness :
    (write_memory flashLowWrite).2.NVMCTRL_CTRLB = FlMap.SECTION0 ∧
    (set_flmap (out_dwAddr flashLowWrite) flashLowWrite).1 = 0xA000 ∧
    (write_memory flashHighWrite).2.NVMCTRL_CTRLB = FlMap.SECTION1 ∧
    (set_flmap (out_dwAddr flashHighWrite) flashHighWrite).1 = 0x9000 := by
  have l := flash_page_write_remaps flashLowWrite (by decide) (by decide)
  have h := flash_page_write_remaps flashHighWrite (by decide) (by decide)
  refine ⟨?_, by decide, ?_, by decide⟩
  · rw [l.2.2.1]; exact l.2.1.2 (by decide)
  · rw [h.2.2.1]; exact h.1.2 (by decide)

/-- A copy of at most 65536 bytes puts byte `k` of the source at address `d + k` modulo
    65536, also when the destination range wraps. -/
theorem memcpy_wrap (dst src : Nat → Nat) (d : Nat) :
    ∀ (n : Nat), n ≤ 65536 → ∀ k, k < n → memcpy dst d src n (u16 (d + k)) = src k := by
  intro n
  induction n with
  | zero => intro _ k hk; omega
  | succ n ih =>
    intro hn k hk
    simp only [memcpy, setByte]
    by_cases hkn : k = n
    · subst hkn
      rw [if_pos rfl]
    · have hne : ¬ (u16 (d + k) = u16 (d + n)) := by
        simp only [u16]
        omega
      rw [if_neg hne]
      exact ih (by omega) k (by omega)

/-- After the write body, run for at most 513 bytes at a 16-bit address whose target range
    misses the payload bytes of the request, the target range holds the payload. -/
theorem write_memory_body_payload (m a n : Nat) (s : Engine) (ha : a < 65536)
    (hn : n ≤ 513)
    (hsep : ∀ j k, j < n → k < n → u16 (a + j) ≠ s.packet_addr + 17 + k) :
    ∀ k, k < n → data_load (u16 (a + k)) (write_memory_body m a n s).2 = out_memData s k := by
  intro k hk
  have eo : out_memData s k = s.rawData (17 + k) := by
    unfold out_memData
    rw [show u16 (17 + k) = 17 + k from Nat.mod_eq_of_lt (by omega)]
  have e0 : u16 (a + 0) = a := Nat.mod_eq_of_lt (by omega)
  rw [eo]
  unfold write_memory_body
  dsimp only
  split_ifs with c1 c2
  · exact memcpy_to_data_result a (nvm_cmd NvmCmd.EEERWR s) n hn hsep n (le_refl n) k hk
  · have hp := data_store_packet_addr a 0 (nvm_cmd NvmCmd.FLPER s)
    have hq : (nvm_cmd NvmCmd.FLPER s).packet_addr = s.packet_addr := rfl
    have hr : (data_store a 0 (nvm_cmd NvmCmd.FLPER s)).rawData (17 + k) = s.rawData (17 + k) := by
      refine data_store_rawData a 0 (nvm_cmd NvmCmd.FLPER s) (17 + k) ?_
      have := hsep 0 k (by omega) hk
      rw [e0] at this
      rw [hq]
      omega
    refine Eq.trans (memcpy_to_data_result a _ n hn ?_ n (le_refl n) k hk) hr
    intro j k' hj hk'
    show _ ≠ (data_store a 0 (nvm_cmd NvmCmd.FLPER s)).packet_addr + 17 + k'
    rw [hp]
    exact hsep j k' hj hk'
  · exact memcpy_to_data_result a s n hn hsep n (le_refl n) k hk

/-- C23, as stated, fails: a user-row (0xC5) WRITE_MEMORY of the two bytes 0xAA 0xBB whose
    target address is the address of `packet.out.memData[0]` is not refused and returns 1,
    but the sentinel store zeroes the first payload byte before the copy, so the target
    range holds 0x00 0xBB afterwards. -/
theorem write_over_payload_loses_first_byte :
    out_bMType userRowWriteOverPayload = 0xC5 ∧
    out_dwAddr userRowWriteOverPayload = userRowWriteOverPayload.packet_addr + 17 ∧
    out_dwLength userRowWriteOverPayload = 2 ∧
    out_memData userRowWriteOverPayload 0 = 0xAA ∧
    out_memData userRowWriteOverPayload 1 = 0xBB ∧
    (write_memory userRowWriteOverPayload).1 = 1 ∧
    data_load (write_target userRowWriteOverPayload)
      (write_memory userRowWriteOverPayload).2 = 0 ∧
    data_load (write_target userRowWriteOverPayload + 1)
      (write_memory userRowWriteOverPayload).2 = 0xBB := by
  decide

/-- C23, amended: a WRITE_MEMORY that is not refused on the boot boundary, of any memory
    type and address and a length `n <= 513`, returns 1 and ends with the no-operation
    command as last controller event; when no address of the target range (the remapped
    one for type 0xB0) is the address of one of the payload bytes `memData[0 .. n-1]` of
    the request, the `n` bytes that start at the target address hold `memData[0 .. n-1]`
    in order afterwards, and when the target range misses the whole packet buffer these
    are bytes of the data space outside the packet. -/
theorem write_memory_copies_payload (s : Engine)
    (hnot : ¬ (out_bMType s = 0xB0 ∧ out_dwAddr s < u16 s._bootsize))
    (hn : out_dwLength s ≤ 513) :
    (write_memory s).1 = 1 ∧
    (write_memory s).2.nvm_log.getLast? = some (NvmEvent.cmd NvmCmd.NONE) ∧
    ((∀ j k, j < out_dwLength s → k < out_dwLength s →
        u16 (write_target s + j) ≠ s.packet_addr + 17 + k) →
      ∀ k, k < out_dwLength s →
        data_load (u16 (write_target s + k)) (write_memory s).2 = out_memData s k) ∧
    ((∀ k, k < out_dwLength s →
        ¬ (s.packet_addr ≤ u16 (write_target s + k) ∧
           u16 (write_target s + k) < s.packet_addr + 540)) →
      ∀ k, k < out_dwLength s →
        (write_memory s).2.mem (u16 (write_target s + k)) = out_memData s k) := by
  have main : (write_memory s).1 = 1 ∧
      (write_memory s).2.nvm_log.getLast? = some (NvmEvent.cmd NvmCmd.NONE) ∧
      (write_memory s).2.packet_addr = s.packet_addr ∧
      ((∀ j k, j < out_dwLength s → k < out_dwLength s →
          u16 (write_target s + j) ≠ s.packet_addr + 17 + k) →
        ∀ k, k < out_dwLength s →
          data_load (u16 (write_target s + k)) (write_memory s).2 = out_memData s k) := by
    by_cases hB : out_bMType s = 0xB0
    · have hboot : ¬ out_dwAddr s < u16 s._bootsize := fun h => hnot ⟨hB, h⟩
      have hw : write_memory s =
          write_memory_body 0xC0 (set_flmap (out_dwAddr s) s).1 (out_dwLength s)
            (set_flmap (out_dwAddr s) s).2 := by
        unfold write_memory
        simp only [if_pos hB, if_neg hboot]
      have hraw : out_memData (set_flmap (out_dwAddr s) s).2 = out_memData s := by
        rw [set_flmap_eq _ (out_dwAddr_lt s) s]
        rfl
      have hp := (set_flmap_keeps_packet (out_dwAddr s) s).2
      have ht : write_target s = (set_flmap (out_dwAddr s) s).1 := by
        unfold write_target
        rw [if_pos hB]
      have hlt : (set_flmap (out_dwAddr s) s).1 < 65536 := by
        have ha := out_dwAddr_lt s
        rw [set_flmap_eq _ ha s]
        dsimp only
        split_ifs <;> omega
      obtain ⟨f1, f2, r, d, l, f3⟩ := write_memory_body_frame 0xC0
        (set_flmap (out_dwAddr s) s).1 (out_dwLength s) (set_flmap (out_dwAddr s) s).2
      refine ⟨by rw [hw]; exact f1, by rw [hw]; exact f2, ?_, ?_⟩
      · rw [hw, f3]
        exact hp
      · intro hsep k hk
        rw [hw, ht, ← hraw]
        exact write_memory_body_payload _ _ _ _ hlt hn
          (by rw [hp, ← ht]; exact hsep) k hk
    · have hB' : ¬ (out_bMType s = 0xB0) := hB
      have hw : write_memory s =
          write_memory_body (out_bMType s) (out_dwAddr s) (out_dwLength s) s := by
        unfold write_memory
        simp only [if_neg hB']
      have ht : write_target s = out_dwAddr s := by
        unfold write_target
        rw [if_neg hB']
      obtain ⟨f1, f2, r, d, l, f3⟩ := write_memory_body_frame (out_bMType s)
        (out_dwAddr s) (out_dwLength s) s
      refine ⟨by rw [hw]; exact f1, by rw [hw]; exact f2, ?_, ?_⟩
      · rw [hw, f3]
      · intro hsep k hk
        rw [hw, ht]
        exact write_memory_body_payload _ _ _ _ (out_dwAddr_lt s) hn
          (by rw [← ht]; exact hsep) k hk
  obtain ⟨m1, m2, m3, m4⟩ := main
  refine ⟨m1, m2, m4, ?_⟩
  intro hout k hk
  have hload := m4 (fun j k' hj hk' => by
    have := hout j hj
    omega) k hk
  unfold data_load at hload
  rw [m3, if_neg (hout k hk)] at hload
  exact hload

/-- C23 amended, at the request `flashLowWrite`, whose target range 0xA000..0xA001 is
    outside the packet buffer. -/
theorem write_memory_copies_payload_witness :
    (write_memory flashLowWrite).1 = 1 ∧
    (write_memory flashLowWrite).2.nvm_log.getLast? = some (NvmEvent.cmd NvmCmd.NONE) ∧
    (∀ k, k < out_dwLength flashLowWrite →
      data_load (u16 (write_target flashLowWrite + k)) (write_memory flashLowWrite).2 =
        out_memData flashLowWrite k) ∧
    (∀ k, k < out_dwLength flashLowWrite →
      (write_memory flashLowWrite).2.mem (u16 (write_target flashLowWrite + k)) =
        out_memData flashLowWrite k) := by
  obtain ⟨h1, h2, h3, h4⟩ :=
    write_memory_copies_payload flashLowWrite (by decide) (by decide)
  have e1 : write_target flashLowWrite = 0xA000 := by decide
  have e2 : out_dwLength flashLowWrite = 2 := by decide
  have e3 : flashLowWrite.packet_addr = 0x6800 := rfl
  refine ⟨h1, h2, h3 ?_, h4 ?_⟩
  · intro j k hj hk
    rw [e2] at hj hk
    rw [e1, e3]
    simp only [u16]
    omega
  · intro k hk
    rw [e2] at hk
    rw [e1, e3]
    simp only [u16]
    omega

/-! ### Bus reset and the session fields -/

/-- C21, as stated, fails: after a bus reset of a session with architecture 5, connection
    type 8 and a stored descriptor, these three are as before; only `GPCONF`,
    `_set_config` and `USB0_ADDR` are cleared. -/
theorem bus_reset_keeps_session :
    (handling_bus_events 0x80 false true liveSession).map
      (fun e => (e._jtag_arch, e._jtag_conn, e.Device_Descriptor 0, e.Device_Descriptor 47)) =
      some (5, 8, 0xEE, 0xEE) ∧
    (handling_bus_events 0x80 false true liveSession).map
      (fun e => (e.GPCONF, e._set_config, e.USB0_ADDR)) = some (0, 0, 0) ∧
    liveSession._jtag_arch = 5 ∧ liveSession._jtag_conn = 8 ∧
    liveSession.Device_Descriptor 0 = 0xEE := by
  decide

/-- C21, amended: a bus reset (reset flag set, no resume) runs `setup_device(false)`:
    architecture selector, connection type, device descriptor, packet buffer and data
    space are unchanged; `USB0_ADDR` becomes 0; when the USB controller is enabled,
    `GPCONF` and `_set_config` are cleared and the endpoint counters re-initialised, and
    when it is not they stay as they were. -/
theorem bus_reset_effect (e : Nat) (s : Engine) :
    ∃ s', handling_bus_events e false true s = some s' ∧
      s' = setup_device e false s ∧
      s'._jtag_arch = s._jtag_arch ∧ s'._jtag_conn = s._jtag_conn ∧
      s'.Device_Descriptor = s.Device_Descriptor ∧
      s'.rawData = s.rawData ∧ s'.mem = s.mem ∧
      s'.USB0_ADDR = 0 ∧
      (u8 s.USB0_CTRLA ≠ 0 → s'.GPCONF = 0 ∧ s'._set_config = 0 ∧
        s'.EP_DPI_CNT = 64 ∧ s'.EP_DPI_MCNT = 0 ∧ s'.EP_DPO_CNT = 0) ∧
      (u8 s.USB0_CTRLA = 0 → s'.GPCONF = s.GPCONF ∧ s'._set_config = s._set_config) := by
  refine ⟨setup_device e false s, rfl, rfl, ?_⟩
  unfold setup_device
  by_cases h : u8 s.USB0_CTRLA ≠ 0
  · have hc : u8 s.USB0_CTRLA ≠ 0 ∨ false = true := Or.inl h
    rw [if_pos hc]
    exact ⟨rfl, rfl, rfl, rfl, rfl, rfl, fun _ => ⟨rfl, rfl, rfl, rfl, rfl⟩,
      fun h0 => absurd h0 h⟩
  · have hc : ¬ (u8 s.USB0_CTRLA ≠ 0 ∨ false = true) := by
      intro hc
      rcases hc with hc | hc
      · exact h hc
      · exact Bool.noConfusion hc
    rw [if_neg hc]
    exact ⟨rfl, rfl, rfl, rfl, rfl, rfl, fun h1 => absurd h1 h, fun _ => ⟨rfl, rfl⟩⟩

/-- C21 amended, at the session `liveSession`. -/
theorem bus_reset_effect_witness :
    ∃ s', handling_bus_events 0x80 false true liveSession = some s' ∧
      s'._jtag_arch = liveSession._jtag_arch ∧ s'._jtag_conn = liveSession._jtag_conn ∧
      s'.Device_Descriptor = liveSession.Device_Descriptor ∧
      s'.GPCONF = 0 ∧ s'._set_config = 0 := by
  obtain ⟨s', h, _, a, b, c, _, _, _, d, _⟩ := bus_reset_effect 0x80 liveSession
  exact ⟨s', h, a, b, c, (d (by decide)).1, (d (by decide)).2.1⟩

/-! ### Size of the device descriptor -/

/-- The packed descriptor is 48 bytes long. -/
theorem sizeof_Device_Desc_eq : sizeof_Device_Desc = 48 := by decide

/-- C27, failing input: a SET_PARAMETER of section 2, index 0 with declared length 63
    copies 63 bytes into the 48-byte `Device_Descriptor`; the bytes at offsets 48..62,
    behind the descriptor, are overwritten with the blob. -/
theorem descriptor_copy_overruns :
    out_scope descriptor63 = 0x12 ∧ out_cmd descriptor63 = 0x01 ∧
    out_section descriptor63 = 2 ∧ out_index descriptor63 = 0 ∧
    out_length descriptor63 = 63 ∧
    descriptor_copy_count 63 = 63 ∧ sizeof_Device_Desc = 48 ∧
    descriptor63.Device_Descriptor 48 = 0 ∧ descriptor63.Device_Descriptor 62 = 0 ∧
    (jtag_scope_branch descriptor63).map
      (fun e => (e.Device_Descriptor 47, e.Device_Descriptor 48, e.Device_Descriptor 62,
        e.Device_Descriptor 63)) = some (0xBB, 0xBB, 0xBB, 0) := by
  decide

/-! ### Duplicated fragments and the chunk counter -/

set_option maxRecDepth 8000 in
/-- C26, failing input: the reports "1 of 4", "2 of 4", "2 of 4", "4 of 4".  The last one
    is reported complete (status OK, counter 4, length 240) although no fragment of index
    3 arrived: the buffer bytes 120..179 are the ones from before the transfer. -/
theorem duplicate_fragment_completes :
    feed_flags duplicateInsteadOfThird zeroEngine = [false, false, false, true] ∧
    (feed_state duplicateInsteadOfThird zeroEngine).dap_data 1 = 0x01 ∧
    (feed_state duplicateInsteadOfThird zeroEngine)._packet_chunks = 4 ∧
    (feed_state duplicateInsteadOfThird zeroEngine)._packet_length = 240 ∧
    (feed_state duplicateInsteadOfThird zeroEngine).rawData 0 = 0x11 ∧
    (feed_state duplicateInsteadOfThird zeroEngine).rawData 60 = 0x2B ∧
    (feed_state duplicateInsteadOfThird zeroEngine).rawData 120 = zeroEngine.rawData 120 ∧
    (feed_state duplicateInsteadOfThird zeroEngine).rawData 179 = zeroEngine.rawData 179 ∧
    (feed_state duplicateInsteadOfThird zeroEngine).rawData 180 = 0x44 := by
  decide

/-! ### The sequence of served chunks -/

/-- A header byte built from two nibbles is below 256. -/
theorem header_byte_fits :
    ∀ j < 16, ∀ n < 16, u8 ((j <<< 4) ||| n) = (j <<< 4) ||| n := by
  decide

/-- What the sender leaves after one poll while a reply is queued, for cursors up to 14
    and end-fragment counts up to 15. -/
theorem serve_report_frame15 (q : Nat → Nat) (tx : Engine) (hq : u8 (q 0) = 0x81)
    (j n len : Nat) (hj : tx._packet_fragment = j) (hn : tx._packet_endfrag = n)
    (hlen : tx._packet_length = len) (hj15 : j < 15) (hn15 : 0 < n ∧ n ≤ 15)
    (hl : len < 65536) :
    (serve_report q tx).rawData = tx.rawData ∧
    (serve_report q tx)._packet_fragment = j + 1 ∧
    (serve_report q tx)._packet_endfrag = n ∧
    (serve_report q tx)._packet_length = u16 (len + 65476) ∧
    (serve_report q tx).dap_data 1 = ((j + 1) <<< 4) ||| n ∧
    (serve_report q tx).dap_data 3 = (if j + 1 = n then u8 len else 60) ∧
    (∀ k < 60, (serve_report q tx).dap_data (4 + k) = tx.rawData (1 + j * 60 + k)) := by
  have hsrv := dap_check_serve (load_report q tx) (by simpa [load_report] using hq)
    (by simp only [load_report, hn, u8]; omega)
  have hj8 : u8 j = j := Nat.mod_eq_of_lt (by omega)
  have hj8' : u8 (j + 1) = j + 1 := Nat.mod_eq_of_lt (by omega)
  have hn8 : u8 n = n := Nat.mod_eq_of_lt (by omega)
  have hl16 : u16 len = len := Nat.mod_eq_of_lt hl
  have hdr := header_byte_fits (j + 1) (by omega) n (by omega)
  unfold serve_report
  rw [hsrv]
  simp only [load_report, complete_dap_out, hj, hn, hlen, hj8, hj8', hn8, hl16]
  refine ⟨trivial, trivial, trivial, trivial, ?_, ?_, ?_⟩
  · simp only [setByte]
    simpa using hdr
  · simp [setByte]
  · intro k hk
    have h1 : (4 + k = 3) = False := by simp; omega
    have h2 : (4 + k = 1) = False := by simp; omega
    simp only [setByte, h1, h2, if_false]
    rw [memcpy_apply _ _ 4 60 (4 + k) (by norm_num)]
    have h3 : 4 ≤ 4 + k ∧ 4 + k < 4 + 60 := by omega
    rw [if_pos h3]
    have h4 : 4 + k - 4 = k := by omega
    have h5 : u16 (1 + j * 60 + k) = 1 + j * 60 + k := Nat.mod_eq_of_lt (by omega)
    simp only [h4, h5]

/-- Arithmetic of an `L + 6` byte frame, `L <= 835`, cut into `n = (L + 65) / 60` chunks. -/
theorem frame_arith15 (L n j : Nat) (hL : L ≤ 835) (hn : n = (L + 65) / 60) (hj : j + 1 ≤ n) :
    0 < n ∧ n ≤ 15 ∧ j < 15 ∧ L + 6 - 60 * j < 65536 ∧
    (j + 1 = n → u8 (L + 6 - 60 * j) = L + 6 - 60 * j ∧ 1 ≤ L + 6 - 60 * j ∧
      L + 6 - 60 * j ≤ 60) ∧
    (j + 1 < n → u16 (L + 6 - 60 * j + 65476) = L + 6 - 60 * (j + 1) ∧
      60 + (L + 6 - 60 * (j + 1)) = L + 6 - 60 * j) ∧
    (j + 1 = n → L + 6 - 60 * (j + 1) = 0) := by
  unfold u8 u16
  omega

/-- Invariant of `poll_frames`: the sender has served `j` chunks of the frame `R`. -/
theorem poll_frames_inv (R : Nat → Nat) (L n : Nat) (hL : L ≤ 835) (hn : n = (L + 65) / 60) :
    ∀ (polls : List (Nat → Nat)) (j : Nat) (tx : Engine),
      (∀ q ∈ polls, u8 (q 0) = 0x81) → j + polls.length = n →
      tx.rawData = R → tx._packet_fragment = j → tx._packet_endfrag = n →
      (polls ≠ [] → tx._packet_length = L + 6 - 60 * j) →
      (poll_frames polls tx).length = polls.length ∧
      (∀ i F, (poll_frames polls tx)[i]? = some F →
        F 1 = ((j + i + 1) <<< 4) ||| n ∧
        F 3 = (if j + i + 1 = n then L + 6 - 60 * (j + i) else 60) ∧
        (∀ k, k < 60 → F (4 + k) = R (1 + 60 * (j + i) + k))) ∧
      ((poll_frames polls tx).map (fun F => F 3)).sum = L + 6 - 60 * j := by
  intro polls
  induction polls with
  | nil =>
    intro j tx _ hlen _ _ _ _
    simp only [List.length_nil, Nat.add_zero] at hlen
    refine ⟨rfl, ?_, ?_⟩
    · intro i F h
      simp [poll_frames] at h
    · simp only [poll_frames, List.map_nil, List.sum_nil]
      omega
  | cons q qs ih =>
    intro j tx hq hlen hR hj hn' hl
    have hl' := hl (by simp)
    clear hl
    have hjn : j + 1 + qs.length = n := by simp only [List.length_cons] at hlen; omega
    obtain ⟨a1, a2, a3, a4, a5, a6, a7⟩ := frame_arith15 L n j hL hn (by omega)
    obtain ⟨f1, f2, f3, f4, f5, f6, f8⟩ :=
      serve_report_frame15 q tx (hq q (List.mem_cons_self _ _)) j n (L + 6 - 60 * j) hj hn'
        hl' a3 ⟨a1, a2⟩ a4
    have hstep : poll_frames (q :: qs) tx =
        (serve_report q tx).dap_data :: poll_frames qs (serve_report q tx) := rfl
    rw [hstep]
    generalize serve_report q tx = tx' at f1 f2 f3 f4 f5 f6 f8 ⊢
    rw [hR] at f8
    have hlast : qs = [] → j + 1 = n := by
      intro h; rw [h] at hjn; simpa using hjn
    have hmore : qs ≠ [] → j + 1 < n := by
      intro h
      have : 0 < qs.length := List.length_pos.mpr h
      omega
    have e1 : ∀ i, j + (i + 1) + 1 = j + 1 + i + 1 := fun i => by omega
    have e2 : ∀ i, j + (i + 1) = j + 1 + i := fun i => by omega
    have e3 : j + 1 = n → j + 0 + 1 = n := fun h => by omega
    have e4 : ¬ (j + 1 = n) → ¬ (j + 0 + 1 = n) := fun h => by omega
    have e5 : ∀ k, 1 + j * 60 + k = 1 + 60 * (j + 0) + k := fun k => by omega
    have e6 : L + 6 - 60 * (j + 0) = L + 6 - 60 * j := rfl
    obtain ⟨i1, i2, i3⟩ := ih (j + 1) tx'
      (fun q' hq' => hq q' (List.mem_cons_of_mem _ hq')) hjn (by rw [f1, hR]) f2 f3
      (fun h => by rw [f4]; exact (a6 (hmore h)).1)
    refine ⟨by simp [i1], ?_, ?_⟩
    · intro i F h
      cases i with
      | zero =>
        simp only [List.getElem?_cons_zero, Option.some.injEq] at h
        subst h
        refine ⟨by simpa using f5, ?_, ?_⟩
        · rw [f6]
          by_cases e : j + 1 = n
          · rw [if_pos e, if_pos (e3 e), (a5 e).1]; rfl
          · rw [if_neg e, if_neg (e4 e)]
        · intro k hk
          rw [f8 k hk, e5 k]
      | succ i =>
        simp only [List.getElem?_cons_succ] at h
        obtain ⟨g1, g2, g3⟩ := i2 i F h
        rw [e1 i, e2 i]
        exact ⟨g1, g2, g3⟩
    · simp only [List.map_cons, List.sum_cons, i3, f6]
      by_cases e : j + 1 = n
      · rw [if_pos e, (a5 e).1, a7 e, Nat.add_zero]
      · rw [if_neg e]
        have hq2 : qs ≠ [] := fun h => e (hlast h)
        exact (a6 (hmore hq2)).2

/-- C25: for `L <= 835`, over the `(L + 65) / 60` polls that follow
    `complete_jtag_transactions(L)`, poll `i + 1` answers header byte
    `((i + 1) << 4) | end_fragment_count` and the 60 buffer bytes from offset `1 + 60 i`;
    every poll but the last declares chunk size 60, the last one a size in 1..60, and the
    declared sizes sum to `L + 6`. -/
theorem poll_sequence (L : Nat) (hL : L ≤ 835) (s0 : Engine)
    (polls : List (Nat → Nat)) (hpolls : ∀ q ∈ polls, u8 (q 0) = 0x81)
    (hlen : polls.length = (L + 65) / 60) :
    ∃ s1, complete_jtag_transactions L s0 = some s1 ∧
      s1._packet_endfrag = polls.length ∧
      (poll_frames polls s1).length = polls.length ∧
      (∀ i F, (poll_frames polls s1)[i]? = some F →
        F 1 = ((i + 1) <<< 4) ||| polls.length ∧
        (∀ k, k < 60 → F (4 + k) = s1.rawData (1 + 60 * i + k)) ∧
        (i + 1 < polls.length → F 3 = 60) ∧
        (i + 1 = polls.length → 1 ≤ F 3 ∧ F 3 ≤ 60)) ∧
      ((poll_frames polls s1).map (fun F => F 3)).sum = L + 6 := by
  refine ⟨_, complete_jtag_transactions_framed L s0, ?_⟩
  have h1 : u16 (L + 65) = L + 65 := Nat.mod_eq_of_lt (by omega)
  have h2 : u16 (L + 6) = L + 6 := Nat.mod_eq_of_lt (by omega)
  have h3 : (L + 65) / 60 % 256 = (L + 65) / 60 := Nat.mod_eq_of_lt (by omega)
  have hend : (framed L s0)._packet_endfrag = (L + 65) / 60 := by
    show u16 (L + 65) / 60 % 256 = _
    rw [h1, h3]
  have hplen : (framed L s0)._packet_length = L + 6 - 60 * 0 := by
    show u16 (L + 6) = _
    rw [h2]
    rfl
  have a5 : ∀ i, i + 1 = (L + 65) / 60 → 1 ≤ L + 6 - 60 * i ∧ L + 6 - 60 * i ≤ 60 :=
    fun i h => by omega
  obtain ⟨p1, p2, p3⟩ := poll_frames_inv (framed L s0).rawData L ((L + 65) / 60) hL rfl
    polls 0 (framed L s0) hpolls (by rw [hlen, Nat.zero_add]) rfl rfl hend (fun _ => hplen)
  rw [hlen]
  refine ⟨hend, by rw [p1, hlen], ?_, by simpa using p3⟩
  intro i F h
  obtain ⟨g1, g2, g3⟩ := p2 i F h
  simp only [Nat.zero_add] at g1 g2 g3
  refine ⟨g1, g3, ?_, ?_⟩
  · intro hi
    rw [g2, if_neg (Nat.ne_of_lt hi)]
  · intro hi
    rw [g2, if_pos hi]
    exact a5 i hi

/-- C25 at a reply of length 100 (two polls) sent from `countingSender`. -/
theorem poll_sequence_witness :
    ∃ s1, complete_jtag_transactions 100 countingSender = some s1 ∧
      s1._packet_endfrag = [pollReq, pollReq].length ∧
      (poll_frames [pollReq, pollReq] s1).length = [pollReq, pollReq].length ∧
      (∀ i F, (poll_frames [pollReq, pollReq] s1)[i]? = some F →
        F 1 = ((i + 1) <<< 4) ||| [pollReq, pollReq].length ∧
        (∀ k, k < 60 → F (4 + k) = s1.rawData (1 + 60 * i + k)) ∧
        (i + 1 < [pollReq, pollReq].length → F 3 = 60) ∧
        (i + 1 = [pollReq, pollReq].length → 1 ≤ F 3 ∧ F 3 ≤ 60)) ∧
      ((poll_frames [pollReq, pollReq] s1).map (fun F => F 3)).sum = 100 + 6 :=
  poll_sequence 100 (by norm_num) countingSender [pollReq, pollReq]
    (by intro q hq; simp at hq; subst hq; decide) (by decide)

end Euboot
